import Mathlib

/-!
# matchengine/me_server.c : request dispatch and order validation

A shallow embedding of the command handlers of `me_server.c`.

* Decimal values (`mpd_t`) are exact rationals; `mpd_add`, `mpd_mul`, `mpd_cmp`
  are exact, `mpd_rem` is the remainder of truncated division, and the only
  rounding operation, `mpd_rescale`, is a parameter.
* JSON values (jansson `json_t`) are an inductive type; the accessors follow
  the jansson reference (a missing array slot behaves like `NULL`).
* Routines of the other modules (`me_market`, `me_balance`, `me_update`,
  `me_operlog`, ...) are not part of this file in the repository; they are the
  fields of `Env`, and every theorem holds for all of them.
* A handler returns an `Outcome`: the engine state after the call and the
  ordered trace of the effects it performed (replies sent, routines of other
  modules called, operlog entries appended).
-/

namespace MatchEngine

/-! ## Decimals -/

/-- Values of type `mpd_t` are modelled as exact rationals. -/
abbrev Dec := ℚ

/-- Comparison `mpd_cmp(a, b, ctx)`: negative, zero or positive. -/
def mpd_cmp (a b : Dec) : Int :=
  if a < b then -1 else if a = b then 0 else 1

/-- Integer part of a rational, rounding towards zero. -/
def mpd_trunc (q : Dec) : Int :=
  if 0 ≤ q then ⌊q⌋ else ⌈q⌉

/-- Remainder `mpd_rem(r, a, b, ctx)`: `a - b * trunc(a / b)`, with the sign of `a`. -/
def mpd_rem (a b : Dec) : Dec :=
  a - b * (mpd_trunc (a / b) : Int)

/-! ## JSON values (jansson) -/

/-- JSON values as built and inspected through the jansson API. -/
inductive Json where
  | null
  | bool (b : Bool)
  | integer (n : Int)
  | real (q : ℚ)
  | string (s : String)
  | array (xs : List Json)
  | object (kvs : List (String × Json))

/-- Test `json_is_array`. -/
def json_is_array : Json → Bool
  | .array _ => true
  | _ => false

/-- Length `json_array_size`: 0 for anything that is not an array. -/
def json_array_size : Json → Nat
  | .array xs => xs.length
  | _ => 0

/-- Lookup `json_array_get`: `NULL` (none) when out of range or not an array. -/
def json_array_get : Json → Nat → Option Json
  | .array xs, i => xs.get? i
  | _, _ => none

/-- Test `json_is_integer` (false on `NULL`). -/
def json_is_integer : Option Json → Bool
  | some (.integer _) => true
  | _ => false

/-- Test `json_is_string` (false on `NULL`). -/
def json_is_string : Option Json → Bool
  | some (.string _) => true
  | _ => false

/-- Test `json_is_object` (false on `NULL`). -/
def json_is_object : Option Json → Bool
  | some (.object _) => true
  | _ => false

/-- Value `json_integer_value`: 0 for anything that is not an integer. -/
def json_integer_value : Option Json → Int
  | some (.integer n) => n
  | _ => 0

/-- Value `json_string_value`: `NULL` (none) for anything that is not a string. -/
def json_string_value : Option Json → Option String
  | some (.string s) => some s
  | _ => none

/-- Conversion of a `json_int_t` to `uint32_t`. -/
def to_uint32 (n : Int) : Nat := (n % 4294967296).toNat

/-- Conversion of a `json_int_t` to `uint64_t` (also `size_t`). -/
def to_uint64 (n : Int) : Nat := (n % 18446744073709551616).toNat

/-- Conversion of an unsigned 64-bit value to `json_int_t` (signed 64-bit), as
done by `json_integer` on a `uint64_t` or `size_t` argument. -/
def to_json_int (n : Nat) : Int :=
  if n % 18446744073709551616 < 9223372036854775808 then (n % 18446744073709551616 : Nat)
  else (n % 18446744073709551616 : Nat) - 18446744073709551616

/-- Length `strlen` of a C string: its number of bytes. -/
def strlen (s : String) : Nat := s.utf8ByteSize

/-! ## Data model -/

/-- The fields of `order_t` that `me_server.c` reads. -/
structure Order where
  id : Nat
  user_id : Nat
  price : Dec
  left : Dec

/-- The fields of `market_t` that `me_server.c` reads; a skiplist is the list
of its values in iteration order. -/
structure Market where
  name : String
  stock : String
  money : String
  stock_prec : Int
  money_prec : Int
  fee_prec : Int
  min_amount : Dec
  min_total : Dec
  last_price : Dec
  closing_price : Dec
  include_fee : Bool
  asks : List Order
  bids : List Order

/-- Command codes of the request header, by name; the numeric values live in a
header that is not part of this file. -/
inductive Command where
  | CMD_BALANCE_QUERY
  | CMD_BALANCE_UPDATE
  | CMD_ASSET_LIST
  | CMD_ASSET_SUMMARY
  | CMD_ASSET_REGISTER
  | CMD_ORDER_PUT_LIMIT
  | CMD_ORDER_PUT_MARKET
  | CMD_ORDER_PUT_AON
  | CMD_ORDER_PUT_FOK
  | CMD_ORDER_QUERY
  | CMD_ORDER_CANCEL
  | CMD_ORDER_BOOK
  | CMD_ORDER_BOOK_DEPTH
  | CMD_ORDER_DETAIL
  | CMD_MARKET_LIST
  | CMD_MARKET_SUMMARY
  | CMD_MARKET_REGISTER
  | CMD_MARKET_DETAIL
  | unknown (code : Nat)
  deriving DecidableEq

/-- The request envelope `rpc_pkg`. -/
structure rpc_pkg where
  command : Command
  sequence : Nat
  req_id : Nat
  body : String

/-- Side constant `MARKET_ORDER_SIDE_ASK`. -/
def MARKET_ORDER_SIDE_ASK : Nat := 1

/-- Side constant `MARKET_ORDER_SIDE_BID`. -/
def MARKET_ORDER_SIDE_BID : Nat := 2

/-- Balance kind `BALANCE_TYPE_AVAILABLE`. -/
def BALANCE_TYPE_AVAILABLE : Nat := 1

/-- Balance kind `BALANCE_TYPE_FREEZE`. -/
def BALANCE_TYPE_FREEZE : Nat := 2

/-- One entry `settings.assets[i]` of the asset table. -/
structure asset_cfg where
  name : String
  prec_save : Int
  prec_show : Int
  tick_size : Dec

/-- One entry `settings.markets[i]` of the market table. -/
structure market_cfg where
  name : String
  name_full : String
  stock : String
  money : String
  fee_prec : Int
  stock_prec : Int
  money_prec : Int
  delisting_ts : Nat
  min_total : Dec
  init_price : Dec

/-- The fields of the global `settings` that `me_server.c` reads. -/
structure Settings where
  cache_timeout : ℚ
  assets : List asset_cfg
  markets : List market_cfg
  last_price_limit : Dec
  closing_price_limit : Dec

/-- A cached depth result, `struct cache_val`. -/
structure cache_val where
  time : ℚ
  result : Json

/-- One balance entry of the ledger: `(user, kind, asset) -> amount`. -/
structure balance_entry where
  user_id : Nat
  type : Nat
  asset : String
  amount : Dec

/-- The state of the engine process: the globals of `me_server.c`
(`dict_cache`), the globals it reads (`settings`, `signal_block`), the clock
read by `current_timestamp`, and the state owned by the other modules. -/
structure Engine where
  settings : Settings
  signal_block : Bool
  dict_cache : List (String × cache_val)
  now : ℚ
  markets : List Market
  balances : List balance_entry
  updates : List (String × Nat)
  operlog : List (String × Json)
  operlog_block : Bool
  history_block : Bool
  message_block : Bool

/-- An effect performed by a handler, in program order. -/
inductive Event where
  | rpc_send (reply : Json)
  | rpc_svr_close_clt
  | handler (cmd : Command)
  | null_deref
  | update_user_balance (user_id : Nat) (asset business : String) (business_id : Nat)
      (change : Dec) (detail : Json)
  | market_put_limit_order (market : Market) (user_id side : Nat)
      (amount price taker_fee maker_fee : Dec) (source : String)
  | market_put_aon_order (market : Market) (user_id side : Nat)
      (amount price taker_fee maker_fee : Dec) (source : String)
  | market_put_market_order (market : Market) (user_id side : Nat)
      (amount taker_fee : Dec) (source : String)
  | market_put_fok_order (market : Market) (user_id side : Nat)
      (amount price taker_fee : Dec) (source : String)
  | market_cancel_order (market : Market) (order : Order)
  | append_operlog (oper : String) (params : Json)
  | asset_register (symbol name tick_size : String)
  | market_register (ticker name : String) (base_id counter_id : Int) (init_price : String)
      (delisting_ts : Nat)

/-- What a handler did: the state it leaves and the effects it performed. -/
structure Outcome where
  state : Engine
  trace : List Event

/-- Status, result object and new state returned by a placement or cancel routine
(`int ret`, `json_t **result`, and the mutated engine). -/
structure PutResult where
  ret : Int
  result : Json
  state : Engine

/-- The six out-parameters of `balance_status`. -/
structure balance_status_t where
  total : Dec
  available_count : Nat
  available : Dec
  freeze_count : Nat
  freeze : Dec
  total_count : Nat

/-- The four out-parameters of `market_get_status`. -/
structure market_status_t where
  ask_count : Nat
  ask_amount : Dec
  bid_count : Nat
  bid_amount : Dec

/-- The routines `me_server.c` calls in other modules and libraries. -/
structure Env where
  json_loadb : String → Option Json
  command_code : Command → Nat
  decimal : Option String → Int → Option Dec
  mpd_rescale : Dec → Int → Dec
  mpd_to_sci : Dec → String
  SOURCE_MAX_LEN : Nat
  ORDER_BOOK_MAX_LEN : Nat
  ORDER_LIST_MAX_LEN : Nat
  get_market : Engine → String → Option Market
  asset_exist : Engine → String → Bool
  asset_id : Engine → String → Int
  asset_prec : Engine → String → Int
  asset_prec_show : Engine → String → Int
  asset_tick_size : Engine → String → Dec
  balance_get : Engine → Nat → Nat → String → Option Dec
  balance_status : Engine → String → balance_status_t
  check_price_limit : Dec → Dec → Dec → Bool
  is_operlog_block : Engine → Bool
  is_history_block : Engine → Bool
  is_message_block : Engine → Bool
  append_operlog : Engine → String → Json → Engine
  update_user_balance : Engine → Nat → String → String → Nat → Dec → Json → Int × Engine
  market_put_limit_order : Engine → Market → Nat → Nat → Dec → Dec → Dec → Dec → String → PutResult
  market_put_aon_order : Engine → Market → Nat → Nat → Dec → Dec → Dec → Dec → String → PutResult
  market_put_market_order : Engine → Market → Nat → Nat → Dec → Dec → String → PutResult
  market_put_fok_order : Engine → Market → Nat → Nat → Dec → Dec → Dec → String → PutResult
  market_cancel_order : Engine → Market → Order → PutResult
  market_get_order : Market → Nat → Option Order
  market_get_order_list : Market → Nat → Option (List Order)
  market_get_status : Market → market_status_t
  market_detail : Market → Json
  get_order_info : Order → Json
  asset_register : Engine → String → String → String → Int × Engine
  market_register : Engine → String → String → Int → Int → String → Nat → Int × Engine

/-! ## Replies -/

/-- Routine `reply_json`: serialise and send one reply (`json_dumps` is assumed
to succeed, so the return value is 0). -/
def reply_json (st : Engine) (_pkg : rpc_pkg) (json : Json) : Outcome :=
  { state := st, trace := [Event.rpc_send json] }

/-- Routine `reply_error`. -/
def reply_error (st : Engine) (pkg : rpc_pkg) (code : Int) (message : String) : Outcome :=
  let error := Json.object [("code", Json.integer (code + 5000)), ("message", Json.string message)]
  let reply := Json.object [("error", error), ("result", Json.null), ("id", Json.integer (to_json_int pkg.req_id))]
  reply_json st pkg reply

/-- Routine `reply_error_invalid_argument`. -/
def reply_error_invalid_argument (st : Engine) (pkg : rpc_pkg) : Outcome :=
  reply_error st pkg 1 "invalid argument"

/-- Routine `reply_error_internal_error`. -/
def reply_error_internal_error (st : Engine) (pkg : rpc_pkg) : Outcome :=
  reply_error st pkg 2 "internal error"

/-- Routine `reply_error_service_unavailable`. -/
def reply_error_service_unavailable (st : Engine) (pkg : rpc_pkg) : Outcome :=
  reply_error st pkg 3 "service unavailable"

/-- Routine `reply_result`. -/
def reply_result (st : Engine) (pkg : rpc_pkg) (result : Json) : Outcome :=
  let reply := Json.object [("error", Json.null), ("result", result), ("id", Json.integer (to_json_int pkg.req_id))]
  reply_json st pkg reply

/-- Routine `reply_success`. -/
def reply_success (st : Engine) (pkg : rpc_pkg) : Outcome :=
  reply_result st pkg (Json.object [("status", Json.string "success")])

/-- Prefix a handler outcome with the effects performed before it. -/
def Outcome.after (events : List Event) (out : Outcome) : Outcome :=
  { state := out.state, trace := events ++ out.trace }

/-! ## Order placement: `on_cmd_order_put` -/

/-- Routine `check_makers_exist`: is there a first node on the opposite side of
the book (bids for an ASK, asks otherwise)? -/
def check_makers_exist (side : Nat) (market : Market) : Bool :=
  let list := if side = MARKET_ORDER_SIDE_ASK then market.bids else market.asks
  match list with
  | [] => false
  | _ :: _ => true

/-- The local variables of `on_cmd_order_put` once argument validation is over. -/
structure PutArgs where
  user_id : Nat
  market : Market
  side : Nat
  amount : Dec
  price : Dec
  taker_fee : Dec
  maker_fee : Dec
  source : String

/-- Argument validation of `on_cmd_order_put` (from the arity test to the
`source` parameter); `none` is every path to `reply_error_invalid_argument`. -/
def order_put_args (env : Env) (st : Engine) (pkg : rpc_pkg) (params : Json) : Option PutArgs :=
  if json_array_size params > 8 ∨ json_array_size params < 6 then none else
  let is_price_setter : Bool := decide (pkg.command ≠ Command.CMD_ORDER_PUT_MARKET)
  let is_maker_candidate : Bool := decide (pkg.command ≠ Command.CMD_ORDER_PUT_MARKET) &&
    decide (pkg.command ≠ Command.CMD_ORDER_PUT_FOK)
  if is_maker_candidate = true ∧ json_array_size params ≠ 8 then none
  else if pkg.command = Command.CMD_ORDER_PUT_MARKET ∧ json_array_size params ≠ 6 then none
  else if pkg.command = Command.CMD_ORDER_PUT_FOK ∧ json_array_size params ≠ 7 then none
  else
  -- user_id
  if json_is_integer (json_array_get params 0) = false then none else
  let user_id := to_uint32 (json_integer_value (json_array_get params 0))
  -- market
  match json_string_value (json_array_get params 1) with
  | none => none
  | some market_name =>
  match env.get_market st market_name with
  | none => none
  | some market =>
  -- side
  if json_is_integer (json_array_get params 2) = false then none else
  let side := to_uint32 (json_integer_value (json_array_get params 2))
  if side ≠ MARKET_ORDER_SIDE_ASK ∧ side ≠ MARKET_ORDER_SIDE_BID then none else
  -- amount check
  match json_string_value (json_array_get params 3) with
  | none => none
  | some amount_str =>
  match env.decimal (some amount_str) market.stock_prec with
  | none => none
  | some amount =>
  if mpd_cmp amount 0 ≤ 0 then none else
  -- price - Non-Market
  let price_idx : Option (Dec × Nat) :=
    if is_price_setter = true then
      match json_string_value (json_array_get params 4) with
      | none => none
      | some price_str =>
        match env.decimal (some price_str) market.money_prec with
        | none => none
        | some price => if mpd_cmp price 0 ≤ 0 then none else some (price, 5)
    else some (0, 4)
  match price_idx with
  | none => none
  | some (price, idx) =>
  -- taker fee
  match json_string_value (json_array_get params idx) with
  | none => none
  | some taker_str =>
  match env.decimal (some taker_str) market.fee_prec with
  | none => none
  | some taker_fee =>
  if mpd_cmp taker_fee 0 < 0 ∨ mpd_cmp taker_fee 1 ≥ 0 then none else
  -- maker fee - LIMIT, AON
  let maker_idx : Option (Dec × Nat) :=
    if is_maker_candidate = true then
      match json_string_value (json_array_get params (idx + 1)) with
      | none => none
      | some maker_str =>
        match env.decimal (some maker_str) market.fee_prec with
        | none => none
        | some maker_fee =>
          if mpd_cmp maker_fee 0 < 0 ∨ mpd_cmp maker_fee 1 ≥ 0 then none
          else some (maker_fee, idx + 2)
    else some (0, idx + 1)
  match maker_idx with
  | none => none
  | some (maker_fee, idx) =>
  if json_array_size params ≠ idx + 1 then none else
  -- source
  match json_string_value (json_array_get params idx) with
  | none => none
  | some source =>
  if strlen source ≥ env.SOURCE_MAX_LEN then none else
  some { user_id := user_id, market := market, side := side, amount := amount, price := price,
         taker_fee := taker_fee, maker_fee := maker_fee, source := source }

/-- Verdict of the order checks of `on_cmd_order_put`: all passed, `goto
invalid_order` with a status, or a read through a null pointer. -/
inductive PutCheck where
  | pass
  | invalid_order (ret : Int)
  | null_deref

/-- The balance check of `on_cmd_order_put` (the three-way branch on the side
and on `is_price_setter` that ends step 4): `invalid_order ret` is
`goto invalid_order` with that status; `null_deref` is reading `node->value`
of an absent first ask. -/
def order_put_balance_check (env : Env) (st : Engine) (pkg : rpc_pkg) (a : PutArgs) : PutCheck :=
  let market := a.market
  let is_price_setter : Bool := decide (pkg.command ≠ Command.CMD_ORDER_PUT_MARKET)
  if a.side = MARKET_ORDER_SIDE_ASK then
    match env.balance_get st a.user_id BALANCE_TYPE_AVAILABLE market.stock with
    | none => PutCheck.invalid_order (-1)
    | some balance =>
      if mpd_cmp balance a.amount < 0 then PutCheck.invalid_order (-1) else PutCheck.pass
  else if is_price_setter = true then
    let required := a.amount * a.price
    match env.balance_get st a.user_id BALANCE_TYPE_AVAILABLE market.money with
    | none => PutCheck.invalid_order (-1)
    | some balance =>
      if mpd_cmp balance required < 0 then PutCheck.invalid_order (-1)
      else if market.include_fee = true then
        let max_fee := required * a.taker_fee
        let required := required + max_fee
        if mpd_cmp balance required < 0 then PutCheck.invalid_order (-5) else PutCheck.pass
      else PutCheck.pass
  else
    -- MARKET BID
    match market.asks with
    | [] => PutCheck.null_deref
    | order :: _ =>
      if mpd_cmp (order.price * a.amount) market.min_total < 0 then PutCheck.invalid_order (-4)
      else PutCheck.pass

/-- Order validation of `on_cmd_order_put` (steps 2 to 4, up to the switch on
the command): `invalid_order ret` is `goto invalid_order` with that status. -/
def order_put_checks (env : Env) (st : Engine) (pkg : rpc_pkg) (a : PutArgs) : PutCheck :=
  let market := a.market
  let is_price_setter : Bool := decide (pkg.command ≠ Command.CMD_ORDER_PUT_MARKET)
  let is_maker_candidate : Bool := decide (pkg.command ≠ Command.CMD_ORDER_PUT_MARKET) &&
    decide (pkg.command ≠ Command.CMD_ORDER_PUT_FOK)
  -- 2-1) minimum stock amount
  if mpd_cmp a.amount market.min_amount < 0 then PutCheck.invalid_order (-2)
  -- 2-2) multiple of stock tick size
  else if mpd_cmp (mpd_rem a.amount (env.asset_tick_size st market.stock)) 0 ≠ 0 then
    PutCheck.invalid_order (-2)
  -- 3-1) multiple of price tick size
  else if is_price_setter = true ∧
      mpd_cmp (mpd_rem a.price (env.asset_tick_size st market.money)) 0 ≠ 0 then
    PutCheck.invalid_order (-3)
  -- 3-2) price limits
  else if is_price_setter = true ∧
      (mpd_cmp (env.mpd_rescale (a.price * a.amount) (-(env.asset_prec st market.money)))
          market.min_total < 0
        ∨ env.check_price_limit market.last_price a.price st.settings.last_price_limit = false
        ∨ env.check_price_limit market.closing_price a.price st.settings.closing_price_limit
            = false) then
    PutCheck.invalid_order (-4)
  -- 4) Balance check
  else if is_maker_candidate = false ∧ check_makers_exist a.side market = false then
    PutCheck.invalid_order (-6)
  else order_put_balance_check env st pkg a

/-- The code of `on_cmd_order_put` at label `invalid_order`: map the status to
a reply; a non-negative status appends the operlog entry and replies the result. -/
def order_put_finish (env : Env) (st : Engine) (pkg : rpc_pkg) (params : Json)
    (ret : Int) (oper : String) (result : Json) : Outcome :=
  if ret = -1 then reply_error st pkg 10 "insufficient balance"
  else if ret = -2 then reply_error st pkg 11 "invalid amount"
  else if ret = -3 then reply_error st pkg 14 "invalid price"
  else if ret = -4 then reply_error st pkg 12 "price out of range"
  else if ret = -5 then reply_error st pkg 13 "insufficient trading fee"
  else if ret = -6 then reply_error st pkg 15 "no orders found"
  else if ret < 0 then reply_error_internal_error st pkg
  else
    Outcome.after [Event.append_operlog oper params]
      (reply_result (env.append_operlog st oper params) pkg result)

/-- Handler `on_cmd_order_put`. -/
def on_cmd_order_put (env : Env) (st : Engine) (pkg : rpc_pkg) (params : Json) : Outcome :=
  match order_put_args env st pkg params with
  | none => reply_error_invalid_argument st pkg
  | some a =>
    match order_put_checks env st pkg a with
    | PutCheck.null_deref => { state := st, trace := [Event.null_deref] }
    | PutCheck.invalid_order ret => order_put_finish env st pkg params ret "" Json.null
    | PutCheck.pass =>
      match pkg.command with
      | Command.CMD_ORDER_PUT_LIMIT =>
        let r := env.market_put_limit_order st a.market a.user_id a.side a.amount a.price
          a.taker_fee a.maker_fee a.source
        Outcome.after [Event.market_put_limit_order a.market a.user_id a.side a.amount a.price
            a.taker_fee a.maker_fee a.source]
          (order_put_finish env r.state pkg params r.ret "limit_order" r.result)
      | Command.CMD_ORDER_PUT_AON =>
        let r := env.market_put_aon_order st a.market a.user_id a.side a.amount a.price
          a.taker_fee a.maker_fee a.source
        Outcome.after [Event.market_put_aon_order a.market a.user_id a.side a.amount a.price
            a.taker_fee a.maker_fee a.source]
          (order_put_finish env r.state pkg params r.ret "aon_order" r.result)
      | Command.CMD_ORDER_PUT_MARKET =>
        let r := env.market_put_market_order st a.market a.user_id a.side a.amount
          a.taker_fee a.source
        Outcome.after [Event.market_put_market_order a.market a.user_id a.side a.amount
            a.taker_fee a.source]
          (order_put_finish env r.state pkg params r.ret "market_order" r.result)
      | Command.CMD_ORDER_PUT_FOK =>
        let r := env.market_put_fok_order st a.market a.user_id a.side a.amount a.price
          a.taker_fee a.source
        Outcome.after [Event.market_put_fok_order a.market a.user_id a.side a.amount a.price
            a.taker_fee a.source]
          (order_put_finish env r.state pkg params r.ret "fok_order" r.result)
      | _ => reply_error_invalid_argument st pkg

/-- The market, user, side and amount handed to a placement routine, for the
four placement events. -/
def Event.placed : Event → Option (Market × Nat × Nat × Dec)
  | Event.market_put_limit_order m u s x _ _ _ _ => some (m, u, s, x)
  | Event.market_put_aon_order m u s x _ _ _ _ => some (m, u, s, x)
  | Event.market_put_market_order m u s x _ _ => some (m, u, s, x)
  | Event.market_put_fok_order m u s x _ _ _ => some (m, u, s, x)
  | _ => none

/-- Is the event a call of `append_operlog`? -/
def Event.is_operlog : Event → Bool
  | Event.append_operlog _ _ => true
  | _ => false

/-- The request passes the amount checks (steps 2-1 and 2-2). -/
def passes_amount_checks (env : Env) (st : Engine) (a : PutArgs) : Prop :=
  ¬ a.amount < a.market.min_amount ∧
    mpd_rem a.amount (env.asset_tick_size st a.market.stock) = 0

/-- The price is a multiple of the money tick size (step 3-1). -/
def passes_price_tick (env : Env) (st : Engine) (a : PutArgs) : Prop :=
  mpd_rem a.price (env.asset_tick_size st a.market.money) = 0

/-- The condition of step 3-2: the rescaled total is below `min_total`, or one
of the two price limits is violated. -/
def price_out_of_range (env : Env) (st : Engine) (a : PutArgs) : Prop :=
  env.mpd_rescale (a.price * a.amount) (-(env.asset_prec st a.market.money)) < a.market.min_total
    ∨ env.check_price_limit a.market.last_price a.price st.settings.last_price_limit = false
    ∨ env.check_price_limit a.market.closing_price a.price st.settings.closing_price_limit = false

/-- The request passes every step before the balance check: the amount checks,
for a price-setting command the price checks, and for MARKET and FOK the
makers-exist check. -/
def passes_until_balance (env : Env) (st : Engine) (pkg : rpc_pkg) (a : PutArgs) : Prop :=
  passes_amount_checks env st a ∧
    (pkg.command ≠ Command.CMD_ORDER_PUT_MARKET →
      passes_price_tick env st a ∧ ¬ price_out_of_range env st a) ∧
    (pkg.command = Command.CMD_ORDER_PUT_MARKET ∨ pkg.command = Command.CMD_ORDER_PUT_FOK →
      check_makers_exist a.side a.market = true)

/-- The request is rejected by the validation of `on_cmd_order_put` itself: on
an argument check, or on an order check with some status. -/
def rejected_by_validation (env : Env) (st : Engine) (pkg : rpc_pkg) (params : Json) : Prop :=
  order_put_args env st pkg params = none ∨
    ∃ a ret, order_put_args env st pkg params = some a ∧
      order_put_checks env st pkg a = PutCheck.invalid_order ret

/-! ## Balance commands -/

/-- Store `json_object_set_new`: replace the value of an existing key, or add
the pair at the end. -/
def json_object_set (kvs : List (String × Json)) (key : String) (value : Json) :
    List (String × Json) :=
  match kvs with
  | [] => [(key, value)]
  | (k, v) :: rest =>
    if k = key then (key, value) :: rest else (k, v) :: json_object_set rest key value

/-- The JSON string `json_object_set_new_mpd` and `json_array_append_new_mpd`
store for a decimal. -/
def json_mpd (env : Env) (x : Dec) : Json := Json.string (env.mpd_to_sci x)

/-- The string shown for one balance of `on_cmd_balance_query`: the stored
value, rescaled to the display precision when the two precisions differ, and
"0" for an absent entry. -/
def balance_show (env : Env) (prec_save prec_show : Int) (balance : Option Dec) : Json :=
  match balance with
  | some x =>
    if prec_save ≠ prec_show then json_mpd env (env.mpd_rescale x (-prec_show))
    else json_mpd env x
  | none => Json.string "0"

/-- The fields `value`, `last_price` and `closing_price` that
`on_cmd_balance_query` adds to a unit when the asset names a market. -/
def balance_market_fields (env : Env) (st : Engine) (asset : String) (prec_show : Int)
    (total : Dec) (unit : List (String × Json)) : List (String × Json) :=
  match env.get_market st asset with
  | some m =>
    let value := env.mpd_rescale (total * m.last_price) (-prec_show)
    json_object_set (json_object_set (json_object_set unit "value" (json_mpd env value))
      "last_price" (json_mpd env m.last_price)) "closing_price" (json_mpd env m.closing_price)
  | none => unit

/-- One iteration of the all-assets loop of `on_cmd_balance_query`: the unit
of the asset, or nothing when the user has neither entry. -/
def balance_unit_all (env : Env) (st : Engine) (user_id : Nat) (asset : String) :
    Option Json :=
  let prec_save := env.asset_prec st asset
  let prec_show := env.asset_prec_show st asset
  let available := env.balance_get st user_id BALANCE_TYPE_AVAILABLE asset
  let freeze := env.balance_get st user_id BALANCE_TYPE_FREEZE asset
  if available.isNone ∧ freeze.isNone then none
  else
    let unit := json_object_set [] "available" (balance_show env prec_save prec_show available)
    let unit := json_object_set unit "freeze" (balance_show env prec_save prec_show freeze)
    -- absent entries were replaced by copies of zero
    let total := available.getD 0 + freeze.getD 0
    let unit := json_object_set unit "total" (json_mpd env total)
    some (Json.object (balance_market_fields env st asset prec_show total unit))

/-- One iteration of the named-assets loop of `on_cmd_balance_query`. -/
def balance_unit_named (env : Env) (st : Engine) (user_id : Nat) (asset : String) : Json :=
  let prec_save := env.asset_prec st asset
  let prec_show := env.asset_prec_show st asset
  let available := env.balance_get st user_id BALANCE_TYPE_AVAILABLE asset
  let unit := json_object_set [] "available" (balance_show env prec_save prec_show available)
  let freeze := env.balance_get st user_id BALANCE_TYPE_FREEZE asset
  let unit := json_object_set unit "freeze" (balance_show env prec_save prec_show freeze)
  let total : Dec := 0
  let total := match available with
    | some x => total + x
    | none => total
  let total := match freeze with
    | some x => total + x
    | none => total
  let unit := json_object_set unit "total" (json_mpd env total)
  Json.object (balance_market_fields env st asset prec_show total unit)

/-- The all-assets loop of `on_cmd_balance_query` over `settings.assets`. -/
def balance_query_all (env : Env) (st : Engine) (user_id : Nat)
    (assets : List asset_cfg) (result : List (String × Json)) : List (String × Json) :=
  match assets with
  | [] => result
  | c :: rest =>
    match balance_unit_all env st user_id c.name with
    | none => balance_query_all env st user_id rest result
    | some unit => balance_query_all env st user_id rest (json_object_set result c.name unit)

/-- The named-assets loop of `on_cmd_balance_query` over the parameters after
the user id; `none` is the return through `reply_error_invalid_argument`. -/
def balance_query_named (env : Env) (st : Engine) (user_id : Nat)
    (names : List Json) (result : List (String × Json)) : Option (List (String × Json)) :=
  match names with
  | [] => some result
  | j :: rest =>
    match json_string_value (some j) with
    | none => none
    | some asset =>
      if env.asset_exist st asset = false then none
      else balance_query_named env st user_id rest
        (json_object_set result asset (balance_unit_named env st user_id asset))

/-- The elements of a JSON array (empty for anything else). -/
def json_array_elems : Json → List Json
  | Json.array xs => xs
  | _ => []

/-- Handler `on_cmd_balance_query`. -/
def on_cmd_balance_query (env : Env) (st : Engine) (pkg : rpc_pkg) (params : Json) : Outcome :=
  let request_size := json_array_size params
  if request_size < 1 then reply_error_invalid_argument st pkg
  -- User ID
  else if json_is_integer (json_array_get params 0) = false then
    reply_error_invalid_argument st pkg
  else
    let user_id := to_uint32 (json_integer_value (json_array_get params 0))
    if user_id = 0 then reply_error_invalid_argument st pkg
    else if request_size = 1 then
      reply_result st pkg (Json.object (balance_query_all env st user_id st.settings.assets []))
    else
      match balance_query_named env st user_id ((json_array_elems params).drop 1) [] with
      | none => reply_error_invalid_argument st pkg
      | some result => reply_result st pkg (Json.object result)

/-- Handler `on_cmd_balance_update`. -/
def on_cmd_balance_update (env : Env) (st : Engine) (pkg : rpc_pkg) (params : Json) : Outcome :=
  if json_array_size params ≠ 6 then reply_error_invalid_argument st pkg
  -- user_id
  else if json_is_integer (json_array_get params 0) = false then
    reply_error_invalid_argument st pkg
  else
    let user_id := to_uint32 (json_integer_value (json_array_get params 0))
    -- asset
    match json_string_value (json_array_get params 1) with
    | none => reply_error_invalid_argument st pkg
    | some asset =>
    let prec := env.asset_prec_show st asset
    if prec < 0 then reply_error_invalid_argument st pkg else
    -- business
    match json_string_value (json_array_get params 2) with
    | none => reply_error_invalid_argument st pkg
    | some business =>
    -- business_id
    if json_is_integer (json_array_get params 3) = false then
      reply_error_invalid_argument st pkg
    else
    let business_id := to_uint64 (json_integer_value (json_array_get params 3))
    -- change
    match json_string_value (json_array_get params 4) with
    | none => reply_error_invalid_argument st pkg
    | some change_str =>
    match env.decimal (some change_str) prec with
    | none => reply_error_invalid_argument st pkg
    | some change =>
    -- detail
    match json_array_get params 5 with
    | some (Json.object detail) =>
      let r := env.update_user_balance st user_id asset business business_id change
        (Json.object detail)
      Outcome.after [Event.update_user_balance user_id asset business business_id change
          (Json.object detail)]
        (if r.1 = -1 then reply_error r.2 pkg 10 "repeat update"
         else if r.1 = -2 then reply_error r.2 pkg 11 "balance not enough"
         else if r.1 < 0 then reply_error_internal_error r.2 pkg
         else
           Outcome.after [Event.append_operlog "update_balance" params]
             (reply_success (env.append_operlog r.2 "update_balance" params) pkg))
    | _ => reply_error_invalid_argument st pkg

/-! ## Asset commands -/

/-- Handler `on_cmd_asset_list`. -/
def on_cmd_asset_list (_env : Env) (st : Engine) (pkg : rpc_pkg) (_params : Json) : Outcome :=
  reply_result st pkg (Json.array (st.settings.assets.map (fun c =>
    Json.object [("name", Json.string c.name), ("prec", Json.integer c.prec_show)])))

/-- Routine `get_asset_summary`. -/
def get_asset_summary (env : Env) (st : Engine) (name : String) : Json :=
  let b := env.balance_status st name
  Json.object [("name", Json.string name), ("total_balance", json_mpd env b.total),
    ("available_count", Json.integer (to_json_int b.available_count)),
    ("available_balance", json_mpd env b.available),
    ("freeze_count", Json.integer (to_json_int b.freeze_count)),
    ("freeze_balance", json_mpd env b.freeze),
    ("total_count", Json.integer (to_json_int b.total_count))]

/-- The named loop of `on_cmd_asset_summary`; `none` is `goto invalid_argument`. -/
def asset_summary_named (env : Env) (st : Engine) : List Json → Option (List Json)
  | [] => some []
  | j :: rest =>
    match json_string_value (some j) with
    | none => none
    | some asset =>
      if env.asset_exist st asset = false then none
      else
        match asset_summary_named env st rest with
        | none => none
        | some tail => some (get_asset_summary env st asset :: tail)

/-- Handler `on_cmd_asset_summary`. -/
def on_cmd_asset_summary (env : Env) (st : Engine) (pkg : rpc_pkg) (params : Json) : Outcome :=
  if json_array_size params = 0 then
    reply_result st pkg (Json.array (st.settings.assets.map (fun c =>
      get_asset_summary env st c.name)))
  else
    match asset_summary_named env st (json_array_elems params) with
    | none => reply_error_invalid_argument st pkg
    | some result => reply_result st pkg (Json.array result)

/-- Handler `on_cmd_asset_register`. -/
def on_cmd_asset_register (env : Env) (st : Engine) (pkg : rpc_pkg) (params : Json) : Outcome :=
  if json_array_size params ≠ 3 then reply_error_invalid_argument st pkg else
  match json_string_value (json_array_get params 0) with
  | none => reply_error_invalid_argument st pkg
  | some symbol =>
  if env.asset_exist st symbol = true then reply_error_invalid_argument st pkg else
  match json_string_value (json_array_get params 1) with
  | none => reply_error_invalid_argument st pkg
  | some name =>
  match env.decimal (json_string_value (json_array_get params 2)) 8 with
  | none => reply_error_invalid_argument st pkg
  | some tick_size =>
  if mpd_cmp tick_size 0 ≤ 0 then reply_error_invalid_argument st pkg else
  let tick_size_str := env.mpd_to_sci tick_size
  let r := env.asset_register st symbol name tick_size_str
  Outcome.after [Event.asset_register symbol name tick_size_str]
    (if r.1 < 0 then reply_error_internal_error r.2 pkg else reply_success r.2 pkg)

/-! ## Order queries and cancellation -/

/-- The loop `for (i = 0; i < offset; i++) if (skiplist_next(iter) == NULL) break;`:
the iterator after skipping at most `offset` nodes. -/
def skiplist_skip (iter : List Order) : Nat → List Order
  | 0 => iter
  | n + 1 =>
    match iter with
    | [] => []
    | _ :: rest => skiplist_skip rest n

/-- The loop `while ((node = skiplist_next(iter)) != NULL && index < limit)`:
the order infos appended from the iterator, starting at count `index`. -/
def collect_orders (env : Env) (iter : List Order) (index limit : Nat) : List Json :=
  match iter with
  | [] => []
  | order :: rest =>
    if index < limit then env.get_order_info order :: collect_orders env rest (index + 1) limit
    else []

/-- Handler `on_cmd_order_query`. -/
def on_cmd_order_query (env : Env) (st : Engine) (pkg : rpc_pkg) (params : Json) : Outcome :=
  if json_array_size params ≠ 4 then reply_error_invalid_argument st pkg
  -- user_id
  else if json_is_integer (json_array_get params 0) = false then
    reply_error_invalid_argument st pkg
  else
  let user_id := to_uint32 (json_integer_value (json_array_get params 0))
  -- market
  match json_string_value (json_array_get params 1) with
  | none => reply_error_invalid_argument st pkg
  | some market_name =>
  match env.get_market st market_name with
  | none => reply_error_invalid_argument st pkg
  | some market =>
  -- offset
  if json_is_integer (json_array_get params 2) = false then reply_error_invalid_argument st pkg
  else
  let offset := to_uint64 (json_integer_value (json_array_get params 2))
  -- limit
  if json_is_integer (json_array_get params 3) = false then reply_error_invalid_argument st pkg
  else
  let limit := to_uint64 (json_integer_value (json_array_get params 3))
  if limit > env.ORDER_LIST_MAX_LEN then reply_error_invalid_argument st pkg else
  let result := [("limit", Json.integer (to_json_int limit)),
    ("offset", Json.integer (to_json_int offset))]
  match env.market_get_order_list market user_id with
  | none =>
    reply_result st pkg (Json.object (result ++ [("total", Json.integer 0),
      ("records", Json.array [])]))
  | some order_list =>
    let orders :=
      if offset < order_list.length then
        collect_orders env (skiplist_skip order_list offset) 0 limit
      else []
    reply_result st pkg (Json.object (result ++
      [("total", Json.integer (to_json_int order_list.length)),
      ("records", Json.array orders)]))

/-- Handler `on_cmd_order_cancel`. -/
def on_cmd_order_cancel (env : Env) (st : Engine) (pkg : rpc_pkg) (params : Json) : Outcome :=
  if json_array_size params ≠ 3 then reply_error_invalid_argument st pkg
  -- user_id
  else if json_is_integer (json_array_get params 0) = false then
    reply_error_invalid_argument st pkg
  else
  let user_id := to_uint32 (json_integer_value (json_array_get params 0))
  -- market
  match json_string_value (json_array_get params 1) with
  | none => reply_error_invalid_argument st pkg
  | some market_name =>
  match env.get_market st market_name with
  | none => reply_error_invalid_argument st pkg
  | some market =>
  -- order_id
  if json_is_integer (json_array_get params 2) = false then reply_error_invalid_argument st pkg
  else
  let order_id := to_uint64 (json_integer_value (json_array_get params 2))
  match env.market_get_order market order_id with
  | none => reply_error st pkg 10 "order not found"
  | some order =>
  if order.user_id ≠ user_id then reply_error st pkg 11 "user mismatch" else
  let r := env.market_cancel_order st market order
  Outcome.after [Event.market_cancel_order market order]
    (if r.ret < 0 then reply_error_internal_error r.state pkg
     else
       Outcome.after [Event.append_operlog "cancel_order" params]
         (reply_result (env.append_operlog r.state "cancel_order" params) pkg r.result))

/-- Handler `on_cmd_order_book`. -/
def on_cmd_order_book (env : Env) (st : Engine) (pkg : rpc_pkg) (params : Json) : Outcome :=
  if json_array_size params ≠ 4 then reply_error_invalid_argument st pkg else
  -- market
  match json_string_value (json_array_get params 0) with
  | none => reply_error_invalid_argument st pkg
  | some market_name =>
  match env.get_market st market_name with
  | none => reply_error_invalid_argument st pkg
  | some market =>
  -- side
  if json_is_integer (json_array_get params 1) = false then reply_error_invalid_argument st pkg
  else
  let side := to_uint32 (json_integer_value (json_array_get params 1))
  if side ≠ MARKET_ORDER_SIDE_ASK ∧ side ≠ MARKET_ORDER_SIDE_BID then
    reply_error_invalid_argument st pkg
  -- offset
  else if json_is_integer (json_array_get params 2) = false then
    reply_error_invalid_argument st pkg
  else
  let offset := to_uint64 (json_integer_value (json_array_get params 2))
  -- limit
  if json_is_integer (json_array_get params 3) = false then reply_error_invalid_argument st pkg
  else
  let limit := to_uint64 (json_integer_value (json_array_get params 3))
  if limit > env.ORDER_BOOK_MAX_LEN then reply_error_invalid_argument st pkg else
  let iter := if side = MARKET_ORDER_SIDE_ASK then market.asks else market.bids
  let total := iter.length
  let orders :=
    if offset < total then collect_orders env (skiplist_skip iter offset) 0 limit else []
  reply_result st pkg (Json.object [("offset", Json.integer (to_json_int offset)),
    ("limit", Json.integer (to_json_int limit)), ("total", Json.integer (to_json_int total)),
    ("orders", Json.array orders)])

/-- Handler `on_cmd_order_detail`. -/
def on_cmd_order_detail (env : Env) (st : Engine) (pkg : rpc_pkg) (params : Json) : Outcome :=
  if json_array_size params ≠ 2 then reply_error_invalid_argument st pkg else
  -- market
  match json_string_value (json_array_get params 0) with
  | none => reply_error_invalid_argument st pkg
  | some market_name =>
  match env.get_market st market_name with
  | none => reply_error_invalid_argument st pkg
  | some market =>
  -- order_id
  if json_is_integer (json_array_get params 1) = false then reply_error_invalid_argument st pkg
  else
  let order_id := to_uint64 (json_integer_value (json_array_get params 1))
  match env.market_get_order market order_id with
  | none => reply_result st pkg Json.null
  | some order => reply_result st pkg (env.get_order_info order)

/-! ## Depth and the result cache -/

/-- The inner loop of `get_depth`: add the `left` of the following nodes while
their price equals `price`; returns the sum and the iterator from the first
node with another price on. -/
def depth_level (price amount : Dec) : List Order → Dec × List Order
  | [] => (amount, [])
  | order :: rest =>
    if mpd_cmp price order.price = 0 then depth_level price (amount + order.left) rest
    else (amount, order :: rest)

/-- The outer loop `while (node && index < limit)` of `get_depth` on one side;
every pass consumes a node, so a fuel of the length of the book is enough. -/
def depth_walk (env : Env) (fuel : Nat) (nodes : List Order) (index limit : Nat) : List Json :=
  match fuel with
  | 0 => []
  | fuel + 1 =>
    match nodes with
    | [] => []
    | order :: rest =>
      if index < limit then
        let price := order.price
        let r := depth_level price order.left rest
        Json.array [json_mpd env price, json_mpd env r.1] ::
          depth_walk env fuel r.2 (index + 1) limit
      else []

/-- Routine `get_depth`. -/
def get_depth (env : Env) (market : Market) (limit : Nat) : Json :=
  Json.object [("asks", Json.array (depth_walk env market.asks.length market.asks 0 limit)),
    ("bids", Json.array (depth_walk env market.bids.length market.bids 0 limit))]

/-- The inner loop of `get_depth_merge` on the asks: nodes priced at most `price`. -/
def depth_level_asks (price amount : Dec) : List Order → Dec × List Order
  | [] => (amount, [])
  | order :: rest =>
    if mpd_cmp price order.price ≥ 0 then depth_level_asks price (amount + order.left) rest
    else (amount, order :: rest)

/-- The inner loop of `get_depth_merge` on the bids: nodes priced at least `price`. -/
def depth_level_bids (price amount : Dec) : List Order → Dec × List Order
  | [] => (amount, [])
  | order :: rest =>
    if mpd_cmp price order.price ≤ 0 then depth_level_bids price (amount + order.left) rest
    else (amount, order :: rest)

/-- Quotient and remainder `mpd_divmod(q, r, a, b, ctx)`. -/
def mpd_divmod (a b : Dec) : Dec × Dec :=
  ((mpd_trunc (a / b) : Int), mpd_rem a b)

/-- The outer loop of `get_depth_merge` on the asks: the price of the level is
the price of its first order rounded up to a multiple of `interval`. -/
def depth_merge_asks (env : Env) (interval : Dec) (fuel : Nat) (nodes : List Order)
    (index limit : Nat) : List Json :=
  match fuel with
  | 0 => []
  | fuel + 1 =>
    match nodes with
    | [] => []
    | order :: rest =>
      if index < limit then
        let qr := mpd_divmod order.price interval
        let price := qr.1 * interval
        let price := if mpd_cmp qr.2 0 ≠ 0 then price + interval else price
        let r := depth_level_asks price order.left rest
        Json.array [json_mpd env price, json_mpd env r.1] ::
          depth_merge_asks env interval fuel r.2 (index + 1) limit
      else []

/-- The outer loop of `get_depth_merge` on the bids: the price of the level is
the price of its first order rounded down to a multiple of `interval`. -/
def depth_merge_bids (env : Env) (interval : Dec) (fuel : Nat) (nodes : List Order)
    (index limit : Nat) : List Json :=
  match fuel with
  | 0 => []
  | fuel + 1 =>
    match nodes with
    | [] => []
    | order :: rest =>
      if index < limit then
        let qr := mpd_divmod order.price interval
        let price := qr.1 * interval
        let r := depth_level_bids price order.left rest
        Json.array [json_mpd env price, json_mpd env r.1] ::
          depth_merge_bids env interval fuel r.2 (index + 1) limit
      else []

/-- Routine `get_depth_merge`. -/
def get_depth_merge (env : Env) (market : Market) (limit : Nat) (interval : Dec) : Json :=
  Json.object
    [("asks", Json.array (depth_merge_asks env interval market.asks.length market.asks 0 limit)),
     ("bids", Json.array (depth_merge_bids env interval market.bids.length market.bids 0 limit))]

/-- Lookup `dict_find` in the cache. -/
def dict_find (d : List (String × cache_val)) (key : String) : Option cache_val :=
  match d with
  | [] => none
  | (k, v) :: rest => if k = key then some v else dict_find rest key

/-- Removal `dict_delete` from the cache. -/
def dict_delete (d : List (String × cache_val)) (key : String) : List (String × cache_val) :=
  d.filter (fun kv => decide (kv.1 ≠ key))

/-- Store `dict_replace` into the cache: overwrite the entry of the key or add one. -/
def dict_replace (d : List (String × cache_val)) (key : String) (val : cache_val) :
    List (String × cache_val) :=
  match d with
  | [] => [(key, val)]
  | (k, v) :: rest => if k = key then (key, val) :: rest else (k, v) :: dict_replace rest key val

/-- The key built by `process_cache`: the command code printed with `%u`,
followed by the bytes of the body. -/
def cache_key (env : Env) (pkg : rpc_pkg) : String :=
  toString (env.command_code pkg.command) ++ pkg.body

/-- Routine `process_cache`: `true` with the cached reply sent on a fresh hit;
`false` on a miss, after deleting an entry that is too old. -/
def process_cache (env : Env) (st : Engine) (pkg : rpc_pkg) : Bool × Outcome :=
  let key := cache_key env pkg
  match dict_find st.dict_cache key with
  | none => (false, { state := st, trace := [] })
  | some cache =>
    if st.now - cache.time > st.settings.cache_timeout then
      (false, { state := { st with dict_cache := dict_delete st.dict_cache key }, trace := [] })
    else (true, reply_result st pkg cache.result)

/-- Routine `add_cache`. -/
def add_cache (st : Engine) (key : String) (result : Json) : Engine :=
  { st with dict_cache := dict_replace st.dict_cache key { time := st.now, result := result } }

/-- Handler `on_cmd_order_book_depth`. -/
def on_cmd_order_book_depth (env : Env) (st : Engine) (pkg : rpc_pkg) (params : Json) :
    Outcome :=
  if json_array_size params ≠ 3 then reply_error_invalid_argument st pkg else
  -- market
  match json_string_value (json_array_get params 0) with
  | none => reply_error_invalid_argument st pkg
  | some market_name =>
  match env.get_market st market_name with
  | none => reply_error_invalid_argument st pkg
  | some market =>
  -- limit
  if json_is_integer (json_array_get params 1) = false then reply_error_invalid_argument st pkg
  else
  let limit := to_uint64 (json_integer_value (json_array_get params 1))
  if limit > env.ORDER_BOOK_MAX_LEN then reply_error_invalid_argument st pkg else
  -- interval
  match json_string_value (json_array_get params 2) with
  | none => reply_error_invalid_argument st pkg
  | some interval_str =>
  match env.decimal (some interval_str) market.money_prec with
  | none => reply_error_invalid_argument st pkg
  | some interval =>
  if mpd_cmp interval 0 < 0 then reply_error_invalid_argument st pkg else
  let c := process_cache env st pkg
  if c.1 = true then c.2
  else
    let result :=
      if mpd_cmp interval 0 = 0 then get_depth env market limit
      else get_depth_merge env market limit interval
    Outcome.after c.2.trace (reply_result (add_cache c.2.state (cache_key env pkg) result) pkg result)

/-- Handler `on_cache_timer`: the timer that clears the cache. -/
def on_cache_timer (st : Engine) : Engine :=
  { st with dict_cache := [] }

/-! ## Market commands -/

/-- The loop of `on_cmd_market_list` over `settings.markets`; `none` is reading
`m->closing_price` of a market that `get_market` does not know. -/
def market_list_entries (env : Env) (st : Engine) : List market_cfg → Option (List Json)
  | [] => some []
  | c :: rest =>
    match env.get_market st c.name with
    | none => none
    | some m =>
      match market_list_entries env st rest with
      | none => none
      | some tail =>
        some (Json.object [("symbol", Json.string c.name), ("name", Json.string c.name_full),
          ("base", Json.string c.stock), ("counter", Json.string c.money),
          ("fee_prec", Json.integer c.fee_prec), ("stock_prec", Json.integer c.stock_prec),
          ("money_prec", Json.integer c.money_prec),
          ("delisting_ts", Json.integer c.delisting_ts),
          ("min_total", json_mpd env c.min_total), ("init_price", json_mpd env c.init_price),
          ("closing_price", json_mpd env m.closing_price),
          ("last_price", json_mpd env m.last_price)] :: tail)

/-- Handler `on_cmd_market_list`. -/
def on_cmd_market_list (env : Env) (st : Engine) (pkg : rpc_pkg) (_params : Json) : Outcome :=
  match market_list_entries env st st.settings.markets with
  | none => { state := st, trace := [Event.null_deref] }
  | some result => reply_result st pkg (Json.array result)

/-- Routine `get_market_summary`, for a market that `get_market` found. -/
def get_market_summary (env : Env) (name : String) (market : Market) : Json :=
  let s := env.market_get_status market
  Json.object [("name", Json.string name),
    ("ask_count", Json.integer (to_json_int s.ask_count)),
    ("ask_amount", json_mpd env s.ask_amount),
    ("bid_count", Json.integer (to_json_int s.bid_count)),
    ("bid_amount", json_mpd env s.bid_amount)]

/-- The all-markets loop of `on_cmd_market_summary`; `none` is handing a null
market to `market_get_status`. -/
def market_summary_all (env : Env) (st : Engine) : List market_cfg → Option (List Json)
  | [] => some []
  | c :: rest =>
    match env.get_market st c.name with
    | none => none
    | some m =>
      match market_summary_all env st rest with
      | none => none
      | some tail => some (get_market_summary env c.name m :: tail)

/-- The named loop of `on_cmd_market_summary`; `none` is `goto invalid_argument`. -/
def market_summary_named (env : Env) (st : Engine) : List Json → Option (List Json)
  | [] => some []
  | j :: rest =>
    match json_string_value (some j) with
    | none => none
    | some name =>
      match env.get_market st name with
      | none => none
      | some m =>
        match market_summary_named env st rest with
        | none => none
        | some tail => some (get_market_summary env name m :: tail)

/-- Handler `on_cmd_market_summary`. -/
def on_cmd_market_summary (env : Env) (st : Engine) (pkg : rpc_pkg) (params : Json) : Outcome :=
  if json_array_size params = 0 then
    match market_summary_all env st st.settings.markets with
    | none => { state := st, trace := [Event.null_deref] }
    | some result => reply_result st pkg (Json.array result)
  else
    match market_summary_named env st (json_array_elems params) with
    | none => reply_error_invalid_argument st pkg
    | some result => reply_result st pkg (Json.array result)

/-- Handler `on_cmd_market_register`. -/
def on_cmd_market_register (env : Env) (st : Engine) (pkg : rpc_pkg) (params : Json) : Outcome :=
  if json_array_size params ≠ 6 then reply_error_invalid_argument st pkg else
  match json_string_value (json_array_get params 0) with
  | none => reply_error_invalid_argument st pkg
  | some ticker =>
  if (env.get_market st ticker).isSome then reply_error_invalid_argument st pkg else
  match json_string_value (json_array_get params 1) with
  | none => reply_error_invalid_argument st pkg
  | some name =>
  match json_string_value (json_array_get params 2) with
  | none => reply_error_invalid_argument st pkg
  | some base =>
  let base_id := env.asset_id st base
  if base_id < 0 then reply_error_invalid_argument st pkg else
  match json_string_value (json_array_get params 3) with
  | none => reply_error_invalid_argument st pkg
  | some counter =>
  let counter_id := env.asset_id st counter
  if counter_id < 0 then reply_error_invalid_argument st pkg else
  match json_string_value (json_array_get params 4) with
  | none => reply_error_invalid_argument st pkg
  | some init_price_text =>
  match env.decimal (some init_price_text) 8 with
  | none => reply_error_invalid_argument st pkg
  | some init_price =>
  let init_price_str := env.mpd_to_sci init_price
  if json_is_integer (json_array_get params 5) = false then reply_error_invalid_argument st pkg
  else
  let delisting_ts := to_uint32 (json_integer_value (json_array_get params 5))
  let r := env.market_register st ticker name base_id counter_id init_price_str delisting_ts
  Outcome.after [Event.market_register ticker name base_id counter_id init_price_str
      delisting_ts]
    (if r.1 < 0 then reply_error_internal_error r.2 pkg else reply_success r.2 pkg)

/-- Handler `on_cmd_market_detail`. -/
def on_cmd_market_detail (env : Env) (st : Engine) (pkg : rpc_pkg) (params : Json) : Outcome :=
  if json_array_size params ≠ 1 then reply_error_invalid_argument st pkg else
  match json_string_value (json_array_get params 0) with
  | none => reply_error_invalid_argument st pkg
  | some market_name =>
  match env.get_market st market_name with
  | none => reply_error_invalid_argument st pkg
  | some market => reply_result st pkg (env.market_detail market)

/-! ## The dispatcher -/

/-- Enter a command handler: the trace records the call, then the handler runs. -/
def call_handler (cmd : Command) (out : Outcome) : Outcome :=
  Outcome.after [Event.handler cmd] out

/-- Callback `svr_on_recv_pkg`: decode the body, gate the mutating commands on
the health of the sinks, and dispatch on the command. -/
def svr_on_recv_pkg (env : Env) (st : Engine) (pkg : rpc_pkg) : Outcome :=
  match env.json_loadb pkg.body with
  | none => { state := st, trace := [Event.rpc_svr_close_clt] }
  | some params =>
    if json_is_array params = false then { state := st, trace := [Event.rpc_svr_close_clt] }
    else
    match pkg.command with
    | Command.CMD_BALANCE_QUERY =>
      call_handler pkg.command (on_cmd_balance_query env st pkg params)
    | Command.CMD_BALANCE_UPDATE =>
      if env.is_operlog_block st = true ∨ env.is_history_block st = true ∨
          env.is_message_block st = true ∨ st.signal_block = true then
        reply_error_service_unavailable st pkg
      else call_handler pkg.command (on_cmd_balance_update env st pkg params)
    | Command.CMD_ASSET_LIST =>
      call_handler pkg.command (on_cmd_asset_list env st pkg params)
    | Command.CMD_ASSET_SUMMARY =>
      call_handler pkg.command (on_cmd_asset_summary env st pkg params)
    | Command.CMD_ASSET_REGISTER =>
      call_handler pkg.command (on_cmd_asset_register env st pkg params)
    | Command.CMD_ORDER_PUT_LIMIT | Command.CMD_ORDER_PUT_MARKET
    | Command.CMD_ORDER_PUT_AON | Command.CMD_ORDER_PUT_FOK =>
      if env.is_operlog_block st = true ∨ env.is_history_block st = true ∨
          env.is_message_block st = true ∨ st.signal_block = true then
        reply_error_service_unavailable st pkg
      else call_handler pkg.command (on_cmd_order_put env st pkg params)
    | Command.CMD_ORDER_QUERY =>
      call_handler pkg.command (on_cmd_order_query env st pkg params)
    | Command.CMD_ORDER_CANCEL =>
      if env.is_operlog_block st = true ∨ env.is_history_block st = true ∨
          env.is_message_block st = true then
        reply_error_service_unavailable st pkg
      else call_handler pkg.command (on_cmd_order_cancel env st pkg params)
    | Command.CMD_ORDER_BOOK =>
      call_handler pkg.command (on_cmd_order_book env st pkg params)
    | Command.CMD_ORDER_BOOK_DEPTH =>
      call_handler pkg.command (on_cmd_order_book_depth env st pkg params)
    | Command.CMD_ORDER_DETAIL =>
      call_handler pkg.command (on_cmd_order_detail env st pkg params)
    | Command.CMD_MARKET_LIST =>
      call_handler pkg.command (on_cmd_market_list env st pkg params)
    | Command.CMD_MARKET_SUMMARY =>
      call_handler pkg.command (on_cmd_market_summary env st pkg params)
    | Command.CMD_MARKET_REGISTER =>
      call_handler pkg.command (on_cmd_market_register env st pkg params)
    | Command.CMD_MARKET_DETAIL =>
      call_handler pkg.command (on_cmd_market_detail env st pkg params)
    | Command.unknown _ => { state := st, trace := [] }

/-! ## A concrete engine

A small instance of the environment and of the engine state, used to run the
handlers on concrete requests. The lookups are the evident ones on the lists
of the state; the parser knows the decimal literals of the examples; the
placement routines accept every order they are handed. -/

/-- The market of the examples: BTCUSD with one resting ask and no bid. -/
def demoMarket : Market :=
  { name := "BTCUSD", stock := "BTC", money := "USD", stock_prec := 8, money_prec := 2,
    fee_prec := 4, min_amount := 1 / 1000, min_total := 10, last_price := 10000,
    closing_price := 10000, include_fee := true,
    asks := [{ id := 7, user_id := 2, price := 10000, left := 1 }], bids := [] }

/-- The state of the examples: user 1 holds 50000 USD and 2 BTC, user 2
holds 2 BTC, and no sink is blocked. -/
def demoEngine : Engine :=
  { settings :=
      { cache_timeout := 1 / 2,
        assets := [{ name := "BTC", prec_save := 8, prec_show := 8, tick_size := 1 / 100000000 },
                   { name := "USD", prec_save := 2, prec_show := 2, tick_size := 1 / 100 }],
        markets := [],
        last_price_limit := 1 / 2, closing_price_limit := 1 / 2 },
    signal_block := false, dict_cache := [], now := 0,
    markets := [demoMarket],
    balances := [{ user_id := 1, type := 1, asset := "USD", amount := 50000 },
                 { user_id := 1, type := 1, asset := "BTC", amount := 2 },
                 { user_id := 2, type := 1, asset := "BTC", amount := 2 }],
    updates := [], operlog := [],
    operlog_block := false, history_block := false, message_block := false }

/-- The decimal literals of the examples. -/
def demoDecimal (str : Option String) (_prec : Int) : Option Dec :=
  match str with
  | none => none
  | some s =>
  if s = "1" then some 1
  else if s = "3" then some 3
  else if s = "0.0001" then some (1 / 10000)
  else if s = "0.001" then some (1 / 1000)
  else if s = "0.002" then some (2 / 1000)
  else if s = "10" then some 10
  else if s = "10000" then some 10000
  else if s = "10000.005" then some (10000 + 5 / 1000)
  else if s = "20000" then some 20000
  else if s = "50000" then some 50000
  else none

/-- The asset table entry of a symbol in the state of the examples. -/
def demoAsset (st : Engine) (name : String) : Option asset_cfg :=
  st.settings.assets.find? (fun c => c.name == name)

/-- The price limit of the examples: pass on a zero reference, otherwise
compare the relative distance with the limit. -/
def demoPriceLimit (ref price limit : Dec) : Bool :=
  if ref = 0 then true else decide (|price - ref| / ref ≤ limit)

/-- The environment of the examples. -/
def demoEnv : Env :=
  { json_loadb := fun body =>
      if body = "[1, \"BTCUSD\", 7]" then
        some (Json.array [Json.integer 1, Json.string "BTCUSD", Json.integer 7])
      else if body = "[2, \"BTCUSD\", 7]" then
        some (Json.array [Json.integer 2, Json.string "BTCUSD", Json.integer 7])
      else none,
    command_code := fun _ => 0,
    decimal := demoDecimal,
    mpd_rescale := fun x _ => x,
    mpd_to_sci := fun _ => "",
    SOURCE_MAX_LEN := 31,
    ORDER_BOOK_MAX_LEN := 101,
    ORDER_LIST_MAX_LEN := 101,
    get_market := fun st name => st.markets.find? (fun m => m.name == name),
    asset_exist := fun st name => (demoAsset st name).isSome,
    asset_id := fun st name => if (demoAsset st name).isSome then 0 else -1,
    asset_prec := fun st name =>
      match demoAsset st name with
      | some c => c.prec_save
      | none => -1,
    asset_prec_show := fun st name =>
      match demoAsset st name with
      | some c => c.prec_show
      | none => -1,
    asset_tick_size := fun st name =>
      match demoAsset st name with
      | some c => c.tick_size
      | none => 0,
    balance_get := fun st user type asset =>
      (st.balances.find? (fun b => b.user_id == user && b.type == type && b.asset == asset)).map
        (fun b => b.amount),
    balance_status := fun _ _ =>
      { total := 0, available_count := 0, available := 0, freeze_count := 0, freeze := 0,
        total_count := 0 },
    check_price_limit := demoPriceLimit,
    is_operlog_block := fun st => st.operlog_block,
    is_history_block := fun st => st.history_block,
    is_message_block := fun st => st.message_block,
    append_operlog := fun st oper params => { st with operlog := st.operlog ++ [(oper, params)] },
    update_user_balance := fun st _ _ _ _ _ _ => (0, st),
    market_put_limit_order := fun st _ _ _ _ _ _ _ _ =>
      { ret := 0, result := Json.object [], state := st },
    market_put_aon_order := fun st _ _ _ _ _ _ _ _ =>
      { ret := 0, result := Json.object [], state := st },
    market_put_market_order := fun st _ _ _ _ _ _ =>
      { ret := 0, result := Json.object [], state := st },
    market_put_fok_order := fun st _ _ _ _ _ _ _ =>
      { ret := 0, result := Json.object [], state := st },
    market_cancel_order := fun st _ _ => { ret := 0, result := Json.object [], state := st },
    market_get_order := fun m id => (m.asks ++ m.bids).find? (fun o => o.id == id),
    market_get_order_list := fun m user =>
      match (m.asks ++ m.bids).filter (fun o => o.user_id == user) with
      | [] => none
      | o :: os => some (o :: os),
    market_get_status := fun m =>
      { ask_count := m.asks.length, ask_amount := (m.asks.map (fun o => o.left)).sum,
        bid_count := m.bids.length, bid_amount := (m.bids.map (fun o => o.left)).sum },
    market_detail := fun _ => Json.null,
    get_order_info := fun o => Json.object [("id", Json.integer o.id)],
    asset_register := fun st _ _ _ => (0, st),
    market_register := fun st _ _ _ _ _ _ => (0, st) }

/-- A request envelope of the examples with the given command. -/
def demoPkg (cmd : Command) : rpc_pkg :=
  { command := cmd, sequence := 1, req_id := 42, body := "" }

/-- Parameters of a LIMIT or AON request of user 1 on BTCUSD. -/
def demoLimitParams (side : Int) (amount price : String) : Json :=
  Json.array [Json.integer 1, Json.string "BTCUSD", Json.integer side, Json.string amount,
    Json.string price, Json.string "0.001", Json.string "0.001", Json.string "web"]

/-- Parameters of a MARKET request of user 1 on BTCUSD. -/
def demoMarketParams (side : Int) (amount : String) : Json :=
  Json.array [Json.integer 1, Json.string "BTCUSD", Json.integer side, Json.string amount,
    Json.string "0.001", Json.string "web"]

/-- The arguments `on_cmd_order_put` reads from the parameters of the examples. -/
def demoArgs (side : Nat) (amount price maker_fee : Dec) : PutArgs :=
  { user_id := 1, market := demoMarket, side := side, amount := amount, price := price,
    taker_fee := 1 / 1000, maker_fee := maker_fee, source := "web" }

/-- The state of the examples once the shutdown signal has been received: only
`signal_block` is set, no sink is blocked. -/
def demoEngineSignalled : Engine :=
  { demoEngine with signal_block := true }

/-- An ORDER_CANCEL request of user 2 for order 7 of BTCUSD (the resting ask). -/
def demoCancelPkg : rpc_pkg :=
  { command := Command.CMD_ORDER_CANCEL, sequence := 1, req_id := 42,
    body := "[2, \"BTCUSD\", 7]" }

/-- The decoded parameters of `demoCancelPkg`. -/
def demoCancelParams : Json :=
  Json.array [Json.integer 2, Json.string "BTCUSD", Json.integer 7]

/-- The sinks report a block, or the shutdown signal is pending: the condition
tested by the dispatcher before BALANCE_UPDATE and the order-put commands. -/
def service_blocked (env : Env) (st : Engine) : Prop :=
  env.is_operlog_block st = true ∨ env.is_history_block st = true ∨
    env.is_message_block st = true ∨ st.signal_block = true

/-- Is the event the entry into a command handler? -/
def Event.is_handler : Event → Bool
  | Event.handler _ => true
  | _ => false

/-- The market of the examples with a minimum total of 20 USD. -/
def demoMarketTotal : Market :=
  { demoMarket with min_total := 20 }

/-- The state of the examples with `demoMarketTotal` as its BTCUSD market. -/
def demoEngineTotal : Engine :=
  { demoEngine with markets := [demoMarketTotal] }

/-- The validated arguments of a MARKET request of user 1 on `demoMarketTotal`. -/
def demoMarketArgs (side : Nat) (amount : Dec) : PutArgs :=
  { user_id := 1, market := demoMarketTotal, side := side, amount := amount, price := 0,
    taker_fee := 1 / 1000, maker_fee := 0, source := "web" }

/-- The taker fee and, where the routine takes one, the maker fee handed to a
placement routine, for the four placement events. -/
def Event.fees : Event → Option (Dec × Option Dec)
  | Event.market_put_limit_order _ _ _ _ _ t m _ => some (t, some m)
  | Event.market_put_aon_order _ _ _ _ _ t m _ => some (t, some m)
  | Event.market_put_market_order _ _ _ _ t _ => some (t, none)
  | Event.market_put_fok_order _ _ _ _ _ t _ => some (t, none)
  | _ => none

/-- A fee parameter that argument validation refuses: not a string, not
parsable, negative, or at least 1. -/
def bad_fee (env : Env) (prec : Int) (j : Option Json) : Prop :=
  ∀ s f, json_string_value j = some s → env.decimal (some s) prec = some f → f < 0 ∨ 1 ≤ f

/-- Parameters of a LIMIT request of user 1 on BTCUSD for 1 BTC at 10000 USD
with the given fee strings. -/
def demoFeeParams (taker maker : String) : Json :=
  Json.array [Json.integer 1, Json.string "BTCUSD", Json.integer 2, Json.string "1",
    Json.string "10000", Json.string taker, Json.string maker, Json.string "web"]

/-- A request envelope whose id is 2^63, the first value that does not fit the
signed 64-bit `json_int_t`. -/
def demoPkgBigId : rpc_pkg :=
  { command := Command.CMD_ASSET_LIST, sequence := 1, req_id := 9223372036854775808, body := "[]" }

/-- Is the event a call of `market_cancel_order`? -/
def Event.is_cancel : Event → Bool
  | Event.market_cancel_order _ _ => true
  | _ => false

/-- Parameters of an ORDER_CANCEL request for order 7 of BTCUSD by the given
user id. -/
def demoCancelBy (user_id : Int) : Json :=
  Json.array [Json.integer user_id, Json.string "BTCUSD", Json.integer 7]

/-- The AVAILABLE amount of a user and asset in a ledger list, zero when absent. -/
def ledger_available (balances : List balance_entry) (user_id : Nat) (asset : String) : Dec :=
  match balances with
  | [] => 0
  | b :: rest =>
    if b.user_id = user_id ∧ b.type = BALANCE_TYPE_AVAILABLE ∧ b.asset = asset then b.amount
    else ledger_available rest user_id asset

/-- Set the AVAILABLE amount of a user and asset in a ledger list, creating
the entry when absent. -/
def ledger_set_available (balances : List balance_entry) (user_id : Nat) (asset : String)
    (amount : Dec) : List balance_entry :=
  match balances with
  | [] => [{ user_id := user_id, type := BALANCE_TYPE_AVAILABLE, asset := asset, amount := amount }]
  | b :: rest =>
    if b.user_id = user_id ∧ b.type = BALANCE_TYPE_AVAILABLE ∧ b.asset = asset then
      { b with amount := amount } :: rest
    else b :: ledger_set_available rest user_id asset amount

/-- Modelled from the spec: `update_user_balance` (module `me_update`, not part
of this file) with `real = true`. Look up `(business, business_id)`; if present
return -1. If `change < 0` and `|change| > available`, return -2. Else apply
`available += change`, record the dedup key, and return 0. -/
def update_user_balance_model (st : Engine) (user_id : Nat) (asset business : String)
    (business_id : Nat) (change : Dec) (_detail : Json) : Int × Engine :=
  if (business, business_id) ∈ st.updates then (-1, st)
  else if change < 0 ∧ |change| > ledger_available st.balances user_id asset then (-2, st)
  else
    (0, { st with
      balances := ledger_set_available st.balances user_id asset
        (ledger_available st.balances user_id asset + change),
      updates := (business, business_id) :: st.updates })

/-- The environment of the examples with the modelled `update_user_balance`. -/
def demoEnvUpdate : Env :=
  { demoEnv with update_user_balance := update_user_balance_model }

/-- Parameters of a BALANCE_UPDATE request: user 1 deposits 10 USD under the
business key ("deposit", 5). -/
def demoUpdateParams : Json :=
  Json.array [Json.integer 1, Json.string "USD", Json.string "deposit", Json.integer 5,
    Json.string "10", Json.object []]

/-- The placement call made by the switch of `on_cmd_order_put` for the
command: the event, what the routine returns, and the operlog name. -/
def order_put_call (env : Env) (st : Engine) (pkg : rpc_pkg) (a : PutArgs) :
    Option (Event × PutResult × String) :=
  match pkg.command with
  | Command.CMD_ORDER_PUT_LIMIT =>
    some (Event.market_put_limit_order a.market a.user_id a.side a.amount a.price a.taker_fee
        a.maker_fee a.source,
      env.market_put_limit_order st a.market a.user_id a.side a.amount a.price a.taker_fee
        a.maker_fee a.source, "limit_order")
  | Command.CMD_ORDER_PUT_AON =>
    some (Event.market_put_aon_order a.market a.user_id a.side a.amount a.price a.taker_fee
        a.maker_fee a.source,
      env.market_put_aon_order st a.market a.user_id a.side a.amount a.price a.taker_fee
        a.maker_fee a.source, "aon_order")
  | Command.CMD_ORDER_PUT_MARKET =>
    some (Event.market_put_market_order a.market a.user_id a.side a.amount a.taker_fee a.source,
      env.market_put_market_order st a.market a.user_id a.side a.amount a.taker_fee a.source,
      "market_order")
  | Command.CMD_ORDER_PUT_FOK =>
    some (Event.market_put_fok_order a.market a.user_id a.side a.amount a.price a.taker_fee
        a.source,
      env.market_put_fok_order st a.market a.user_id a.side a.amount a.price a.taker_fee
        a.source, "fok_order")
  | _ => none

/-- The operlog discipline of a handler outcome, for an operation that was
called as event `op` and returned `status` in state `st1`: nothing but an error
reply when the operation was not called; the operation followed by an error
reply when its status is negative; and the operation, then one operlog entry
`oper` with the request parameters, then the result reply, when its status is
non-negative. -/
def operlog_after_success (env : Env) (st : Engine) (pkg : rpc_pkg) (params : Json)
    (out : Outcome) (call : Option (Event × Int × Engine × String)) : Prop :=
  match call with
  | none => ∃ c m, out = reply_error st pkg c m
  | some (op, status, st1, oper) =>
    (status < 0 ∧ ∃ c m, out = Outcome.after [op] (reply_error st1 pkg c m)) ∨
    (0 ≤ status ∧ ∃ result, out = Outcome.after [op, Event.append_operlog oper params]
      (reply_result (env.append_operlog st1 oper params) pkg result))

/-- A well-formed ORDER_BOOK_DEPTH request `[market, limit, interval]` in state
`st`: three parameters, a known market, an integer limit within
`ORDER_BOOK_MAX_LEN`, and an interval string that parses to a non-negative
decimal. -/
def depth_request (env : Env) (st : Engine) (params : Json) (market : Market) (limit : Nat)
    (interval : Dec) : Prop :=
  json_array_size params = 3 ∧
  (∃ name, json_string_value (json_array_get params 0) = some name ∧
    env.get_market st name = some market) ∧
  (∃ n, json_array_get params 1 = some (Json.integer n) ∧ to_uint64 n = limit ∧
    limit ≤ env.ORDER_BOOK_MAX_LEN) ∧
  (∃ s, json_string_value (json_array_get params 2) = some s ∧
    env.decimal (some s) market.money_prec = some interval) ∧
  0 ≤ interval

/-- The depth `on_cmd_order_book_depth` computes on a miss. -/
def depth_result (env : Env) (market : Market) (limit : Nat) (interval : Dec) : Json :=
  if mpd_cmp interval 0 = 0 then get_depth env market limit
  else get_depth_merge env market limit interval

/-- An ORDER_BOOK_DEPTH request for the five best levels of BTCUSD, unmerged. -/
def demoDepthPkg : rpc_pkg :=
  { command := Command.CMD_ORDER_BOOK_DEPTH, sequence := 1, req_id := 42,
    body := "[\"BTCUSD\", 5, \"0\"]" }

/-- The decoded parameters of `demoDepthPkg`. -/
def demoDepthParams : Json :=
  Json.array [Json.string "BTCUSD", Json.integer 5, Json.string "0"]

/-- The rendering of decimals in the examples, which only show integers: the
digits of the integer part. -/
def demoSci (x : Dec) : String := toString ⌊x⌋

/-- The environment of the examples with a parser that also knows "0", the
rendering `demoSci`, and 206 as the code of every command. -/
def demoEnvDepth : Env :=
  { demoEnv with
    decimal := fun str prec => if str = some "0" then some 0 else demoDecimal str prec,
    mpd_to_sci := demoSci,
    command_code := fun _ => 206 }

/-- The state of the examples a quarter of a second after `demoDepthPkg` was
answered from `demoEngine`: the cache holds the stored depth, and the resting
ask has left the book. -/
def demoEngineLater : Engine :=
  { (on_cmd_order_book_depth demoEnvDepth demoEngine demoDepthPkg demoDepthParams).state with
    now := 1 / 4, markets := [{ demoMarket with asks := [] }] }

/-- The second ORDER_BOOK_DEPTH request: the same command and body under
another request id. -/
def demoDepthPkgAgain : rpc_pkg :=
  { demoDepthPkg with req_id := 43 }

/-! ## Price levels of a book

What the depth routines are specified to return, stated on the book itself:
the runs of equal price, and the groups of a rounded price. -/

/-- Sum of the `left` of the orders of a list. -/
def sum_left (orders : List Order) : Dec := (orders.map Order.left).sum

/-- One level `[price, amount]` of a depth reply. -/
def level_json (env : Env) (level : Dec × Dec) : Json :=
  Json.array [json_mpd env level.1, json_mpd env level.2]

/-- The maximal runs of consecutive orders of a book that share a price, in
book order. -/
def price_runs (book : List Order) : List (List Order) :=
  book.splitBy (fun a b => decide (a.price = b.price))

/-- The level of a run: the price of its first order and the sum of the `left`
of its orders. -/
def run_level (run : List Order) : Dec × Dec :=
  match run with
  | [] => (0, 0)
  | order :: _ => (order.price, sum_left run)

/-- The levels of the runs of equal price of a book, in book order. -/
def price_levels (book : List Order) : List (Dec × Dec) :=
  (price_runs book).map run_level

/-- A price rounded up to a multiple of the interval. -/
def ceil_price (interval price : Dec) : Dec := (⌈price / interval⌉ : Int) * interval

/-- A price rounded down to a multiple of the interval. -/
def floor_price (interval price : Dec) : Dec := (⌊price / interval⌋ : Int) * interval

/-- The distinct values of a list, in the order of their first occurrence. -/
def first_keys : List Dec → List Dec
  | [] => []
  | k :: ks => k :: (first_keys ks).filter (fun x => decide (x ≠ k))

/-- Grouping the orders of a book by a key: one level per distinct key, in the
order in which the keys first occur in the book, holding the key and the sum
of the `left` of all the orders of the book with that key. -/
def grouped_levels (key : Order → Dec) (book : List Order) : List (Dec × Dec) :=
  (first_keys (book.map key)).map
    (fun k => (k, sum_left (book.filter (fun o => decide (key o = k)))))

/-- The asks of a book are sorted by price, lowest first. -/
def asks_sorted (book : List Order) : Prop :=
  book.Pairwise (fun a b => a.price ≤ b.price)

/-- The bids of a book are sorted by price, highest first. -/
def bids_sorted (book : List Order) : Prop :=
  book.Pairwise (fun a b => b.price ≤ a.price)

/-- A book for the depth examples: asks at 3, 3, 5 and 12, bids at 9, 7, 7 and 2. -/
def demoDepthMarket : Market :=
  { demoMarket with
    asks := [{ id := 1, user_id := 1, price := 3, left := 1 },
             { id := 2, user_id := 2, price := 3, left := 2 },
             { id := 3, user_id := 1, price := 5, left := 4 },
             { id := 4, user_id := 3, price := 12, left := 1 }],
    bids := [{ id := 5, user_id := 4, price := 9, left := 2 },
             { id := 6, user_id := 5, price := 7, left := 1 },
             { id := 7, user_id := 4, price := 7, left := 3 },
             { id := 8, user_id := 6, price := 2, left := 5 }] }

/-- A book that is not sorted: asks at 3, 5 and 3 again. -/
def demoDepthMarketUnsorted : Market :=
  { demoMarket with
    asks := [{ id := 1, user_id := 1, price := 3, left := 1 },
             { id := 2, user_id := 2, price := 5, left := 2 },
             { id := 3, user_id := 1, price := 3, left := 4 }],
    bids := [] }

/-- Is the event a reply sent to the client? -/
def Event.is_rpc_send : Event → Bool
  | Event.rpc_send _ => true
  | _ => false

/-- The body of a request either fails to decode or decodes to a value that is
not an array: the condition of `goto decode_error`. -/
def decode_fails (env : Env) (pkg : rpc_pkg) : Prop :=
  ∀ params, env.json_loadb pkg.body = some params → json_is_array params = false

/-- An environment whose decoder reads every body as the number 5. -/
def demoEnvScalar : Env :=
  { demoEnv with json_loadb := fun _ => some (Json.integer 5) }
/-- Is the event a call of `asset_register`? -/
def Event.is_asset_register : Event → Bool
  | Event.asset_register _ _ _ => true
  | _ => false

/-- Is the event a call of `market_register`? -/
def Event.is_market_register : Event → Bool
  | Event.market_register _ _ _ _ _ _ => true
  | _ => false

/-- The reply after a registration routine returned `ret` leaving the state
`st`: success for a non-negative status, code 2 otherwise. -/
def register_reply (st : Engine) (pkg : rpc_pkg) (ret : Int) : Outcome :=
  if ret < 0 then reply_error st pkg 2 "internal error" else reply_success st pkg

/-- The parameters of an ASSET_REGISTER request in the examples. -/
def demoAssetParams (symbol tick : String) : Json :=
  Json.array [Json.string symbol, Json.string "Ether", Json.string tick]

/-- The parameters of a MARKET_REGISTER request in the examples. -/
def demoMarketRegParams (ticker base : String) : Json :=
  Json.array [Json.string ticker, Json.string "A new market", Json.string base,
    Json.string "USD", Json.string "10", Json.integer 0]

/-- The orders a paged query returns from a list: the slice that starts at
index `offset` and holds at most `limit` orders, in list order. -/
def order_slice (orders : List Order) (offset limit : Nat) : List Order :=
  (orders.drop offset).take limit

/-- A book for the paging examples: five resting asks of users 1 and 2. -/
def demoPagedMarket : Market :=
  { demoMarket with
    asks := [{ id := 1, user_id := 1, price := 3, left := 1 },
             { id := 2, user_id := 2, price := 3, left := 2 },
             { id := 3, user_id := 1, price := 5, left := 4 },
             { id := 4, user_id := 1, price := 6, left := 1 },
             { id := 5, user_id := 1, price := 7, left := 1 }],
    bids := [{ id := 6, user_id := 2, price := 2, left := 1 }] }

/-- The state of the paging examples. -/
def demoPagedEngine : Engine :=
  { demoEngine with markets := [demoPagedMarket] }

/-- Parameters of a LIMIT or AON request of the given user on BTCUSD. -/
def demoLimitParamsOf (user_id side : Int) (amount price : String) : Json :=
  Json.array [Json.integer user_id, Json.string "BTCUSD", Json.integer side, Json.string amount,
    Json.string price, Json.string "0.001", Json.string "0.001", Json.string "web"]

/-- The arguments read from `demoLimitParamsOf 3 2 "0.0001" "10000.005"`: a bid
of user 3, who holds nothing, below the minimum amount and off the price grid. -/
def demoArgsThreeFaults : PutArgs :=
  { user_id := 3, market := demoMarket, side := 2, amount := 1 / 10000,
    price := 10000 + 5 / 1000, taker_fee := 1 / 1000, maker_fee := 1 / 1000, source := "web" }
/-- Parameters of a FOK request of user 1 on BTCUSD. -/
def demoFokParams (side : Int) (amount price : String) : Json :=
  Json.array [Json.integer 1, Json.string "BTCUSD", Json.integer side, Json.string amount,
    Json.string price, Json.string "0.001", Json.string "web"]

/-- Lookup `json_object_get` in the members of an object: the value of the
first member with the key. -/
def json_members_get (kvs : List (String × Json)) (key : String) : Option Json :=
  match kvs with
  | [] => none
  | (k, v) :: rest => if k = key then some v else json_members_get rest key

/-- Lookup `json_object_get`: `NULL` (none) for a missing key or a value that
is not an object. -/
def json_object_get (json : Json) (key : String) : Option Json :=
  match json with
  | Json.object kvs => json_members_get kvs key
  | _ => none

/-- The decimal that `on_cmd_balance_query` reports for one balance of a unit:
the stored value, rescaled to the display precision when the two precisions
differ; an absent entry is reported as the string "0", the number 0. -/
def balance_shown (env : Env) (prec_save prec_show : Int) (balance : Option Dec) : Dec :=
  match balance with
  | some x => if prec_save ≠ prec_show then env.mpd_rescale x (-prec_show) else x
  | none => 0

/-- The decimal that `on_cmd_balance_query` reports as `total`: the sum of the
stored balances, an absent entry counting as zero. -/
def balance_total (available freeze : Option Dec) : Dec :=
  available.getD 0 + freeze.getD 0

/-- Modelled from the spec: `rescale(x, -p)` rounds `x` to `p` digits after the
decimal point with banker's rounding, that is to the nearest multiple of
`10^-p`, a tie going to the even one. The second argument is the exponent `-p`;
`mpd_rescale` belongs to the decimal library, which is not part of the sources. -/
def mpd_rescale_model (x : Dec) (exp : Int) : Dec :=
  let scale : Dec := 10 ^ (-exp).toNat
  let y := x * scale
  let f : Int := ⌊y⌋
  let r := y - f
  let n : Int :=
    if r < 1 / 2 then f else if 1 / 2 < r then f + 1 else if f % 2 = 0 then f else f + 1
  n / scale

/-- The environment of the examples with the rounding `mpd_rescale_model` and
a given rendering of decimals. -/
def demoEnvRound (sci : Dec → String) : Env :=
  { demoEnv with mpd_rescale := mpd_rescale_model, mpd_to_sci := sci }

/-- A state with an asset ETH stored with 3 digits and shown with 2, in which
user 1 holds 1.004 ETH available and 0.004 ETH frozen. -/
def demoEngineRound : Engine :=
  { demoEngine with
    settings :=
      { demoEngine.settings with
        assets := [{ name := "ETH", prec_save := 3, prec_show := 2, tick_size := 1 / 1000 }] },
    balances := [{ user_id := 1, type := 1, asset := "ETH", amount := 251 / 250 },
                 { user_id := 1, type := 2, asset := "ETH", amount := 1 / 250 }] }

/-- Is the event a read through a null pointer? -/
def Event.is_null_deref : Event → Bool
  | Event.null_deref => true
  | _ => false

/-- The balance check of `on_cmd_order_put` takes its third branch, the one
that reads `node->value` of the first ask: the side is not ASK and the command
sets no price. -/
def reads_first_ask (pkg : rpc_pkg) (a : PutArgs) : Prop :=
  a.side ≠ MARKET_ORDER_SIDE_ASK ∧ pkg.command = Command.CMD_ORDER_PUT_MARKET
/-- The routines that look up markets and tick sizes give the same answers in
two states: they read the market and asset tables, which the states share. -/
def same_tables (env : Env) (st1 st2 : Engine) : Prop :=
  env.get_market st2 = env.get_market st1 ∧ env.asset_tick_size st2 = env.asset_tick_size st1

/-- The arguments read from `demoMarketParams 2 amount` on the engine of the
examples: a MARKET bid of user 1 on BTCUSD. -/
def demoMarketBidArgs (amount : Dec) : PutArgs :=
  { user_id := 1, market := demoMarket, side := 2, amount := amount, price := 0,
    taker_fee := 1 / 1000, maker_fee := 0, source := "web" }

/-- Every price of the book is an exact multiple of the interval. -/
def prices_on_grid (interval : Dec) (book : List Order) : Prop :=
  ∀ o ∈ book, ∃ k : Int, o.price = k * interval

/-- A sorted book whose prices are multiples of 5: asks at 5, 5, 10 and 20,
bids at 15, 10, 10 and 5. -/
def demoGridMarket : Market :=
  { demoMarket with
    asks := [{ id := 1, user_id := 1, price := 5, left := 1 },
             { id := 2, user_id := 2, price := 5, left := 2 },
             { id := 3, user_id := 1, price := 10, left := 4 },
             { id := 4, user_id := 3, price := 20, left := 1 }],
    bids := [{ id := 5, user_id := 4, price := 15, left := 2 },
             { id := 6, user_id := 5, price := 10, left := 1 },
             { id := 7, user_id := 4, price := 10, left := 3 },
             { id := 8, user_id := 6, price := 5, left := 5 }] }
/-- The user has a balance entry for the asset, AVAILABLE or FREEZE. -/
def user_has_entry (env : Env) (st : Engine) (user_id : Nat) (asset : String) : Prop :=
  env.balance_get st user_id BALANCE_TYPE_AVAILABLE asset ≠ none ∨
    env.balance_get st user_id BALANCE_TYPE_FREEZE asset ≠ none

/-- The name is the name of an entry of the asset table `settings.assets`. -/
def asset_listed (st : Engine) (asset : String) : Prop :=
  ∃ c ∈ st.settings.assets, c.name = asset

/-! ## Error replies after a placement call -/

theorem mpd_cmp_lt_zero (a b : Dec) : mpd_cmp a b < 0 ↔ a < b := by
  unfold mpd_cmp
  split_ifs with h1 h2 <;> simp [h1]

theorem mpd_cmp_ne_zero (a b : Dec) : mpd_cmp a b ≠ 0 ↔ a ≠ b := by
  unfold mpd_cmp
  split_ifs with h1 h2
  · simp [ne_of_lt h1]
  · simp [h2]
  · simp [h2]

theorem mpd_cmp_eq_zero (a b : Dec) : mpd_cmp a b = 0 ↔ a = b := by
  have h := mpd_cmp_ne_zero a b
  constructor
  · intro h0
    by_contra hne
    exact (h.mpr hne) h0
  · intro hab
    by_contra h0
    exact (h.mp h0) hab

theorem mpd_cmp_le_zero (a b : Dec) : mpd_cmp a b ≤ 0 ↔ a ≤ b := by
  unfold mpd_cmp
  split_ifs with h1 h2
  · simp [le_of_lt h1]
  · simp [h2]
  · have : ¬ a ≤ b := fun hle => (lt_or_eq_of_le hle).elim h1 h2
    simp [this]

theorem mpd_cmp_ge_zero (a b : Dec) : mpd_cmp a b ≥ 0 ↔ b ≤ a := by
  unfold mpd_cmp
  split_ifs with h1 h2
  · simp [h1]
  · simp [h2]
  · simp [not_lt.mp h1]

theorem reply_error_inj (st : Engine) (pkg : rpc_pkg) (c c' : Int) (m m' : String) :
    reply_error st pkg c m = reply_error st pkg c' m' ↔ c = c' ∧ m = m' := by
  simp [reply_error, reply_json]

theorem reply_error_state (st : Engine) (pkg : rpc_pkg) (c : Int) (m : String) :
    (reply_error st pkg c m).state = st := rfl

theorem reply_error_trace (st : Engine) (pkg : rpc_pkg) (c : Int) (m : String) :
    ∃ reply, (reply_error st pkg c m).trace = [Event.rpc_send reply] := ⟨_, rfl⟩

/-- The label code answers an error reply exactly along the status table. -/
theorem order_put_finish_eq_reply_error (env : Env) (st : Engine) (pkg : rpc_pkg)
    (params : Json) (ret : Int) (oper : String) (result : Json) (c : Int) (m : String) :
    order_put_finish env st pkg params ret oper result = reply_error st pkg c m ↔
      (ret = -1 ∧ c = 10 ∧ m = "insufficient balance") ∨
      (ret = -2 ∧ c = 11 ∧ m = "invalid amount") ∨
      (ret = -3 ∧ c = 14 ∧ m = "invalid price") ∨
      (ret = -4 ∧ c = 12 ∧ m = "price out of range") ∨
      (ret = -5 ∧ c = 13 ∧ m = "insufficient trading fee") ∨
      (ret = -6 ∧ c = 15 ∧ m = "no orders found") ∨
      (ret < -6 ∧ c = 2 ∧ m = "internal error") := by
  unfold order_put_finish
  split_ifs with h1 h2 h3 h4 h5 h6 h7
  · subst h1; simp [reply_error_inj, eq_comm]
  · subst h2; simp [reply_error_inj, eq_comm]
  · subst h3; simp [reply_error_inj, eq_comm]
  · subst h4; simp [reply_error_inj, eq_comm]
  · subst h5; simp [reply_error_inj, eq_comm]
  · subst h6; simp [reply_error_inj, eq_comm]
  · have h8 : ret < -6 := by omega
    simp [reply_error_internal_error, reply_error_inj, h1, h2, h3, h4, h5, h6, h8, eq_comm]
  · have h8 : ¬ ret < -6 := by omega
    simp [h1, h2, h3, h4, h5, h6, h8, Outcome.after, reply_result, reply_error, reply_json]

/-- With valid arguments, the handler's whole behaviour is one error reply with
a code other than 1 exactly when the order checks stop with the matching status. -/
theorem on_cmd_order_put_eq_reply_error (env : Env) (st : Engine) (pkg : rpc_pkg)
    (params : Json) (a : PutArgs) (hargs : order_put_args env st pkg params = some a)
    (c : Int) (m : String) (hc : c ≠ 1) :
    on_cmd_order_put env st pkg params = reply_error st pkg c m ↔
      ∃ ret, order_put_checks env st pkg a = PutCheck.invalid_order ret ∧
        order_put_finish env st pkg params ret "" Json.null = reply_error st pkg c m := by
  unfold on_cmd_order_put
  simp only [hargs]
  cases hchk : order_put_checks env st pkg a with
  | null_deref => simp [reply_error, reply_json]
  | invalid_order ret => simp
  | pass =>
    have hne : ∀ (e : Event) (o : Outcome), e.placed.isSome = true →
        Outcome.after [e] o ≠ reply_error st pkg c m := by
      intro e o he h
      have ht := congrArg Outcome.trace h
      simp only [Outcome.after, reply_error, reply_json, List.singleton_append] at ht
      cases e <;> simp [Event.placed] at he ht
    cases hcmd : pkg.command <;>
      first
      | (simp only []; simp [reply_error_invalid_argument, reply_error_inj]; intro h; exact absurd h.symm hc)
      | (simp only []
         constructor
         · intro h
           exact absurd h (hne _ _ rfl)
         · rintro ⟨ret, hret, -⟩
           cases hret)

/-- With valid arguments and a failing order check, the handler runs the label
code with that status and nothing else. -/
theorem on_cmd_order_put_of_invalid_order (env : Env) (st : Engine) (pkg : rpc_pkg)
    (params : Json) (a : PutArgs) (ret : Int)
    (hargs : order_put_args env st pkg params = some a)
    (hchk : order_put_checks env st pkg a = PutCheck.invalid_order ret) :
    on_cmd_order_put env st pkg params = order_put_finish env st pkg params ret "" Json.null := by
  unfold on_cmd_order_put
  simp only [hargs, hchk]

/-- The balance check only ever stops with status -1, -5 or -4. -/
theorem order_put_balance_check_status (env : Env) (st : Engine) (pkg : rpc_pkg) (a : PutArgs)
    (ret : Int) (hchk : order_put_balance_check env st pkg a = PutCheck.invalid_order ret) :
    ret = -1 ∨ ret = -5 ∨ ret = -4 := by
  unfold order_put_balance_check at hchk
  simp only [] at hchk
  (split_ifs at hchk <;> split at hchk) <;>
    first
    | (injection hchk with hchk; omega)
    | (injection hchk)
    | (split_ifs at hchk <;> first | (injection hchk with hchk; omega))

/-- The order checks only ever stop with a status from -1 to -6. -/
theorem order_put_checks_status (env : Env) (st : Engine) (pkg : rpc_pkg) (a : PutArgs)
    (ret : Int) (hchk : order_put_checks env st pkg a = PutCheck.invalid_order ret) :
    ret = -1 ∨ ret = -2 ∨ ret = -3 ∨ ret = -4 ∨ ret = -5 ∨ ret = -6 := by
  unfold order_put_checks at hchk
  simp only [] at hchk
  split_ifs at hchk <;>
    first
    | (injection hchk with hchk; omega)
    | (have h := order_put_balance_check_status env st pkg a ret hchk; omega)

/-- Step 2: a request failing an amount check stops with status -2. -/
theorem order_put_checks_amount (env : Env) (st : Engine) (pkg : rpc_pkg) (a : PutArgs)
    (h : ¬ passes_amount_checks env st a) :
    order_put_checks env st pkg a = PutCheck.invalid_order (-2) := by
  unfold order_put_checks
  simp only [mpd_cmp_lt_zero, mpd_cmp_ne_zero]
  unfold passes_amount_checks at h
  by_cases h1 : a.amount < a.market.min_amount
  · simp [h1]
  · have h2 : mpd_rem a.amount (env.asset_tick_size st a.market.stock) ≠ 0 := fun h0 => h ⟨h1, h0⟩
    simp [h1, h2]

/-- Step 3-1: past the amount checks, a price off the tick grid stops a
price-setting command with status -3. -/
theorem order_put_checks_price_tick (env : Env) (st : Engine) (pkg : rpc_pkg) (a : PutArgs)
    (hamount : passes_amount_checks env st a)
    (hcmd : pkg.command ≠ Command.CMD_ORDER_PUT_MARKET)
    (h : ¬ passes_price_tick env st a) :
    order_put_checks env st pkg a = PutCheck.invalid_order (-3) := by
  unfold order_put_checks
  simp only [mpd_cmp_lt_zero, mpd_cmp_ne_zero]
  unfold passes_price_tick at h
  simp [hamount.1, hamount.2, hcmd, h]

/-- Step 3-2: past the amount and tick checks, a price-setting command with a
total or price out of range stops with status -4. -/
theorem order_put_checks_price_range (env : Env) (st : Engine) (pkg : rpc_pkg) (a : PutArgs)
    (hamount : passes_amount_checks env st a)
    (hcmd : pkg.command ≠ Command.CMD_ORDER_PUT_MARKET)
    (htick : passes_price_tick env st a)
    (hr : price_out_of_range env st a) :
    order_put_checks env st pkg a = PutCheck.invalid_order (-4) := by
  unfold order_put_checks
  simp only [mpd_cmp_lt_zero, mpd_cmp_ne_zero]
  unfold passes_price_tick at htick
  unfold price_out_of_range at hr
  simp [hamount.1, hamount.2, hcmd, htick, hr]

/-- Step 4, first test: past the amount and price checks, a MARKET or FOK
request facing an empty opposite side stops with status -6. -/
theorem order_put_checks_makers (env : Env) (st : Engine) (pkg : rpc_pkg) (a : PutArgs)
    (hamount : passes_amount_checks env st a)
    (hprice : pkg.command ≠ Command.CMD_ORDER_PUT_MARKET →
      passes_price_tick env st a ∧ ¬ price_out_of_range env st a)
    (hcmd : pkg.command = Command.CMD_ORDER_PUT_MARKET ∨ pkg.command = Command.CMD_ORDER_PUT_FOK)
    (h : check_makers_exist a.side a.market = false) :
    order_put_checks env st pkg a = PutCheck.invalid_order (-6) := by
  unfold order_put_checks
  simp only [mpd_cmp_lt_zero, mpd_cmp_ne_zero]
  unfold passes_price_tick price_out_of_range at hprice
  rcases hcmd with hcmd | hcmd
  · simp [hamount.1, hamount.2, hcmd, h]
  · have hp := hprice (by rw [hcmd]; decide)
    have hp2 := hp.2
    push_neg at hp2
    simp [hamount.1, hamount.2, hcmd, h, hp.1, hp2.1, hp2.2.1, hp2.2.2]

/-- A request that passes every step before the balance check gets the verdict
of the balance check. -/
theorem order_put_checks_balance (env : Env) (st : Engine) (pkg : rpc_pkg) (a : PutArgs)
    (h : passes_until_balance env st pkg a) :
    order_put_checks env st pkg a = order_put_balance_check env st pkg a := by
  obtain ⟨hamount, hprice, hmakers⟩ := h
  unfold order_put_checks
  simp only [mpd_cmp_lt_zero, mpd_cmp_ne_zero]
  unfold passes_price_tick price_out_of_range at hprice
  by_cases hm : pkg.command = Command.CMD_ORDER_PUT_MARKET
  · have hk := hmakers (Or.inl hm)
    simp [hamount.1, hamount.2, hm, hk]
  · have hp := hprice hm
    have hp2 := hp.2
    push_neg at hp2
    by_cases hf : pkg.command = Command.CMD_ORDER_PUT_FOK
    · have hk := hmakers (Or.inr hf)
      simp [hamount.1, hamount.2, hf, hk, hp.1, hp2.1, hp2.2.1, hp2.2.2]
    · simp [hamount.1, hamount.2, hm, hf, hp.1, hp2.1, hp2.2.1, hp2.2.2]

/-- The label code calls no placement routine. -/
theorem order_put_finish_placed (env : Env) (st : Engine) (pkg : rpc_pkg) (params : Json)
    (ret : Int) (oper : String) (result : Json) :
    ∀ e ∈ (order_put_finish env st pkg params ret oper result).trace, e.placed = none := by
  intro e he
  unfold order_put_finish at he
  split_ifs at he <;>
    simp [reply_error_internal_error, reply_error, reply_result, reply_json, Outcome.after] at he <;>
    first
    | (subst he; rfl)
    | (rcases he with rfl | rfl <;> rfl)

/-- A placement event in the trace of the handler carries the validated
arguments of a request that passed every order check. -/
theorem on_cmd_order_put_placed (env : Env) (st : Engine) (pkg : rpc_pkg) (params : Json)
    (e : Event) (he : e ∈ (on_cmd_order_put env st pkg params).trace)
    (m : Market) (u s : Nat) (x : Dec) (hp : e.placed = some (m, u, s, x)) :
    ∃ a, order_put_args env st pkg params = some a ∧
      order_put_checks env st pkg a = PutCheck.pass ∧
      m = a.market ∧ u = a.user_id ∧ s = a.side ∧ x = a.amount := by
  unfold on_cmd_order_put at he
  cases hargs : order_put_args env st pkg params with
  | none =>
    simp [hargs, reply_error_invalid_argument, reply_error, reply_json] at he
    subst he
    simp [Event.placed] at hp
  | some a =>
    simp only [hargs] at he
    cases hchk : order_put_checks env st pkg a with
    | null_deref =>
      simp [hchk] at he
      subst he
      simp [Event.placed] at hp
    | invalid_order ret =>
      simp only [hchk] at he
      rw [order_put_finish_placed env st pkg params ret _ _ e he] at hp
      cases hp
    | pass =>
      simp only [hchk] at he
      refine ⟨a, rfl, hchk, ?_⟩
      cases hcmd : pkg.command <;> simp only [hcmd] at he <;>
        first
        | (simp [reply_error_invalid_argument, reply_error, reply_json] at he
           subst he
           simp [Event.placed] at hp)
        | (simp only [Outcome.after, List.singleton_append, List.mem_cons] at he
           rcases he with he | he
           · subst he
             simp only [Event.placed, Option.some.injEq, Prod.mk.injEq] at hp
             obtain ⟨h1, h2, h3, h4⟩ := hp
             exact ⟨h1.symm, h2.symm, h3.symm, h4.symm⟩
           · rw [order_put_finish_placed _ _ _ _ _ _ _ e he] at hp
             cases hp)

/-- A request that passes the order checks passed the amount checks and the
balance check. -/
theorem order_put_checks_pass (env : Env) (st : Engine) (pkg : rpc_pkg) (a : PutArgs)
    (h : order_put_checks env st pkg a = PutCheck.pass) :
    passes_amount_checks env st a ∧ order_put_balance_check env st pkg a = PutCheck.pass := by
  constructor
  · by_contra hn
    rw [order_put_checks_amount env st pkg a hn] at h
    cases h
  · unfold order_put_checks at h
    simp only [] at h
    split_ifs at h
    exact h

/-- C3: an order-put request that `on_cmd_order_put` rejects during its own
validation (an argument check, or an order check before the switch on the
command) is answered by one error reply whose code is 1, 11, 14, 12, 15, 10 or
13; the engine state (balances, order books) is returned unchanged, and the
trace holds no placement call and no `append_operlog` call. -/
theorem order_put_rejected_no_effect (env : Env) (st : Engine) (pkg : rpc_pkg) (params : Json)
    (h : rejected_by_validation env st pkg params) :
    ∃ code message,
      (code = 1 ∨ code = 11 ∨ code = 14 ∨ code = 12 ∨ code = 15 ∨ code = 10 ∨ code = 13) ∧
      on_cmd_order_put env st pkg params = reply_error st pkg code message ∧
      (on_cmd_order_put env st pkg params).state = st ∧
      ∀ e ∈ (on_cmd_order_put env st pkg params).trace,
        e.placed = none ∧ e.is_operlog = false := by
  have key : ∃ code message,
      (code = 1 ∨ code = 11 ∨ code = 14 ∨ code = 12 ∨ code = 15 ∨ code = 10 ∨ code = 13) ∧
      on_cmd_order_put env st pkg params = reply_error st pkg code message := by
    rcases h with hnone | ⟨a, ret, hargs, hchk⟩
    · refine ⟨1, "invalid argument", Or.inl rfl, ?_⟩
      unfold on_cmd_order_put
      simp only [hnone]
      rfl
    · rw [on_cmd_order_put_of_invalid_order env st pkg params a ret hargs hchk]
      rcases order_put_checks_status env st pkg a ret hchk with h | h | h | h | h | h <;> subst h
      · exact ⟨10, "insufficient balance", by simp, by simp [order_put_finish]⟩
      · exact ⟨11, "invalid amount", by simp, by simp [order_put_finish]⟩
      · exact ⟨14, "invalid price", by simp, by simp [order_put_finish]⟩
      · exact ⟨12, "price out of range", by simp, by simp [order_put_finish]⟩
      · exact ⟨13, "insufficient trading fee", by simp, by simp [order_put_finish]⟩
      · exact ⟨15, "no orders found", by simp, by simp [order_put_finish]⟩
  obtain ⟨code, message, hcode, heq⟩ := key
  refine ⟨code, message, hcode, heq, ?_, ?_⟩
  · rw [heq]
    rfl
  · rw [heq]
    intro e he
    simp only [reply_error, reply_json, List.mem_singleton] at he
    subst he
    exact ⟨rfl, rfl⟩

/-- C4: the status with which `on_cmd_order_put` reaches its label
`invalid_order` comes from a failed order check or from the placement routine
of the command, and the label maps it to the reply: -1 to code 10
"insufficient balance", -2 to 11 "invalid amount", -3 to 14 "invalid price",
-4 to 12 "price out of range", -5 to 13 "insufficient trading fee", -6 to 15
"no orders found", every other negative status to 2 "internal error", and a
non-negative status to the operlog entry followed by a result reply that
carries the object returned by the placement routine. -/
theorem order_put_status_reply (env : Env) (st : Engine) (pkg : rpc_pkg) (params : Json)
    (a : PutArgs) (hargs : order_put_args env st pkg params = some a) :
    (∀ ret, order_put_checks env st pkg a = PutCheck.invalid_order ret →
      on_cmd_order_put env st pkg params =
        order_put_finish env st pkg params ret "" Json.null) ∧
    (order_put_checks env st pkg a = PutCheck.pass →
      (pkg.command = Command.CMD_ORDER_PUT_LIMIT →
        on_cmd_order_put env st pkg params =
          Outcome.after [Event.market_put_limit_order a.market a.user_id a.side a.amount
              a.price a.taker_fee a.maker_fee a.source]
            (order_put_finish env
              (env.market_put_limit_order st a.market a.user_id a.side a.amount a.price
                a.taker_fee a.maker_fee a.source).state pkg params
              (env.market_put_limit_order st a.market a.user_id a.side a.amount a.price
                a.taker_fee a.maker_fee a.source).ret "limit_order"
              (env.market_put_limit_order st a.market a.user_id a.side a.amount a.price
                a.taker_fee a.maker_fee a.source).result)) ∧
      (pkg.command = Command.CMD_ORDER_PUT_AON →
        on_cmd_order_put env st pkg params =
          Outcome.after [Event.market_put_aon_order a.market a.user_id a.side a.amount
              a.price a.taker_fee a.maker_fee a.source]
            (order_put_finish env
              (env.market_put_aon_order st a.market a.user_id a.side a.amount a.price
                a.taker_fee a.maker_fee a.source).state pkg params
              (env.market_put_aon_order st a.market a.user_id a.side a.amount a.price
                a.taker_fee a.maker_fee a.source).ret "aon_order"
              (env.market_put_aon_order st a.market a.user_id a.side a.amount a.price
                a.taker_fee a.maker_fee a.source).result)) ∧
      (pkg.command = Command.CMD_ORDER_PUT_MARKET →
        on_cmd_order_put env st pkg params =
          Outcome.after [Event.market_put_market_order a.market a.user_id a.side a.amount
              a.taker_fee a.source]
            (order_put_finish env
              (env.market_put_market_order st a.market a.user_id a.side a.amount
                a.taker_fee a.source).state pkg params
              (env.market_put_market_order st a.market a.user_id a.side a.amount
                a.taker_fee a.source).ret "market_order"
              (env.market_put_market_order st a.market a.user_id a.side a.amount
                a.taker_fee a.source).result)) ∧
      (pkg.command = Command.CMD_ORDER_PUT_FOK →
        on_cmd_order_put env st pkg params =
          Outcome.after [Event.market_put_fok_order a.market a.user_id a.side a.amount
              a.price a.taker_fee a.source]
            (order_put_finish env
              (env.market_put_fok_order st a.market a.user_id a.side a.amount a.price
                a.taker_fee a.source).state pkg params
              (env.market_put_fok_order st a.market a.user_id a.side a.amount a.price
                a.taker_fee a.source).ret "fok_order"
              (env.market_put_fok_order st a.market a.user_id a.side a.amount a.price
                a.taker_fee a.source).result))) ∧
    (∀ (st1 : Engine) (ret : Int) (oper : String) (result : Json),
      (ret = -1 → order_put_finish env st1 pkg params ret oper result =
        reply_error st1 pkg 10 "insufficient balance") ∧
      (ret = -2 → order_put_finish env st1 pkg params ret oper result =
        reply_error st1 pkg 11 "invalid amount") ∧
      (ret = -3 → order_put_finish env st1 pkg params ret oper result =
        reply_error st1 pkg 14 "invalid price") ∧
      (ret = -4 → order_put_finish env st1 pkg params ret oper result =
        reply_error st1 pkg 12 "price out of range") ∧
      (ret = -5 → order_put_finish env st1 pkg params ret oper result =
        reply_error st1 pkg 13 "insufficient trading fee") ∧
      (ret = -6 → order_put_finish env st1 pkg params ret oper result =
        reply_error st1 pkg 15 "no orders found") ∧
      (ret < -6 → order_put_finish env st1 pkg params ret oper result =
        reply_error st1 pkg 2 "internal error") ∧
      (0 ≤ ret → order_put_finish env st1 pkg params ret oper result =
        Outcome.after [Event.append_operlog oper params]
          (reply_result (env.append_operlog st1 oper params) pkg result))) := by
  refine ⟨?_, ?_, ?_⟩
  · intro ret hchk
    exact on_cmd_order_put_of_invalid_order env st pkg params a ret hargs hchk
  · intro hchk
    refine ⟨?_, ?_, ?_, ?_⟩ <;> intro hcmd <;> unfold on_cmd_order_put <;>
      simp only [hargs, hchk, hcmd]
  · intro st1 ret oper result
    refine ⟨?_, ?_, ?_, ?_, ?_, ?_, ?_, ?_⟩ <;> intro hret
    · subst hret; simp [order_put_finish]
    · subst hret; simp [order_put_finish]
    · subst hret; simp [order_put_finish]
    · subst hret; simp [order_put_finish]
    · subst hret; simp [order_put_finish]
    · subst hret; simp [order_put_finish]
    · have h1 : ret ≠ -1 := by omega
      have h2 : ret ≠ -2 := by omega
      have h3 : ret ≠ -3 := by omega
      have h4 : ret ≠ -4 := by omega
      have h5 : ret ≠ -5 := by omega
      have h6 : ret ≠ -6 := by omega
      have h7 : ret < 0 := by omega
      simp [order_put_finish, h1, h2, h3, h4, h5, h6, h7, reply_error_internal_error]
    · have h1 : ret ≠ -1 := by omega
      have h2 : ret ≠ -2 := by omega
      have h3 : ret ≠ -3 := by omega
      have h4 : ret ≠ -4 := by omega
      have h5 : ret ≠ -5 := by omega
      have h6 : ret ≠ -6 := by omega
      have h7 : ¬ ret < 0 := by omega
      simp [order_put_finish, h1, h2, h3, h4, h5, h6, h7]

/-- C5: for a request with well-formed arguments, an amount below
`market.min_amount` or not a multiple of the stock tick size is answered with
code 11 "invalid amount" and nothing else; and whatever the request, the
amount handed to a placement routine is at least `min_amount` and has
remainder zero modulo the stock tick size. -/
theorem order_put_invalid_amount (env : Env) (st : Engine) (pkg : rpc_pkg) (params : Json) :
    (∀ a, order_put_args env st pkg params = some a →
      (a.amount < a.market.min_amount ∨
        mpd_rem a.amount (env.asset_tick_size st a.market.stock) ≠ 0) →
      on_cmd_order_put env st pkg params = reply_error st pkg 11 "invalid amount") ∧
    (∀ e ∈ (on_cmd_order_put env st pkg params).trace, ∀ m u s x,
      e.placed = some (m, u, s, x) →
        ¬ x < m.min_amount ∧ mpd_rem x (env.asset_tick_size st m.stock) = 0) := by
  constructor
  · intro a hargs h
    have hn : ¬ passes_amount_checks env st a := by
      unfold passes_amount_checks
      rintro ⟨h1, h2⟩
      exact h.elim h1 (fun h3 => h3 h2)
    rw [on_cmd_order_put_of_invalid_order env st pkg params a (-2) hargs
      (order_put_checks_amount env st pkg a hn)]
    simp [order_put_finish]
  · intro e he m u s x hp
    obtain ⟨a, -, hchk, hm, -, -, hx⟩ := on_cmd_order_put_placed env st pkg params e he m u s x hp
    subst hm hx
    exact (order_put_checks_pass env st pkg a hchk).1

/-- The balance check of a price-setting command never stops with status -4,
and that of MARKET never with -3. -/
theorem order_put_balance_check_codes (env : Env) (st : Engine) (pkg : rpc_pkg) (a : PutArgs) :
    order_put_balance_check env st pkg a ≠ PutCheck.invalid_order (-3) ∧
    (pkg.command ≠ Command.CMD_ORDER_PUT_MARKET →
      order_put_balance_check env st pkg a ≠ PutCheck.invalid_order (-4)) := by
  constructor
  · intro h
    have := order_put_balance_check_status env st pkg a (-3) h
    omega
  · intro hcmd h
    unfold order_put_balance_check at h
    simp only [hcmd, ne_eq, not_false_eq_true, decide_True, if_true] at h
    (split_ifs at h <;> split at h) <;>
      first
      | (injection h with h; omega)
      | (injection h)
      | (split_ifs at h <;> first | (injection h with h; omega))

/-- C6: for a LIMIT, AON or FOK request with well-formed arguments that passes
the amount checks, a price that is not a multiple of the money tick size is
answered with code 14 "invalid price" and nothing else; a MARKET request is
never answered with code 14 by the validation of `on_cmd_order_put` (its
behaviour is never the bare code-14 reply, and its order checks never stop
with status -3). -/
theorem order_put_invalid_price (env : Env) (st : Engine) (pkg : rpc_pkg) (params : Json) :
    (∀ a, (pkg.command = Command.CMD_ORDER_PUT_LIMIT ∨ pkg.command = Command.CMD_ORDER_PUT_AON ∨
        pkg.command = Command.CMD_ORDER_PUT_FOK) →
      order_put_args env st pkg params = some a →
      passes_amount_checks env st a →
      mpd_rem a.price (env.asset_tick_size st a.market.money) ≠ 0 →
      on_cmd_order_put env st pkg params = reply_error st pkg 14 "invalid price") ∧
    (pkg.command = Command.CMD_ORDER_PUT_MARKET →
      (∀ message, on_cmd_order_put env st pkg params ≠ reply_error st pkg 14 message) ∧
      ∀ a, order_put_args env st pkg params = some a →
        order_put_checks env st pkg a ≠ PutCheck.invalid_order (-3)) := by
  constructor
  · intro a hcmd hargs hamount htick
    have hne : pkg.command ≠ Command.CMD_ORDER_PUT_MARKET := by
      rcases hcmd with h | h | h <;> rw [h] <;> decide
    rw [on_cmd_order_put_of_invalid_order env st pkg params a (-3) hargs
      (order_put_checks_price_tick env st pkg a hamount hne htick)]
    simp [order_put_finish]
  · intro hcmd
    have hchk : ∀ a, order_put_checks env st pkg a ≠ PutCheck.invalid_order (-3) := by
      intro a h
      unfold order_put_checks at h
      simp only [hcmd, ne_eq, not_true_eq_false, decide_False, Bool.false_eq_true, false_and,
        if_false] at h
      split_ifs at h <;>
        first
        | (injection h with h; omega)
        | exact (order_put_balance_check_codes env st pkg a).1 h
    refine ⟨?_, fun a _ => hchk a⟩
    intro message heq
    cases hargs : order_put_args env st pkg params with
    | none =>
      unfold on_cmd_order_put at heq
      simp only [hargs] at heq
      simp [reply_error_invalid_argument, reply_error_inj] at heq
    | some a =>
      rw [on_cmd_order_put_eq_reply_error env st pkg params a hargs 14 message (by decide)] at heq
      obtain ⟨ret, hret, hfin⟩ := heq
      rw [order_put_finish_eq_reply_error] at hfin
      have h3 : ret = -3 := by
        rcases hfin with h | h | h | h | h | h | h <;> first | exact h.1 | exact absurd h.2.1 (by decide)
      subst h3
      exact hchk a hret

/-- C8: a MARKET request with well-formed arguments that passes the amount
checks and faces an empty opposite side (no bid for an ASK, no ask for a BID)
is answered with code 15 "no orders found" and nothing is placed; and
`check_makers_exist` is true exactly when the opposite side holds an order. -/
theorem order_put_market_no_orders (env : Env) (st : Engine) (pkg : rpc_pkg) (params : Json)
    (a : PutArgs)
    (hcmd : pkg.command = Command.CMD_ORDER_PUT_MARKET)
    (hargs : order_put_args env st pkg params = some a)
    (hamount : passes_amount_checks env st a) :
    (((a.side = MARKET_ORDER_SIDE_ASK ∧ a.market.bids = []) ∨
        (a.side = MARKET_ORDER_SIDE_BID ∧ a.market.asks = [])) →
      on_cmd_order_put env st pkg params = reply_error st pkg 15 "no orders found" ∧
      ∀ e ∈ (on_cmd_order_put env st pkg params).trace, e.placed = none) ∧
    (∀ (market : Market),
      (check_makers_exist MARKET_ORDER_SIDE_ASK market = true ↔ market.bids ≠ []) ∧
      (check_makers_exist MARKET_ORDER_SIDE_BID market = true ↔ market.asks ≠ [])) := by
  have hcme : ∀ (market : Market),
      (check_makers_exist MARKET_ORDER_SIDE_ASK market = true ↔ market.bids ≠ []) ∧
      (check_makers_exist MARKET_ORDER_SIDE_BID market = true ↔ market.asks ≠ []) := by
    intro market
    constructor
    · unfold check_makers_exist
      simp only [if_true]
      cases market.bids <;> simp
    · unfold check_makers_exist
      have hne : MARKET_ORDER_SIDE_BID ≠ MARKET_ORDER_SIDE_ASK := by decide
      simp only [hne, if_false]
      cases market.asks <;> simp
  refine ⟨?_, hcme⟩
  intro hempty
  have hk : check_makers_exist a.side a.market = false := by
    rcases hempty with ⟨hs, hb⟩ | ⟨hs, hb⟩
    · rw [hs]
      have := (hcme a.market).1
      simp only [hb, ne_eq, not_true_eq_false, iff_false, Bool.not_eq_true] at this
      exact this
    · rw [hs]
      have := (hcme a.market).2
      simp only [hb, ne_eq, not_true_eq_false, iff_false, Bool.not_eq_true] at this
      exact this
  have heq : on_cmd_order_put env st pkg params = reply_error st pkg 15 "no orders found" := by
    rw [on_cmd_order_put_of_invalid_order env st pkg params a (-6) hargs
      (order_put_checks_makers env st pkg a hamount (fun h => absurd hcmd h) (Or.inl hcmd) hk)]
    simp [order_put_finish]
  refine ⟨heq, ?_⟩
  rw [heq]
  intro e he
  simp only [reply_error, reply_json, List.mem_singleton] at he
  subst he
  rfl

/-! ### Claims about `svr_on_recv_pkg` -/

/-- C1: for a BALANCE_UPDATE, ORDER_PUT_LIMIT, ORDER_PUT_MARKET, ORDER_PUT_AON
or ORDER_PUT_FOK request whose body decodes to a JSON array, when a sink
reports a block or `signal_block` is set, `svr_on_recv_pkg` does nothing but
reply error code 3 (wire 5003) "service unavailable": no command handler is
entered and the engine state is unchanged. -/
theorem svr_on_recv_pkg_service_unavailable (env : Env) (st : Engine) (pkg : rpc_pkg)
    (xs : List Json)
    (hcmd : pkg.command = Command.CMD_BALANCE_UPDATE ∨
      pkg.command = Command.CMD_ORDER_PUT_LIMIT ∨ pkg.command = Command.CMD_ORDER_PUT_MARKET ∨
      pkg.command = Command.CMD_ORDER_PUT_AON ∨ pkg.command = Command.CMD_ORDER_PUT_FOK)
    (hbody : env.json_loadb pkg.body = some (Json.array xs))
    (hblock : env.is_operlog_block st = true ∨ env.is_history_block st = true ∨
      env.is_message_block st = true ∨ st.signal_block = true) :
    svr_on_recv_pkg env st pkg = reply_error st pkg 3 "service unavailable" ∧
    (svr_on_recv_pkg env st pkg).state = st ∧
    (svr_on_recv_pkg env st pkg).trace =
      [Event.rpc_send (Json.object
        [("error", Json.object [("code", Json.integer 5003),
            ("message", Json.string "service unavailable")]),
         ("result", Json.null), ("id", Json.integer (to_json_int pkg.req_id))])] ∧
    ∀ e ∈ (svr_on_recv_pkg env st pkg).trace, e.is_handler = false := by
  have heq : svr_on_recv_pkg env st pkg = reply_error st pkg 3 "service unavailable" := by
    unfold svr_on_recv_pkg
    simp only [hbody, json_is_array]
    rcases hcmd with h | h | h | h | h <;>
      simp only [h, hblock, if_true, Bool.true_eq_false, if_false,
        reply_error_service_unavailable]
  refine ⟨heq, ?_, ?_, ?_⟩
  · rw [heq]; rfl
  · rw [heq]; rfl
  · rw [heq]
    intro e he
    simp only [reply_error, reply_json, List.mem_singleton] at he
    subst he
    rfl

/-- The gate in front of ORDER_CANCEL: for a request whose body decodes to a
JSON array, when one of the three sinks reports a block the dispatcher replies
code 3 and does not enter `on_cmd_order_cancel`; `signal_block` is not part of
this gate: with the sinks healthy the handler is entered whatever its value. -/
theorem svr_on_recv_pkg_cancel_gate (env : Env) (st : Engine) (pkg : rpc_pkg) (xs : List Json)
    (hcmd : pkg.command = Command.CMD_ORDER_CANCEL)
    (hbody : env.json_loadb pkg.body = some (Json.array xs)) :
    ((env.is_operlog_block st = true ∨ env.is_history_block st = true ∨
        env.is_message_block st = true) →
      svr_on_recv_pkg env st pkg = reply_error st pkg 3 "service unavailable") ∧
    (env.is_operlog_block st = false → env.is_history_block st = false →
      env.is_message_block st = false →
      svr_on_recv_pkg env st pkg =
        call_handler Command.CMD_ORDER_CANCEL (on_cmd_order_cancel env st pkg (Json.array xs))) := by
  constructor
  · intro hblock
    unfold svr_on_recv_pkg
    simp only [hbody, json_is_array, hcmd, hblock, if_true, Bool.true_eq_false, if_false,
      reply_error_service_unavailable]
  · intro h1 h2 h3
    unfold svr_on_recv_pkg
    simp only [hbody, json_is_array, hcmd, h1, h2, h3, Bool.false_eq_true, or_self, if_false,
      Bool.true_eq_false]

/-- C2 on the failing input: with only `signal_block` set, the ORDER_CANCEL
request of user 2 for the resting order 7 is not refused: the dispatcher enters
`on_cmd_order_cancel`, which calls `market_cancel_order`, appends the operlog
entry `cancel_order` and replies the result; the reply is not the code-3 error. -/
theorem svr_on_recv_pkg_cancel_signal_block :
    service_blocked demoEnv demoEngineSignalled ∧
    demoEnv.json_loadb demoCancelPkg.body = some demoCancelParams ∧
    (svr_on_recv_pkg demoEnv demoEngineSignalled demoCancelPkg).trace =
      [Event.handler Command.CMD_ORDER_CANCEL,
       Event.market_cancel_order demoMarket { id := 7, user_id := 2, price := 10000, left := 1 },
       Event.append_operlog "cancel_order" demoCancelParams,
       Event.rpc_send (Json.object [("error", Json.null), ("result", Json.object []),
         ("id", Json.integer 42)])] ∧
    (svr_on_recv_pkg demoEnv demoEngineSignalled demoCancelPkg).state.operlog =
      [("cancel_order", demoCancelParams)] ∧
    svr_on_recv_pkg demoEnv demoEngineSignalled demoCancelPkg ≠
      reply_error demoEngineSignalled demoCancelPkg 3 "service unavailable" := by
  have htrace : (svr_on_recv_pkg demoEnv demoEngineSignalled demoCancelPkg).trace =
      [Event.handler Command.CMD_ORDER_CANCEL,
       Event.market_cancel_order demoMarket { id := 7, user_id := 2, price := 10000, left := 1 },
       Event.append_operlog "cancel_order" demoCancelParams,
       Event.rpc_send (Json.object [("error", Json.null), ("result", Json.object []),
         ("id", Json.integer 42)])] := by
    with_unfolding_all rfl
  refine ⟨Or.inr (Or.inr (Or.inr rfl)), by with_unfolding_all rfl, htrace,
    by with_unfolding_all rfl, ?_⟩
  intro h
  have h2 := congrArg Outcome.trace h
  rw [htrace] at h2
  simp [reply_error, reply_json] at h2

/-! ### The claims on the concrete engine -/

/-- Witness of C3: a LIMIT bid of 0.0001 BTC, below the minimum amount of 0.001. -/
theorem order_put_rejected_no_effect_witness :
    rejected_by_validation demoEnv demoEngine (demoPkg Command.CMD_ORDER_PUT_LIMIT)
        (demoLimitParams 2 "0.0001" "10000") ∧
      ∃ code message,
        (code = 1 ∨ code = 11 ∨ code = 14 ∨ code = 12 ∨ code = 15 ∨ code = 10 ∨ code = 13) ∧
        on_cmd_order_put demoEnv demoEngine (demoPkg Command.CMD_ORDER_PUT_LIMIT)
            (demoLimitParams 2 "0.0001" "10000") =
          reply_error demoEngine (demoPkg Command.CMD_ORDER_PUT_LIMIT) code message ∧
        (on_cmd_order_put demoEnv demoEngine (demoPkg Command.CMD_ORDER_PUT_LIMIT)
            (demoLimitParams 2 "0.0001" "10000")).state = demoEngine ∧
        ∀ e ∈ (on_cmd_order_put demoEnv demoEngine (demoPkg Command.CMD_ORDER_PUT_LIMIT)
            (demoLimitParams 2 "0.0001" "10000")).trace,
          e.placed = none ∧ e.is_operlog = false :=
  have h : rejected_by_validation demoEnv demoEngine (demoPkg Command.CMD_ORDER_PUT_LIMIT)
      (demoLimitParams 2 "0.0001" "10000") :=
    Or.inr ⟨demoArgs 2 (1 / 10000) 10000 (1 / 1000), -2, by with_unfolding_all rfl,
      by with_unfolding_all rfl⟩
  ⟨h, order_put_rejected_no_effect _ _ _ _ h⟩

/-- Witness of C4: a LIMIT bid of 1 BTC at 10000 has well-formed arguments and
is handed to `market_put_limit_order`, whose status 0 yields the result reply. -/
theorem order_put_status_reply_witness :
    order_put_args demoEnv demoEngine (demoPkg Command.CMD_ORDER_PUT_LIMIT)
        (demoLimitParams 2 "1" "10000") = some (demoArgs 2 1 10000 (1 / 1000)) ∧
      on_cmd_order_put demoEnv demoEngine (demoPkg Command.CMD_ORDER_PUT_LIMIT)
          (demoLimitParams 2 "1" "10000") =
        Outcome.after [Event.market_put_limit_order demoMarket 1 2 1 10000 (1 / 1000) (1 / 1000)
            "web"]
          (order_put_finish demoEnv demoEngine (demoPkg Command.CMD_ORDER_PUT_LIMIT)
            (demoLimitParams 2 "1" "10000") 0 "limit_order" (Json.object [])) :=
  have hargs : order_put_args demoEnv demoEngine (demoPkg Command.CMD_ORDER_PUT_LIMIT)
      (demoLimitParams 2 "1" "10000") = some (demoArgs 2 1 10000 (1 / 1000)) := by
    with_unfolding_all rfl
  ⟨hargs, ((order_put_status_reply demoEnv demoEngine (demoPkg Command.CMD_ORDER_PUT_LIMIT)
    (demoLimitParams 2 "1" "10000") _ hargs).2.1 (by with_unfolding_all rfl)).1 rfl⟩

/-- Witness of C5: a LIMIT bid of 0.0001 BTC is answered with code 11. -/
theorem order_put_invalid_amount_witness :
    on_cmd_order_put demoEnv demoEngine (demoPkg Command.CMD_ORDER_PUT_LIMIT)
        (demoLimitParams 2 "0.0001" "10000") =
      reply_error demoEngine (demoPkg Command.CMD_ORDER_PUT_LIMIT) 11 "invalid amount" :=
  (order_put_invalid_amount demoEnv demoEngine (demoPkg Command.CMD_ORDER_PUT_LIMIT)
    (demoLimitParams 2 "0.0001" "10000")).1 (demoArgs 2 (1 / 10000) 10000 (1 / 1000))
    (by with_unfolding_all rfl) (Or.inl (by with_unfolding_all decide))

/-- Witness of C6: a LIMIT bid at 10000.005 USD, off the tick grid of 0.01. -/
theorem order_put_invalid_price_witness :
    on_cmd_order_put demoEnv demoEngine (demoPkg Command.CMD_ORDER_PUT_LIMIT)
        (demoLimitParams 2 "1" "10000.005") =
      reply_error demoEngine (demoPkg Command.CMD_ORDER_PUT_LIMIT) 14 "invalid price" :=
  (order_put_invalid_price demoEnv demoEngine (demoPkg Command.CMD_ORDER_PUT_LIMIT)
    (demoLimitParams 2 "1" "10000.005")).1 (demoArgs 2 1 (10000 + 5 / 1000) (1 / 1000))
    (Or.inl rfl) (by with_unfolding_all rfl)
    (by unfold passes_amount_checks; with_unfolding_all decide)
    (by with_unfolding_all decide)

/-- Witness of C8: a MARKET ask of 1 BTC on a book without bids. -/
theorem order_put_market_no_orders_witness :
    order_put_args demoEnv demoEngine (demoPkg Command.CMD_ORDER_PUT_MARKET)
        (demoMarketParams 1 "1") = some (demoArgs 1 1 0 0) ∧
      on_cmd_order_put demoEnv demoEngine (demoPkg Command.CMD_ORDER_PUT_MARKET)
          (demoMarketParams 1 "1") =
        reply_error demoEngine (demoPkg Command.CMD_ORDER_PUT_MARKET) 15 "no orders found" :=
  have hargs : order_put_args demoEnv demoEngine (demoPkg Command.CMD_ORDER_PUT_MARKET)
      (demoMarketParams 1 "1") = some (demoArgs 1 1 0 0) := by
    with_unfolding_all rfl
  ⟨hargs, ((order_put_market_no_orders demoEnv demoEngine (demoPkg Command.CMD_ORDER_PUT_MARKET)
    (demoMarketParams 1 "1") _ rfl hargs
    (by unfold passes_amount_checks; with_unfolding_all decide)).1
    (Or.inl ⟨rfl, rfl⟩)).1⟩

/-- Witness of C1: with the operlog sink blocked, an ORDER_PUT_LIMIT request is
answered with code 3 and nothing else happens. -/
theorem svr_on_recv_pkg_service_unavailable_witness :
    svr_on_recv_pkg demoEnv { demoEngine with operlog_block := true }
        { demoCancelPkg with command := Command.CMD_ORDER_PUT_LIMIT } =
      reply_error { demoEngine with operlog_block := true }
        { demoCancelPkg with command := Command.CMD_ORDER_PUT_LIMIT } 3 "service unavailable" :=
  (svr_on_recv_pkg_service_unavailable demoEnv { demoEngine with operlog_block := true }
    { demoCancelPkg with command := Command.CMD_ORDER_PUT_LIMIT }
    [Json.integer 2, Json.string "BTCUSD", Json.integer 7]
    (Or.inr (Or.inl rfl)) (by with_unfolding_all rfl) (Or.inl rfl)).1

/-- Witness of the ORDER_CANCEL gate: with the history sink blocked the request
of user 2 is answered with code 3. -/
theorem svr_on_recv_pkg_cancel_gate_witness :
    svr_on_recv_pkg demoEnv { demoEngine with history_block := true } demoCancelPkg =
      reply_error { demoEngine with history_block := true } demoCancelPkg 3
        "service unavailable" :=
  (svr_on_recv_pkg_cancel_gate demoEnv { demoEngine with history_block := true } demoCancelPkg
    [Json.integer 2, Json.string "BTCUSD", Json.integer 7] rfl
    (by with_unfolding_all rfl)).1 (Or.inr (Or.inl rfl))

/-! ### Claims C11 and C12: MARKET bids and fees -/

/-- What a successful argument validation of `on_cmd_order_put` has read: the
arity of the command, the market named by the second parameter, the side, and
the decimals parsed from the string parameters, each within its range. -/
theorem order_put_args_some (env : Env) (st : Engine) (pkg : rpc_pkg) (params : Json)
    (a : PutArgs) (hargs : order_put_args env st pkg params = some a) :
    (json_array_size params =
      if pkg.command = Command.CMD_ORDER_PUT_MARKET then 6
      else if pkg.command = Command.CMD_ORDER_PUT_FOK then 7 else 8) ∧
    (json_is_integer (json_array_get params 0) = true ∧
      a.user_id = to_uint32 (json_integer_value (json_array_get params 0))) ∧
    (∃ name, json_string_value (json_array_get params 1) = some name ∧
      env.get_market st name = some a.market) ∧
    (json_is_integer (json_array_get params 2) = true ∧
      a.side = to_uint32 (json_integer_value (json_array_get params 2)) ∧
      (a.side = MARKET_ORDER_SIDE_ASK ∨ a.side = MARKET_ORDER_SIDE_BID)) ∧
    (∃ s, json_string_value (json_array_get params 3) = some s ∧
      env.decimal (some s) a.market.stock_prec = some a.amount ∧ 0 < a.amount) ∧
    ((pkg.command ≠ Command.CMD_ORDER_PUT_MARKET →
        ∃ s, json_string_value (json_array_get params 4) = some s ∧
          env.decimal (some s) a.market.money_prec = some a.price ∧ 0 < a.price) ∧
      (pkg.command = Command.CMD_ORDER_PUT_MARKET → a.price = 0)) ∧
    (∃ s, json_string_value (json_array_get params
          (if pkg.command = Command.CMD_ORDER_PUT_MARKET then 4 else 5)) = some s ∧
      env.decimal (some s) a.market.fee_prec = some a.taker_fee ∧
      0 ≤ a.taker_fee ∧ a.taker_fee < 1) ∧
    ((pkg.command ≠ Command.CMD_ORDER_PUT_MARKET ∧ pkg.command ≠ Command.CMD_ORDER_PUT_FOK →
        ∃ s, json_string_value (json_array_get params 6) = some s ∧
          env.decimal (some s) a.market.fee_prec = some a.maker_fee ∧
          0 ≤ a.maker_fee ∧ a.maker_fee < 1) ∧
      (pkg.command = Command.CMD_ORDER_PUT_MARKET ∨ pkg.command = Command.CMD_ORDER_PUT_FOK →
        a.maker_fee = 0)) ∧
    (json_string_value (json_array_get params (json_array_size params - 1)) = some a.source ∧
      strlen a.source < env.SOURCE_MAX_LEN) := by
  unfold order_put_args at hargs
  by_cases h1 : json_array_size params > 8 ∨ json_array_size params < 6
  · rw [if_pos h1] at hargs
    cases hargs
  rw [if_neg h1] at hargs
  dsimp only at hargs
  by_cases h2 : (decide (pkg.command ≠ Command.CMD_ORDER_PUT_MARKET) &&
      decide (pkg.command ≠ Command.CMD_ORDER_PUT_FOK)) = true ∧ json_array_size params ≠ 8
  · rw [if_pos h2] at hargs
    cases hargs
  rw [if_neg h2] at hargs
  by_cases h3 : pkg.command = Command.CMD_ORDER_PUT_MARKET ∧ json_array_size params ≠ 6
  · rw [if_pos h3] at hargs
    cases hargs
  rw [if_neg h3] at hargs
  by_cases h4 : pkg.command = Command.CMD_ORDER_PUT_FOK ∧ json_array_size params ≠ 7
  · rw [if_pos h4] at hargs
    cases hargs
  rw [if_neg h4] at hargs
  by_cases h5 : json_is_integer (json_array_get params 0) = false
  · rw [if_pos h5] at hargs
    cases hargs
  rw [if_neg h5] at hargs
  cases h6 : json_string_value (json_array_get params 1) with
  | none =>
    rw [h6] at hargs
    cases hargs
  | some market_name =>
  rw [h6] at hargs
  dsimp only at hargs
  cases h7 : env.get_market st market_name with
  | none =>
    rw [h7] at hargs
    cases hargs
  | some market =>
  rw [h7] at hargs
  dsimp only at hargs
  by_cases h8 : json_is_integer (json_array_get params 2) = false
  · rw [if_pos h8] at hargs
    cases hargs
  rw [if_neg h8] at hargs
  by_cases h9 : to_uint32 (json_integer_value (json_array_get params 2)) ≠ MARKET_ORDER_SIDE_ASK ∧
      to_uint32 (json_integer_value (json_array_get params 2)) ≠ MARKET_ORDER_SIDE_BID
  · rw [if_pos h9] at hargs
    cases hargs
  rw [if_neg h9] at hargs
  cases h10 : json_string_value (json_array_get params 3) with
  | none =>
    rw [h10] at hargs
    cases hargs
  | some amount_str =>
  rw [h10] at hargs
  dsimp only at hargs
  cases h11 : env.decimal (some amount_str) market.stock_prec with
  | none =>
    rw [h11] at hargs
    cases hargs
  | some amount =>
  rw [h11] at hargs
  dsimp only at hargs
  by_cases h12 : mpd_cmp amount 0 ≤ 0
  · rw [if_pos h12] at hargs
    cases hargs
  rw [if_neg h12] at hargs
  generalize hpi : (if decide (pkg.command ≠ Command.CMD_ORDER_PUT_MARKET) = true then
      match json_string_value (json_array_get params 4) with
      | none => none
      | some price_str =>
        match env.decimal (some price_str) market.money_prec with
        | none => none
        | some price => if mpd_cmp price 0 ≤ 0 then none else some (price, 5)
    else some ((0 : Dec), 4)) = price_idx at hargs
  rcases price_idx with _ | ⟨price, idx⟩
  · cases hargs
  dsimp only at hargs
  cases h13 : json_string_value (json_array_get params idx) with
  | none =>
    rw [h13] at hargs
    cases hargs
  | some taker_str =>
  rw [h13] at hargs
  dsimp only at hargs
  cases h14 : env.decimal (some taker_str) market.fee_prec with
  | none =>
    rw [h14] at hargs
    cases hargs
  | some taker_fee =>
  rw [h14] at hargs
  dsimp only at hargs
  by_cases h15 : mpd_cmp taker_fee 0 < 0 ∨ mpd_cmp taker_fee 1 ≥ 0
  · rw [if_pos h15] at hargs
    cases hargs
  rw [if_neg h15] at hargs
  generalize hmi : (if (decide (pkg.command ≠ Command.CMD_ORDER_PUT_MARKET) &&
        decide (pkg.command ≠ Command.CMD_ORDER_PUT_FOK)) = true then
      match json_string_value (json_array_get params (idx + 1)) with
      | none => none
      | some maker_str =>
        match env.decimal (some maker_str) market.fee_prec with
        | none => none
        | some maker_fee =>
          if mpd_cmp maker_fee 0 < 0 ∨ mpd_cmp maker_fee 1 ≥ 0 then none
          else some (maker_fee, idx + 2)
    else some ((0 : Dec), idx + 1)) = maker_idx at hargs
  rcases maker_idx with _ | ⟨maker_fee, idx2⟩
  · cases hargs
  dsimp only at hargs
  by_cases h16 : json_array_size params ≠ idx2 + 1
  · rw [if_pos h16] at hargs
    cases hargs
  rw [if_neg h16] at hargs
  cases h17 : json_string_value (json_array_get params idx2) with
  | none =>
    rw [h17] at hargs
    cases hargs
  | some source =>
  rw [h17] at hargs
  dsimp only at hargs
  by_cases h18 : strlen source ≥ env.SOURCE_MAX_LEN
  · rw [if_pos h18] at hargs
    cases hargs
  rw [if_neg h18] at hargs
  injection hargs with hargs
  subst hargs
  dsimp only
  -- the facts read off the two optional parameters
  have hprice : (pkg.command ≠ Command.CMD_ORDER_PUT_MARKET →
        idx = 5 ∧ ∃ s, json_string_value (json_array_get params 4) = some s ∧
          env.decimal (some s) market.money_prec = some price ∧ 0 < price) ∧
      (pkg.command = Command.CMD_ORDER_PUT_MARKET → idx = 4 ∧ price = 0) := by
    by_cases hm : pkg.command = Command.CMD_ORDER_PUT_MARKET
    · have hd : decide (pkg.command ≠ Command.CMD_ORDER_PUT_MARKET) = false := by simp [hm]
      rw [hd, if_neg Bool.false_ne_true] at hpi
      injection hpi with hpi
      injection hpi with hp1 hp2
      exact ⟨fun h => absurd hm h, fun _ => ⟨hp2.symm, hp1.symm⟩⟩
    · have hd : decide (pkg.command ≠ Command.CMD_ORDER_PUT_MARKET) = true := by simp [hm]
      rw [hd, if_pos rfl] at hpi
      refine ⟨fun _ => ?_, fun h => absurd h hm⟩
      cases hq1 : json_string_value (json_array_get params 4) with
      | none =>
        rw [hq1] at hpi
        cases hpi
      | some price_str =>
        rw [hq1] at hpi
        dsimp only at hpi
        cases hq2 : env.decimal (some price_str) market.money_prec with
        | none =>
          rw [hq2] at hpi
          cases hpi
        | some p =>
          rw [hq2] at hpi
          dsimp only at hpi
          by_cases hq3 : mpd_cmp p 0 ≤ 0
          · rw [if_pos hq3] at hpi
            cases hpi
          · rw [if_neg hq3] at hpi
            injection hpi with hpi
            injection hpi with hp1 hp2
            subst hp1
            rw [mpd_cmp_le_zero] at hq3
            exact ⟨hp2.symm, price_str, rfl, hq2, not_le.mp hq3⟩
  have hmaker : (pkg.command ≠ Command.CMD_ORDER_PUT_MARKET ∧
        pkg.command ≠ Command.CMD_ORDER_PUT_FOK →
        idx2 = idx + 2 ∧ ∃ s, json_string_value (json_array_get params (idx + 1)) = some s ∧
          env.decimal (some s) market.fee_prec = some maker_fee ∧
          0 ≤ maker_fee ∧ maker_fee < 1) ∧
      (pkg.command = Command.CMD_ORDER_PUT_MARKET ∨ pkg.command = Command.CMD_ORDER_PUT_FOK →
        idx2 = idx + 1 ∧ maker_fee = 0) := by
    by_cases hm : pkg.command ≠ Command.CMD_ORDER_PUT_MARKET ∧
        pkg.command ≠ Command.CMD_ORDER_PUT_FOK
    · have hd : (decide (pkg.command ≠ Command.CMD_ORDER_PUT_MARKET) &&
          decide (pkg.command ≠ Command.CMD_ORDER_PUT_FOK)) = true := by simp [hm.1, hm.2]
      rw [hd, if_pos rfl] at hmi
      refine ⟨fun _ => ?_, fun h => h.elim (fun h => absurd h hm.1) (fun h => absurd h hm.2)⟩
      cases hq1 : json_string_value (json_array_get params (idx + 1)) with
      | none =>
        rw [hq1] at hmi
        cases hmi
      | some maker_str =>
        rw [hq1] at hmi
        dsimp only at hmi
        cases hq2 : env.decimal (some maker_str) market.fee_prec with
        | none =>
          rw [hq2] at hmi
          cases hmi
        | some p =>
          rw [hq2] at hmi
          dsimp only at hmi
          by_cases hq3 : mpd_cmp p 0 < 0 ∨ mpd_cmp p 1 ≥ 0
          · rw [if_pos hq3] at hmi
            cases hmi
          · rw [if_neg hq3] at hmi
            injection hmi with hmi
            injection hmi with hp1 hp2
            subst hp1
            rw [mpd_cmp_lt_zero, mpd_cmp_ge_zero] at hq3
            push_neg at hq3
            exact ⟨hp2.symm, maker_str, rfl, hq2, hq3.1, hq3.2⟩
    · have hd : (decide (pkg.command ≠ Command.CMD_ORDER_PUT_MARKET) &&
          decide (pkg.command ≠ Command.CMD_ORDER_PUT_FOK)) = false := by
        by_cases hx : pkg.command = Command.CMD_ORDER_PUT_MARKET
        · simp [hx]
        · have hy : pkg.command = Command.CMD_ORDER_PUT_FOK := by
            by_contra hy
            exact hm ⟨hx, hy⟩
          simp [hy]
      rw [hd, if_neg Bool.false_ne_true] at hmi
      injection hmi with hmi
      injection hmi with hp1 hp2
      exact ⟨fun h => absurd h hm, fun _ => ⟨hp2.symm, hp1.symm⟩⟩
  rw [mpd_cmp_le_zero] at h12
  rw [mpd_cmp_lt_zero, mpd_cmp_ge_zero] at h15
  push_neg at h15 h16 h18
  have hint0 : json_is_integer (json_array_get params 0) = true := by
    cases hb : json_is_integer (json_array_get params 0)
    · exact absurd hb h5
    · rfl
  have hint2 : json_is_integer (json_array_get params 2) = true := by
    cases hb : json_is_integer (json_array_get params 2)
    · exact absurd hb h8
    · rfl
  have hside : to_uint32 (json_integer_value (json_array_get params 2)) = MARKET_ORDER_SIDE_ASK ∨
      to_uint32 (json_integer_value (json_array_get params 2)) = MARKET_ORDER_SIDE_BID := by
    by_contra hc
    push_neg at hc
    exact h9 hc
  have hidx : idx = if pkg.command = Command.CMD_ORDER_PUT_MARKET then 4 else 5 := by
    by_cases hm : pkg.command = Command.CMD_ORDER_PUT_MARKET
    · rw [if_pos hm]
      exact (hprice.2 hm).1
    · rw [if_neg hm]
      exact (hprice.1 hm).1
  have hsrc : json_array_size params - 1 = idx2 := by omega
  have hsize : json_array_size params =
      if pkg.command = Command.CMD_ORDER_PUT_MARKET then 6
      else if pkg.command = Command.CMD_ORDER_PUT_FOK then 7 else 8 := by
    by_cases hm : pkg.command = Command.CMD_ORDER_PUT_MARKET
    · rw [if_pos hm, h16, (hmaker.2 (Or.inl hm)).1, (hprice.2 hm).1]
    · rw [if_neg hm]
      by_cases hf : pkg.command = Command.CMD_ORDER_PUT_FOK
      · rw [if_pos hf, h16, (hmaker.2 (Or.inr hf)).1, (hprice.1 hm).1]
      · rw [if_neg hf, h16, (hmaker.1 ⟨hm, hf⟩).1, (hprice.1 hm).1]
  refine ⟨hsize, ⟨hint0, rfl⟩, ⟨market_name, rfl, h7⟩, ⟨hint2, rfl, hside⟩,
    ⟨amount_str, rfl, h11, not_le.mp h12⟩, ⟨fun hm => (hprice.1 hm).2, fun hm => (hprice.2 hm).2⟩,
    ?_, ⟨?_, fun h => (hmaker.2 h).2⟩, ?_⟩
  · rw [← hidx]
    exact ⟨taker_str, h13, h14, h15.1, h15.2⟩
  · intro hm
    have h6' := (hmaker.1 hm).2
    rw [(hprice.1 hm.1).1] at h6'
    exact h6'
  · rw [hsrc]
    exact ⟨h17, h18⟩

/-- A failed argument validation is answered with code 1 and nothing else. -/
theorem on_cmd_order_put_of_args_none (env : Env) (st : Engine) (pkg : rpc_pkg) (params : Json)
    (hargs : order_put_args env st pkg params = none) :
    on_cmd_order_put env st pkg params = reply_error st pkg 1 "invalid argument" := by
  unfold on_cmd_order_put
  simp only [hargs]
  rfl

/-- The label code hands no fee to anything. -/
theorem order_put_finish_fees (env : Env) (st : Engine) (pkg : rpc_pkg) (params : Json)
    (ret : Int) (oper : String) (result : Json) :
    ∀ e ∈ (order_put_finish env st pkg params ret oper result).trace, e.fees = none := by
  intro e he
  unfold order_put_finish at he
  split_ifs at he <;>
    simp [reply_error_internal_error, reply_error, reply_result, reply_json, Outcome.after] at he <;>
    first
    | (subst he; rfl)
    | (rcases he with rfl | rfl <;> rfl)

/-- The fees of a placement event in the trace of the handler are the fees of
the validated arguments. -/
theorem on_cmd_order_put_fees (env : Env) (st : Engine) (pkg : rpc_pkg) (params : Json)
    (e : Event) (he : e ∈ (on_cmd_order_put env st pkg params).trace)
    (t : Dec) (mk : Option Dec) (hf : e.fees = some (t, mk)) :
    ∃ a, order_put_args env st pkg params = some a ∧ t = a.taker_fee ∧
      ∀ m, mk = some m → m = a.maker_fee := by
  unfold on_cmd_order_put at he
  cases hargs : order_put_args env st pkg params with
  | none =>
    simp [hargs, reply_error_invalid_argument, reply_error, reply_json] at he
    subst he
    simp [Event.fees] at hf
  | some a =>
    simp only [hargs] at he
    refine ⟨a, rfl, ?_⟩
    cases hchk : order_put_checks env st pkg a with
    | null_deref =>
      simp [hchk] at he
      subst he
      simp [Event.fees] at hf
    | invalid_order ret =>
      simp only [hchk] at he
      rw [order_put_finish_fees env st pkg params ret _ _ e he] at hf
      cases hf
    | pass =>
      simp only [hchk] at he
      cases hcmd : pkg.command <;> simp only [hcmd] at he <;>
        first
        | (simp [reply_error_invalid_argument, reply_error, reply_json] at he
           subst he
           simp [Event.fees] at hf)
        | (simp only [Outcome.after, List.singleton_append, List.mem_cons] at he
           rcases he with he | he
           · subst he
             simp only [Event.fees, Option.some.injEq, Prod.mk.injEq] at hf
             obtain ⟨h1, h2⟩ := hf
             refine ⟨h1.symm, ?_⟩
             intro m hm
             rw [← h2] at hm
             first
             | (injection hm with hm; exact hm.symm)
             | cases hm
           · rw [order_put_finish_fees _ _ _ _ _ _ _ e he] at hf
             cases hf)

/-- C12: the fees `on_cmd_order_put` hands to a placement routine satisfy
0 <= taker_fee < 1 and 0 <= maker_fee < 1; the validated arguments have
`maker_fee` exactly 0 for MARKET and FOK, which carry no such parameter; and a
request whose taker-fee parameter, or maker-fee parameter for a command that
carries one, is not a string, unparsable, negative or at least 1 is answered
with code 1 "invalid argument" and nothing else. -/
theorem order_put_fee_range (env : Env) (st : Engine) (pkg : rpc_pkg) (params : Json) :
    (∀ e ∈ (on_cmd_order_put env st pkg params).trace, ∀ t mk, e.fees = some (t, mk) →
      0 ≤ t ∧ t < 1 ∧ ∀ m, mk = some m → 0 ≤ m ∧ m < 1) ∧
    (∀ a, order_put_args env st pkg params = some a →
      0 ≤ a.taker_fee ∧ a.taker_fee < 1 ∧ 0 ≤ a.maker_fee ∧ a.maker_fee < 1 ∧
      (pkg.command = Command.CMD_ORDER_PUT_MARKET ∨ pkg.command = Command.CMD_ORDER_PUT_FOK →
        a.maker_fee = 0)) ∧
    (∀ name market, json_string_value (json_array_get params 1) = some name →
      env.get_market st name = some market →
      (bad_fee env market.fee_prec (json_array_get params
          (if pkg.command = Command.CMD_ORDER_PUT_MARKET then 4 else 5)) ∨
        (pkg.command ≠ Command.CMD_ORDER_PUT_MARKET ∧
          pkg.command ≠ Command.CMD_ORDER_PUT_FOK ∧
          bad_fee env market.fee_prec (json_array_get params 6))) →
      on_cmd_order_put env st pkg params = reply_error st pkg 1 "invalid argument") := by
  have hrange : ∀ a, order_put_args env st pkg params = some a →
      0 ≤ a.taker_fee ∧ a.taker_fee < 1 ∧ 0 ≤ a.maker_fee ∧ a.maker_fee < 1 ∧
      (pkg.command = Command.CMD_ORDER_PUT_MARKET ∨ pkg.command = Command.CMD_ORDER_PUT_FOK →
        a.maker_fee = 0) := by
    intro a hargs
    obtain ⟨-, -, -, -, -, -, ⟨_, -, -, ht0, ht1⟩, ⟨hmk, hmk0⟩, -⟩ :=
      order_put_args_some env st pkg params a hargs
    refine ⟨ht0, ht1, ?_, ?_, hmk0⟩
    · by_cases hc : pkg.command ≠ Command.CMD_ORDER_PUT_MARKET ∧
          pkg.command ≠ Command.CMD_ORDER_PUT_FOK
      · obtain ⟨_, -, -, h0, -⟩ := hmk hc
        exact h0
      · have : a.maker_fee = 0 := hmk0 (by
          by_contra hn
          push_neg at hn
          exact hc hn)
        rw [this]
    · by_cases hc : pkg.command ≠ Command.CMD_ORDER_PUT_MARKET ∧
          pkg.command ≠ Command.CMD_ORDER_PUT_FOK
      · obtain ⟨_, -, -, -, h1⟩ := hmk hc
        exact h1
      · have : a.maker_fee = 0 := hmk0 (by
          by_contra hn
          push_neg at hn
          exact hc hn)
        rw [this]
        exact zero_lt_one
  refine ⟨?_, hrange, ?_⟩
  · intro e he t mk hf
    obtain ⟨a, hargs, ht, hm⟩ := on_cmd_order_put_fees env st pkg params e he t mk hf
    obtain ⟨h0, h1, h2, h3, -⟩ := hrange a hargs
    refine ⟨ht ▸ h0, ht ▸ h1, ?_⟩
    intro m hmk
    rw [hm m hmk]
    exact ⟨h2, h3⟩
  · intro name market hname hmarket hbad
    cases hargs : order_put_args env st pkg params with
    | none => exact on_cmd_order_put_of_args_none env st pkg params hargs
    | some a =>
      exfalso
      obtain ⟨-, -, ⟨name', hn', hm'⟩, -, -, -, ⟨s, hs, hd, ht0, ht1⟩, ⟨hmk, -⟩, -⟩ :=
        order_put_args_some env st pkg params a hargs
      rw [hname] at hn'
      injection hn' with hn'
      subst hn'
      rw [hmarket] at hm'
      injection hm' with hm'
      subst hm'
      rcases hbad with hbad | ⟨hc1, hc2, hbad⟩
      · rcases hbad s a.taker_fee hs hd with h | h
        · exact absurd ht0 (not_le.mpr h)
        · exact absurd ht1 (not_lt.mpr h)
      · obtain ⟨s', hs', hd', h0, h1⟩ := hmk ⟨hc1, hc2⟩
        rcases hbad s' a.maker_fee hs' hd' with h | h
        · exact absurd h0 (not_le.mpr h)
        · exact absurd h1 (not_lt.mpr h)

/-- Witness of C12: a LIMIT bid with taker fee "1" is answered with code 1. -/
theorem order_put_fee_range_witness :
    on_cmd_order_put demoEnv demoEngine (demoPkg Command.CMD_ORDER_PUT_LIMIT)
        (demoFeeParams "1" "0.001") =
      reply_error demoEngine (demoPkg Command.CMD_ORDER_PUT_LIMIT) 1 "invalid argument" :=
  (order_put_fee_range demoEnv demoEngine (demoPkg Command.CMD_ORDER_PUT_LIMIT)
    (demoFeeParams "1" "0.001")).2.2 "BTCUSD" demoMarket rfl (by with_unfolding_all rfl)
    (Or.inl (by
      intro s f hs hd
      have hs1 : s = "1" := by
        have h : json_string_value (some (Json.string "1")) = some s := hs
        injection h with h
        exact h.symm
      subst hs1
      have hf : f = 1 := by
        have h : demoDecimal (some "1") 4 = some f := hd
        have h1 : demoDecimal (some "1") 4 = some 1 := by with_unfolding_all rfl
        rw [h1] at h
        injection h with h
        exact h.symm
      subst hf
      exact Or.inr le_rfl))

/-! ### Claim C17: the reply envelope -/

/-- C17, as amended: `reply_error` sends the object
{error: {code: c + 5000, message: m}, result: null, id} and `reply_result`
sends {error: null, result: v, id}, where id is the request id converted to
the signed 64-bit `json_int_t`: the request id r itself when r < 2^63, and
r - 2^64 for a 64-bit r from 2^63 on; the three standard errors are sent as
(5001, "invalid argument"), (5002, "internal error") and
(5003, "service unavailable"). -/
theorem reply_envelope (st : Engine) (pkg : rpc_pkg) (c : Int) (m : String) (v : Json) :
    reply_error st pkg c m =
      { state := st,
        trace := [Event.rpc_send (Json.object
          [("error", Json.object [("code", Json.integer (c + 5000)),
              ("message", Json.string m)]),
           ("result", Json.null), ("id", Json.integer (to_json_int pkg.req_id))])] } ∧
    reply_result st pkg v =
      { state := st,
        trace := [Event.rpc_send (Json.object
          [("error", Json.null), ("result", v),
           ("id", Json.integer (to_json_int pkg.req_id))])] } ∧
    (pkg.req_id < 9223372036854775808 → to_json_int pkg.req_id = pkg.req_id) ∧
    (9223372036854775808 ≤ pkg.req_id → pkg.req_id < 18446744073709551616 →
      to_json_int pkg.req_id = (pkg.req_id : Int) - 18446744073709551616) ∧
    reply_error_invalid_argument st pkg =
      { state := st,
        trace := [Event.rpc_send (Json.object
          [("error", Json.object [("code", Json.integer 5001),
              ("message", Json.string "invalid argument")]),
           ("result", Json.null), ("id", Json.integer (to_json_int pkg.req_id))])] } ∧
    reply_error_internal_error st pkg =
      { state := st,
        trace := [Event.rpc_send (Json.object
          [("error", Json.object [("code", Json.integer 5002),
              ("message", Json.string "internal error")]),
           ("result", Json.null), ("id", Json.integer (to_json_int pkg.req_id))])] } ∧
    reply_error_service_unavailable st pkg =
      { state := st,
        trace := [Event.rpc_send (Json.object
          [("error", Json.object [("code", Json.integer 5003),
              ("message", Json.string "service unavailable")]),
           ("result", Json.null), ("id", Json.integer (to_json_int pkg.req_id))])] } := by
  refine ⟨rfl, rfl, ?_, ?_, rfl, rfl, rfl⟩
  · intro h
    unfold to_json_int
    have h2 : pkg.req_id % 18446744073709551616 = pkg.req_id := Nat.mod_eq_of_lt (by omega)
    rw [h2, if_pos h]
  · intro h1 h2
    unfold to_json_int
    have h3 : pkg.req_id % 18446744073709551616 = pkg.req_id := Nat.mod_eq_of_lt h2
    rw [h3, if_neg (by omega)]

/-- C17 as stated fails for a request id of 2^63: the id of the error reply is
-2^63, not the request id. -/
theorem reply_envelope_id_counterexample :
    reply_error demoEngine demoPkgBigId 1 "invalid argument" =
      { state := demoEngine,
        trace := [Event.rpc_send (Json.object
          [("error", Json.object [("code", Json.integer 5001),
              ("message", Json.string "invalid argument")]),
           ("result", Json.null), ("id", Json.integer (-9223372036854775808))])] } ∧
    reply_error demoEngine demoPkgBigId 1 "invalid argument" ≠
      { state := demoEngine,
        trace := [Event.rpc_send (Json.object
          [("error", Json.object [("code", Json.integer 5001),
              ("message", Json.string "invalid argument")]),
           ("result", Json.null), ("id", Json.integer demoPkgBigId.req_id)])] } := by
  have h : reply_error demoEngine demoPkgBigId 1 "invalid argument" =
      { state := demoEngine,
        trace := [Event.rpc_send (Json.object
          [("error", Json.object [("code", Json.integer 5001),
              ("message", Json.string "invalid argument")]),
           ("result", Json.null), ("id", Json.integer (-9223372036854775808))])] } := by
    with_unfolding_all rfl
  refine ⟨h, ?_⟩
  rw [h]
  intro hc
  have ht := congrArg Outcome.trace hc
  simp [demoPkgBigId] at ht

/-- Witness of C17: the error reply to request 42 carries id 42. -/
theorem reply_envelope_witness :
    to_json_int (demoPkg Command.CMD_ASSET_LIST).req_id = 42 :=
  (reply_envelope demoEngine (demoPkg Command.CMD_ASSET_LIST) 1 "invalid argument"
    Json.null).2.2.1 (by decide)

/-! ### Claim C20: cancellation refused -/

/-- C20, as amended: for a well-formed ORDER_CANCEL request
[user_id, market, order_id], with the order looked up under order_id read as an
unsigned 64-bit value: if no such order is live the reply is code 10 "order not
found"; if the order exists and its `user_id` differs from the request's
user_id read as an unsigned 32-bit value (user_id mod 2^32, which is user_id
itself when 0 <= user_id < 2^32) the reply is code 11 "user mismatch"; in both
cases `market_cancel_order` is not called and the engine state is unchanged. -/
theorem order_cancel_refused (env : Env) (st : Engine) (pkg : rpc_pkg) (params : Json)
    (uid oid : Int) (name : String) (market : Market)
    (hsize : json_array_size params = 3)
    (huid : json_array_get params 0 = some (Json.integer uid))
    (hname : json_string_value (json_array_get params 1) = some name)
    (hmarket : env.get_market st name = some market)
    (hoid : json_array_get params 2 = some (Json.integer oid)) :
    (env.market_get_order market (to_uint64 oid) = none →
      on_cmd_order_cancel env st pkg params = reply_error st pkg 10 "order not found") ∧
    (∀ order, env.market_get_order market (to_uint64 oid) = some order →
      order.user_id ≠ to_uint32 uid →
      on_cmd_order_cancel env st pkg params = reply_error st pkg 11 "user mismatch") ∧
    ((env.market_get_order market (to_uint64 oid) = none ∨
        ∃ order, env.market_get_order market (to_uint64 oid) = some order ∧
          order.user_id ≠ to_uint32 uid) →
      (on_cmd_order_cancel env st pkg params).state = st ∧
      ∀ e ∈ (on_cmd_order_cancel env st pkg params).trace, e.is_cancel = false) ∧
    (0 ≤ uid → uid < 4294967296 → (to_uint32 uid : Int) = uid) := by
  have h10 : env.market_get_order market (to_uint64 oid) = none →
      on_cmd_order_cancel env st pkg params = reply_error st pkg 10 "order not found" := by
    intro hnone
    unfold on_cmd_order_cancel
    simp [hsize, huid, hname, hmarket, hoid, hnone, json_is_integer, json_integer_value]
  have h11 : ∀ order, env.market_get_order market (to_uint64 oid) = some order →
      order.user_id ≠ to_uint32 uid →
      on_cmd_order_cancel env st pkg params = reply_error st pkg 11 "user mismatch" := by
    intro order hsome hne
    unfold on_cmd_order_cancel
    simp [hsize, huid, hname, hmarket, hoid, hsome, hne, json_is_integer, json_integer_value]
  refine ⟨h10, h11, ?_, ?_⟩
  · intro h
    have heq : ∃ c m, on_cmd_order_cancel env st pkg params = reply_error st pkg c m := by
      rcases h with h | ⟨order, ho, hne⟩
      · exact ⟨_, _, h10 h⟩
      · exact ⟨_, _, h11 order ho hne⟩
    obtain ⟨c, m, heq⟩ := heq
    rw [heq]
    refine ⟨rfl, ?_⟩
    intro e he
    simp only [reply_error, reply_json, List.mem_singleton] at he
    subst he
    rfl
  · intro h0 h1
    unfold to_uint32
    rw [Int.emod_eq_of_lt h0 h1]
    exact Int.toNat_of_nonneg h0

/-- C20 as stated fails for user id 2^32 + 2: order 7 belongs to user 2, which
differs from the request's user id, yet the reply is not code 11: the handler
calls `market_cancel_order` and the order is cancelled. -/
theorem order_cancel_user_id_counterexample :
    demoEnv.get_market demoEngine "BTCUSD" = some demoMarket ∧
    demoEnv.market_get_order demoMarket 7 =
      some { id := 7, user_id := 2, price := 10000, left := 1 } ∧
    ((2 : Nat) : Int) ≠ 4294967298 ∧
    on_cmd_order_cancel demoEnv demoEngine (demoPkg Command.CMD_ORDER_CANCEL)
        (demoCancelBy 4294967298) ≠
      reply_error demoEngine (demoPkg Command.CMD_ORDER_CANCEL) 11 "user mismatch" ∧
    (on_cmd_order_cancel demoEnv demoEngine (demoPkg Command.CMD_ORDER_CANCEL)
        (demoCancelBy 4294967298)).trace =
      [Event.market_cancel_order demoMarket { id := 7, user_id := 2, price := 10000, left := 1 },
       Event.append_operlog "cancel_order" (demoCancelBy 4294967298),
       Event.rpc_send (Json.object [("error", Json.null), ("result", Json.object []),
         ("id", Json.integer 42)])] := by
  have htrace : (on_cmd_order_cancel demoEnv demoEngine (demoPkg Command.CMD_ORDER_CANCEL)
      (demoCancelBy 4294967298)).trace =
      [Event.market_cancel_order demoMarket { id := 7, user_id := 2, price := 10000, left := 1 },
       Event.append_operlog "cancel_order" (demoCancelBy 4294967298),
       Event.rpc_send (Json.object [("error", Json.null), ("result", Json.object []),
         ("id", Json.integer 42)])] := by
    with_unfolding_all rfl
  refine ⟨by with_unfolding_all rfl, by with_unfolding_all rfl, by decide, ?_, htrace⟩
  intro h
  have h2 := congrArg Outcome.trace h
  rw [htrace] at h2
  simp [reply_error, reply_json] at h2

/-- Witness of C20: user 1 asks to cancel order 7 of user 2 and is answered
with code 11. -/
theorem order_cancel_refused_witness :
    on_cmd_order_cancel demoEnv demoEngine (demoPkg Command.CMD_ORDER_CANCEL) (demoCancelBy 1) =
      reply_error demoEngine (demoPkg Command.CMD_ORDER_CANCEL) 11 "user mismatch" :=
  (order_cancel_refused demoEnv demoEngine (demoPkg Command.CMD_ORDER_CANCEL) (demoCancelBy 1)
    1 7 "BTCUSD" demoMarket rfl rfl rfl (by with_unfolding_all rfl) rfl).2.1
    { id := 7, user_id := 2, price := 10000, left := 1 } (by with_unfolding_all rfl)
    (by with_unfolding_all decide)

/-! ### Claim C18: balance update -/

/-- C18: for a well-formed BALANCE_UPDATE request, `on_cmd_balance_update`
calls `update_user_balance` and maps its status: -1 to code 10 "repeat update",
-2 to code 11 "balance not enough", any other negative status to code 2
"internal error", and a non-negative status to the operlog entry followed by
the result {status: "success"}. With `update_user_balance` as the spec
describes it, a request whose (business, business_id) pair is already recorded
is answered with code 10, and a successful update records its pair. -/
theorem balance_update_status_reply (env : Env) (st : Engine) (pkg : rpc_pkg) (params : Json)
    (uid bid : Int) (asset business change_str : String) (change : Dec)
    (detail : List (String × Json))
    (hsize : json_array_size params = 6)
    (huid : json_array_get params 0 = some (Json.integer uid))
    (hasset : json_array_get params 1 = some (Json.string asset))
    (hprec : 0 ≤ env.asset_prec_show st asset)
    (hbusiness : json_array_get params 2 = some (Json.string business))
    (hbid : json_array_get params 3 = some (Json.integer bid))
    (hchange : json_array_get params 4 = some (Json.string change_str))
    (hdecimal : env.decimal (some change_str) (env.asset_prec_show st asset) = some change)
    (hdetail : json_array_get params 5 = some (Json.object detail)) :
    (∀ ret st1,
      env.update_user_balance st (to_uint32 uid) asset business (to_uint64 bid) change
        (Json.object detail) = (ret, st1) →
      (ret = -1 → on_cmd_balance_update env st pkg params =
        Outcome.after [Event.update_user_balance (to_uint32 uid) asset business (to_uint64 bid)
            change (Json.object detail)]
          (reply_error st1 pkg 10 "repeat update")) ∧
      (ret = -2 → on_cmd_balance_update env st pkg params =
        Outcome.after [Event.update_user_balance (to_uint32 uid) asset business (to_uint64 bid)
            change (Json.object detail)]
          (reply_error st1 pkg 11 "balance not enough")) ∧
      (ret < 0 → ret ≠ -1 → ret ≠ -2 → on_cmd_balance_update env st pkg params =
        Outcome.after [Event.update_user_balance (to_uint32 uid) asset business (to_uint64 bid)
            change (Json.object detail)]
          (reply_error st1 pkg 2 "internal error")) ∧
      (0 ≤ ret → on_cmd_balance_update env st pkg params =
        Outcome.after [Event.update_user_balance (to_uint32 uid) asset business (to_uint64 bid)
            change (Json.object detail), Event.append_operlog "update_balance" params]
          (reply_result (env.append_operlog st1 "update_balance" params) pkg
            (Json.object [("status", Json.string "success")])))) ∧
    (env.update_user_balance = update_user_balance_model →
      (business, to_uint64 bid) ∈ st.updates →
      on_cmd_balance_update env st pkg params =
        Outcome.after [Event.update_user_balance (to_uint32 uid) asset business (to_uint64 bid)
            change (Json.object detail)]
          (reply_error st pkg 10 "repeat update")) ∧
    (∀ st0 : Engine,
      0 ≤ (update_user_balance_model st0 (to_uint32 uid) asset business (to_uint64 bid) change
        (Json.object detail)).1 →
      (business, to_uint64 bid) ∈
        (update_user_balance_model st0 (to_uint32 uid) asset business (to_uint64 bid) change
          (Json.object detail)).2.updates) := by
  have hprec' : ¬ env.asset_prec_show st asset < 0 := not_lt.mpr hprec
  have hout : on_cmd_balance_update env st pkg params =
      Outcome.after [Event.update_user_balance (to_uint32 uid) asset business (to_uint64 bid)
          change (Json.object detail)]
        (if (env.update_user_balance st (to_uint32 uid) asset business (to_uint64 bid) change
            (Json.object detail)).1 = -1 then
          reply_error (env.update_user_balance st (to_uint32 uid) asset business (to_uint64 bid)
            change (Json.object detail)).2 pkg 10 "repeat update"
         else if (env.update_user_balance st (to_uint32 uid) asset business (to_uint64 bid)
            change (Json.object detail)).1 = -2 then
          reply_error (env.update_user_balance st (to_uint32 uid) asset business (to_uint64 bid)
            change (Json.object detail)).2 pkg 11 "balance not enough"
         else if (env.update_user_balance st (to_uint32 uid) asset business (to_uint64 bid)
            change (Json.object detail)).1 < 0 then
          reply_error_internal_error (env.update_user_balance st (to_uint32 uid) asset business
            (to_uint64 bid) change (Json.object detail)).2 pkg
         else
           Outcome.after [Event.append_operlog "update_balance" params]
             (reply_success (env.append_operlog (env.update_user_balance st (to_uint32 uid) asset
               business (to_uint64 bid) change (Json.object detail)).2 "update_balance" params)
               pkg)) := by
    unfold on_cmd_balance_update
    simp only [hsize, huid, hasset, hbusiness, hbid, hchange, hdetail, hdecimal, hprec',
      json_is_integer, json_integer_value, json_string_value, ne_eq, not_true_eq_false,
      if_false, Bool.true_eq_false]
  refine ⟨?_, ?_, ?_⟩
  · intro ret st1 hr
    rw [hout, hr]
    refine ⟨?_, ?_, ?_, ?_⟩
    · intro h
      simp only [h, if_true]
    · intro h
      subst h
      simp
    · intro h0 h1 h2
      simp only [h1, h2, h0, if_false, if_true, reply_error_internal_error]
    · intro h0
      have h1 : ret ≠ -1 := by omega
      have h2 : ret ≠ -2 := by omega
      have h3 : ¬ ret < 0 := by omega
      simp only [h1, h2, h3, if_false, reply_success, Outcome.after, reply_result, reply_json,
        List.singleton_append, List.cons_append, List.nil_append]
  · intro henv hmem
    rw [hout, henv]
    simp only [update_user_balance_model, hmem, if_true]
  · intro st0 hret
    unfold update_user_balance_model at hret ⊢
    by_cases h1 : (business, to_uint64 bid) ∈ st0.updates
    · rw [if_pos h1] at hret
      have hneg : ¬ (0 : Int) ≤ -1 := by decide
      exact absurd hret hneg
    · rw [if_neg h1] at hret ⊢
      by_cases h2 : change < 0 ∧
          |change| > ledger_available st0.balances (to_uint32 uid) asset
      · rw [if_pos h2] at hret
        have hneg : ¬ (0 : Int) ≤ -2 := by decide
        exact absurd hret hneg
      · rw [if_neg h2]
        exact List.mem_cons_self _ _

/-- Witness of C18: the deposit under ("deposit", 5) succeeds on the state of
the examples and records its key; the same request on the resulting state is
answered with code 10 "repeat update". -/
theorem balance_update_status_reply_witness :
    (on_cmd_balance_update demoEnvUpdate demoEngine (demoPkg Command.CMD_BALANCE_UPDATE)
        demoUpdateParams).state.updates = [("deposit", 5)] ∧
    on_cmd_balance_update demoEnvUpdate
        (on_cmd_balance_update demoEnvUpdate demoEngine (demoPkg Command.CMD_BALANCE_UPDATE)
          demoUpdateParams).state
        (demoPkg Command.CMD_BALANCE_UPDATE) demoUpdateParams =
      Outcome.after [Event.update_user_balance 1 "USD" "deposit" 5 10 (Json.object [])]
        (reply_error
          (on_cmd_balance_update demoEnvUpdate demoEngine (demoPkg Command.CMD_BALANCE_UPDATE)
            demoUpdateParams).state
          (demoPkg Command.CMD_BALANCE_UPDATE) 10 "repeat update") :=
  have hfirst : (on_cmd_balance_update demoEnvUpdate demoEngine
      (demoPkg Command.CMD_BALANCE_UPDATE) demoUpdateParams).state.updates =
      [("deposit", 5)] := by
    with_unfolding_all rfl
  ⟨hfirst, (balance_update_status_reply demoEnvUpdate
    (on_cmd_balance_update demoEnvUpdate demoEngine (demoPkg Command.CMD_BALANCE_UPDATE)
      demoUpdateParams).state
    (demoPkg Command.CMD_BALANCE_UPDATE) demoUpdateParams 1 5 "USD" "deposit" "10" 10 []
    rfl rfl rfl (by with_unfolding_all decide) rfl rfl rfl (by with_unfolding_all rfl) rfl).2.1
    rfl (by rw [hfirst]; exact List.mem_singleton.mpr rfl)⟩

/-! ### Claim C19: the operlog follows the operation -/

/-- The order checks never read through a null pointer: the MARKET BID branch
is reached only after `check_makers_exist` found a first ask. -/
theorem order_put_checks_ne_null_deref (env : Env) (st : Engine) (pkg : rpc_pkg) (a : PutArgs) :
    order_put_checks env st pkg a ≠ PutCheck.null_deref := by
  intro h
  unfold order_put_checks at h
  simp only [] at h
  split_ifs at h with h1 h2 h3 h4 h5
  have hne : ∀ r : Int, PutCheck.invalid_order r ≠ PutCheck.null_deref := fun r hr => by
    cases hr
  unfold order_put_balance_check at h
  simp only [] at h
  by_cases h6 : a.side = MARKET_ORDER_SIDE_ASK
  · rw [if_pos h6] at h
    cases hb : env.balance_get st a.user_id BALANCE_TYPE_AVAILABLE a.market.stock with
    | none =>
      rw [hb] at h
      exact hne _ h
    | some b =>
      rw [hb] at h
      dsimp only at h
      split_ifs at h
  rw [if_neg h6] at h
  by_cases h7 : decide (pkg.command ≠ Command.CMD_ORDER_PUT_MARKET) = true
  · rw [if_pos h7] at h
    cases hb : env.balance_get st a.user_id BALANCE_TYPE_AVAILABLE a.market.money with
    | none =>
      rw [hb] at h
      exact hne _ h
    | some b =>
      rw [hb] at h
      dsimp only at h
      split_ifs at h
  rw [if_neg h7] at h
  have hm : pkg.command = Command.CMD_ORDER_PUT_MARKET := by
    by_contra hne'
    exact h7 (by simp [hne'])
  have hk : check_makers_exist a.side a.market = true := by
    by_contra hk
    exact h5 ⟨by simp [hm], by simpa using hk⟩
  unfold check_makers_exist at hk
  simp only [h6, if_false] at hk
  cases hasks : a.market.asks with
  | nil => simp [hasks] at hk
  | cons order rest =>
    rw [hasks] at h
    dsimp only at h
    split_ifs at h

/-- A negative status at the label ends in an error reply. -/
theorem order_put_finish_neg (env : Env) (st : Engine) (pkg : rpc_pkg) (params : Json)
    (ret : Int) (oper : String) (result : Json) (h : ret < 0) :
    ∃ c m, order_put_finish env st pkg params ret oper result = reply_error st pkg c m := by
  unfold order_put_finish
  split_ifs
  all_goals exact ⟨_, _, rfl⟩

/-- A non-negative status at the label appends the operlog entry and replies
the result. -/
theorem order_put_finish_nonneg (env : Env) (st : Engine) (pkg : rpc_pkg) (params : Json)
    (ret : Int) (oper : String) (result : Json) (h : 0 ≤ ret) :
    order_put_finish env st pkg params ret oper result =
      Outcome.after [Event.append_operlog oper params]
        (reply_result (env.append_operlog st oper params) pkg result) := by
  unfold order_put_finish
  split_ifs
  all_goals first
    | rfl
    | omega

/-- The operlog discipline of `on_cmd_balance_update`. -/
theorem balance_update_operlog (env : Env) (st : Engine) (pkg : rpc_pkg) (params : Json) :
    ∃ call, operlog_after_success env st pkg params (on_cmd_balance_update env st pkg params)
        call ∧
      ∀ op status st1 oper, call = some (op, status, st1, oper) →
        oper = "update_balance" ∧
        ∃ uid asset business bid change detail,
          op = Event.update_user_balance uid asset business bid change detail ∧
          env.update_user_balance st uid asset business bid change detail = (status, st1) := by
  have hnone : ∀ out : Outcome, (∃ c m, out = reply_error st pkg c m) →
      ∃ call, operlog_after_success env st pkg params out call ∧
      ∀ op status st1 oper, call = some (op, status, st1, oper) →
        oper = "update_balance" ∧
        ∃ uid asset business bid change detail,
          op = Event.update_user_balance uid asset business bid change detail ∧
          env.update_user_balance st uid asset business bid change detail = (status, st1) := by
    intro out h
    exact ⟨none, h, fun _ _ _ _ hc => by cases hc⟩
  have hsome : ∀ (uid : Nat) (asset business : String) (bid : Nat) (change : Dec)
      (detail : Json) (out : Outcome),
      (((env.update_user_balance st uid asset business bid change detail).1 < 0 ∧
        ∃ c m, out = Outcome.after [Event.update_user_balance uid asset business bid change
            detail]
          (reply_error (env.update_user_balance st uid asset business bid change detail).2 pkg
            c m)) ∨
       (0 ≤ (env.update_user_balance st uid asset business bid change detail).1 ∧
        ∃ result, out = Outcome.after [Event.update_user_balance uid asset business bid change
            detail, Event.append_operlog "update_balance" params]
          (reply_result (env.append_operlog
            (env.update_user_balance st uid asset business bid change detail).2
            "update_balance" params) pkg result))) →
      ∃ call, operlog_after_success env st pkg params out call ∧
      ∀ op status st1 oper, call = some (op, status, st1, oper) →
        oper = "update_balance" ∧
        ∃ uid asset business bid change detail,
          op = Event.update_user_balance uid asset business bid change detail ∧
          env.update_user_balance st uid asset business bid change detail = (status, st1) := by
    intro uid asset business bid change detail out h
    refine ⟨some (Event.update_user_balance uid asset business bid change detail,
      (env.update_user_balance st uid asset business bid change detail).1,
      (env.update_user_balance st uid asset business bid change detail).2,
      "update_balance"), h, ?_⟩
    intro op status st1 oper hc
    injection hc with hc
    injection hc with h1 hc
    injection hc with h2 hc
    injection hc with h3 h4
    subst h1 h2 h3 h4
    exact ⟨rfl, uid, asset, business, bid, change, detail, rfl, rfl⟩
  unfold on_cmd_balance_update
  dsimp only
  repeat' split
  all_goals first
    | exact hnone _ ⟨_, _, rfl⟩
    | (apply hsome
       first
       | (left
          refine ⟨?_, _, _, rfl⟩
          omega)
       | (right
          refine ⟨?_, _, rfl⟩
          omega))

/-- The operlog discipline of `on_cmd_order_cancel`. -/
theorem order_cancel_operlog (env : Env) (st : Engine) (pkg : rpc_pkg) (params : Json) :
    ∃ call, operlog_after_success env st pkg params (on_cmd_order_cancel env st pkg params)
        call ∧
      ∀ op status st1 oper, call = some (op, status, st1, oper) →
        oper = "cancel_order" ∧
        ∃ market order,
          op = Event.market_cancel_order market order ∧
          (env.market_cancel_order st market order).ret = status ∧
          (env.market_cancel_order st market order).state = st1 := by
  have hnone : ∀ out : Outcome, (∃ c m, out = reply_error st pkg c m) →
      ∃ call, operlog_after_success env st pkg params out call ∧
      ∀ op status st1 oper, call = some (op, status, st1, oper) →
        oper = "cancel_order" ∧
        ∃ market order,
          op = Event.market_cancel_order market order ∧
          (env.market_cancel_order st market order).ret = status ∧
          (env.market_cancel_order st market order).state = st1 := by
    intro out h
    exact ⟨none, h, fun _ _ _ _ hc => by cases hc⟩
  have hsome : ∀ (market : Market) (order : Order) (out : Outcome),
      (((env.market_cancel_order st market order).ret < 0 ∧
        ∃ c m, out = Outcome.after [Event.market_cancel_order market order]
          (reply_error (env.market_cancel_order st market order).state pkg c m)) ∨
       (0 ≤ (env.market_cancel_order st market order).ret ∧
        ∃ result, out = Outcome.after [Event.market_cancel_order market order,
            Event.append_operlog "cancel_order" params]
          (reply_result (env.append_operlog (env.market_cancel_order st market order).state
            "cancel_order" params) pkg result))) →
      ∃ call, operlog_after_success env st pkg params out call ∧
      ∀ op status st1 oper, call = some (op, status, st1, oper) →
        oper = "cancel_order" ∧
        ∃ market order,
          op = Event.market_cancel_order market order ∧
          (env.market_cancel_order st market order).ret = status ∧
          (env.market_cancel_order st market order).state = st1 := by
    intro market order out h
    refine ⟨some (Event.market_cancel_order market order,
      (env.market_cancel_order st market order).ret,
      (env.market_cancel_order st market order).state, "cancel_order"), h, ?_⟩
    intro op status st1 oper hc
    injection hc with hc
    injection hc with h1 hc
    injection hc with h2 hc
    injection hc with h3 h4
    subst h1 h2 h3 h4
    exact ⟨rfl, market, order, rfl, rfl, rfl⟩
  unfold on_cmd_order_cancel
  dsimp only
  repeat' split
  all_goals first
    | exact hnone _ ⟨_, _, rfl⟩
    | (apply hsome
       first
       | (left
          refine ⟨?_, _, _, rfl⟩
          omega)
       | (right
          refine ⟨?_, _, rfl⟩
          omega))

/-- With valid arguments and every order check passed, the handler calls the
placement routine of the command and runs the label code on what it returns. -/
theorem on_cmd_order_put_of_pass (env : Env) (st : Engine) (pkg : rpc_pkg) (params : Json)
    (a : PutArgs) (hargs : order_put_args env st pkg params = some a)
    (hchk : order_put_checks env st pkg a = PutCheck.pass) :
    (pkg.command = Command.CMD_ORDER_PUT_LIMIT →
      on_cmd_order_put env st pkg params =
        Outcome.after [Event.market_put_limit_order a.market a.user_id a.side a.amount
            a.price a.taker_fee a.maker_fee a.source]
          (order_put_finish env
            (env.market_put_limit_order st a.market a.user_id a.side a.amount a.price
              a.taker_fee a.maker_fee a.source).state pkg params
            (env.market_put_limit_order st a.market a.user_id a.side a.amount a.price
              a.taker_fee a.maker_fee a.source).ret "limit_order"
            (env.market_put_limit_order st a.market a.user_id a.side a.amount a.price
              a.taker_fee a.maker_fee a.source).result)) ∧
    (pkg.command = Command.CMD_ORDER_PUT_AON →
      on_cmd_order_put env st pkg params =
        Outcome.after [Event.market_put_aon_order a.market a.user_id a.side a.amount
            a.price a.taker_fee a.maker_fee a.source]
          (order_put_finish env
            (env.market_put_aon_order st a.market a.user_id a.side a.amount a.price
              a.taker_fee a.maker_fee a.source).state pkg params
            (env.market_put_aon_order st a.market a.user_id a.side a.amount a.price
              a.taker_fee a.maker_fee a.source).ret "aon_order"
            (env.market_put_aon_order st a.market a.user_id a.side a.amount a.price
              a.taker_fee a.maker_fee a.source).result)) ∧
    (pkg.command = Command.CMD_ORDER_PUT_MARKET →
      on_cmd_order_put env st pkg params =
        Outcome.after [Event.market_put_market_order a.market a.user_id a.side a.amount
            a.taker_fee a.source]
          (order_put_finish env
            (env.market_put_market_order st a.market a.user_id a.side a.amount
              a.taker_fee a.source).state pkg params
            (env.market_put_market_order st a.market a.user_id a.side a.amount
              a.taker_fee a.source).ret "market_order"
            (env.market_put_market_order st a.market a.user_id a.side a.amount
              a.taker_fee a.source).result)) ∧
    (pkg.command = Command.CMD_ORDER_PUT_FOK →
      on_cmd_order_put env st pkg params =
        Outcome.after [Event.market_put_fok_order a.market a.user_id a.side a.amount
            a.price a.taker_fee a.source]
          (order_put_finish env
            (env.market_put_fok_order st a.market a.user_id a.side a.amount a.price
              a.taker_fee a.source).state pkg params
            (env.market_put_fok_order st a.market a.user_id a.side a.amount a.price
              a.taker_fee a.source).ret "fok_order"
            (env.market_put_fok_order st a.market a.user_id a.side a.amount a.price
              a.taker_fee a.source).result)) := by
  refine ⟨?_, ?_, ?_, ?_⟩ <;> intro hcmd <;> unfold on_cmd_order_put <;>
    simp only [hargs, hchk, hcmd]

/-- The operlog discipline of `on_cmd_order_put`. -/
theorem order_put_operlog (env : Env) (st : Engine) (pkg : rpc_pkg) (params : Json) :
    ∃ call, operlog_after_success env st pkg params (on_cmd_order_put env st pkg params)
        call ∧
      ∀ op status st1 oper, call = some (op, status, st1, oper) →
        ∃ a r, order_put_args env st pkg params = some a ∧
          order_put_checks env st pkg a = PutCheck.pass ∧
          order_put_call env st pkg a = some (op, r, oper) ∧ r.ret = status ∧ r.state = st1 := by
  have hnone : ∀ out : Outcome, (∃ c m, out = reply_error st pkg c m) →
      ∃ call, operlog_after_success env st pkg params out call ∧
      ∀ op status st1 oper, call = some (op, status, st1, oper) →
        ∃ a r, order_put_args env st pkg params = some a ∧
          order_put_checks env st pkg a = PutCheck.pass ∧
          order_put_call env st pkg a = some (op, r, oper) ∧ r.ret = status ∧ r.state = st1 := by
    intro out h
    exact ⟨none, h, fun _ _ _ _ hc => by cases hc⟩
  rcases Option.eq_none_or_eq_some (order_put_args env st pkg params) with hargs | ⟨a, hargs⟩
  · exact hnone _ ⟨_, _, on_cmd_order_put_of_args_none env st pkg params hargs⟩
  · cases hchk : order_put_checks env st pkg a with
    | null_deref => exact absurd hchk (order_put_checks_ne_null_deref env st pkg a)
    | invalid_order ret =>
      rw [on_cmd_order_put_of_invalid_order env st pkg params a ret hargs hchk]
      apply hnone
      apply order_put_finish_neg
      rcases order_put_checks_status env st pkg a ret hchk with h | h | h | h | h | h <;> omega
    | pass =>
      have hsome : ∀ (op : Event) (r : PutResult) (oper : String),
          order_put_call env st pkg a = some (op, r, oper) →
          on_cmd_order_put env st pkg params =
            Outcome.after [op] (order_put_finish env r.state pkg params r.ret oper r.result) →
          ∃ call, operlog_after_success env st pkg params (on_cmd_order_put env st pkg params)
              call ∧
            ∀ op status st1 oper, call = some (op, status, st1, oper) →
              ∃ a r, order_put_args env st pkg params = some a ∧
                order_put_checks env st pkg a = PutCheck.pass ∧
                order_put_call env st pkg a = some (op, r, oper) ∧ r.ret = status ∧
                r.state = st1 := by
        intro op r oper hcall hout
        refine ⟨some (op, r.ret, r.state, oper), ?_, ?_⟩
        · rw [hout]
          unfold operlog_after_success
          dsimp only
          by_cases hneg : r.ret < 0
          · left
            obtain ⟨c, m, hfin⟩ :=
              order_put_finish_neg env r.state pkg params r.ret oper r.result hneg
            exact ⟨hneg, c, m, by rw [hfin]⟩
          · right
            refine ⟨not_lt.mp hneg, r.result, ?_⟩
            rw [order_put_finish_nonneg env r.state pkg params r.ret oper r.result
              (not_lt.mp hneg)]
            rfl
        · intro op' status st1 oper' hc
          injection hc with hc
          injection hc with h1 hc
          injection hc with h2 hc
          injection hc with h3 h4
          subst h1 h2 h3 h4
          exact ⟨a, r, hargs, hchk, hcall, rfl, rfl⟩
      have hstat := (on_cmd_order_put_of_pass env st pkg params a hargs hchk)
      cases hcmd : pkg.command
      case CMD_ORDER_PUT_LIMIT =>
        exact hsome _ _ _ (by unfold order_put_call; rw [hcmd]) (hstat.1 hcmd)
      case CMD_ORDER_PUT_AON =>
        exact hsome _ _ _ (by unfold order_put_call; rw [hcmd]) (hstat.2.1 hcmd)
      case CMD_ORDER_PUT_MARKET =>
        exact hsome _ _ _ (by unfold order_put_call; rw [hcmd]) (hstat.2.2.1 hcmd)
      case CMD_ORDER_PUT_FOK =>
        exact hsome _ _ _ (by unfold order_put_call; rw [hcmd]) (hstat.2.2.2 hcmd)
      all_goals
        apply hnone
        refine ⟨1, "invalid argument", ?_⟩
        unfold on_cmd_order_put
        simp only [hargs, hchk, hcmd]
        rfl

/-- C19: in `on_cmd_balance_update`, `on_cmd_order_put` and
`on_cmd_order_cancel` the trace of the handler has one of three shapes: a bare
error reply (the operation was not called); the operation (`update_user_balance`,
the placement routine of the command, `market_cancel_order`) with a negative
status, followed by an error reply and no operlog entry; or the operation with
a non-negative status, followed by exactly one `append_operlog` with the
request's params, followed by the result reply. The operlog name is
update_balance, cancel_order, or limit_order / aon_order / market_order /
fok_order according to the command. -/
theorem operlog_only_after_success (env : Env) (st : Engine) (pkg : rpc_pkg) (params : Json) :
    (∃ call, operlog_after_success env st pkg params (on_cmd_balance_update env st pkg params)
        call ∧
      ∀ op status st1 oper, call = some (op, status, st1, oper) →
        oper = "update_balance" ∧
        ∃ uid asset business bid change detail,
          op = Event.update_user_balance uid asset business bid change detail ∧
          env.update_user_balance st uid asset business bid change detail = (status, st1)) ∧
    (∃ call, operlog_after_success env st pkg params (on_cmd_order_put env st pkg params)
        call ∧
      ∀ op status st1 oper, call = some (op, status, st1, oper) →
        ∃ a r, order_put_args env st pkg params = some a ∧
          order_put_checks env st pkg a = PutCheck.pass ∧
          order_put_call env st pkg a = some (op, r, oper) ∧ r.ret = status ∧ r.state = st1) ∧
    (∀ a op r oper, order_put_call env st pkg a = some (op, r, oper) →
      (pkg.command = Command.CMD_ORDER_PUT_LIMIT ∧ oper = "limit_order" ∧
        op = Event.market_put_limit_order a.market a.user_id a.side a.amount a.price
          a.taker_fee a.maker_fee a.source ∧
        r = env.market_put_limit_order st a.market a.user_id a.side a.amount a.price
          a.taker_fee a.maker_fee a.source) ∨
      (pkg.command = Command.CMD_ORDER_PUT_AON ∧ oper = "aon_order" ∧
        op = Event.market_put_aon_order a.market a.user_id a.side a.amount a.price
          a.taker_fee a.maker_fee a.source ∧
        r = env.market_put_aon_order st a.market a.user_id a.side a.amount a.price
          a.taker_fee a.maker_fee a.source) ∨
      (pkg.command = Command.CMD_ORDER_PUT_MARKET ∧ oper = "market_order" ∧
        op = Event.market_put_market_order a.market a.user_id a.side a.amount a.taker_fee
          a.source ∧
        r = env.market_put_market_order st a.market a.user_id a.side a.amount a.taker_fee
          a.source) ∨
      (pkg.command = Command.CMD_ORDER_PUT_FOK ∧ oper = "fok_order" ∧
        op = Event.market_put_fok_order a.market a.user_id a.side a.amount a.price
          a.taker_fee a.source ∧
        r = env.market_put_fok_order st a.market a.user_id a.side a.amount a.price
          a.taker_fee a.source)) ∧
    (∃ call, operlog_after_success env st pkg params (on_cmd_order_cancel env st pkg params)
        call ∧
      ∀ op status st1 oper, call = some (op, status, st1, oper) →
        oper = "cancel_order" ∧
        ∃ market order,
          op = Event.market_cancel_order market order ∧
          (env.market_cancel_order st market order).ret = status ∧
          (env.market_cancel_order st market order).state = st1) := by
  refine ⟨balance_update_operlog env st pkg params, order_put_operlog env st pkg params, ?_,
    order_cancel_operlog env st pkg params⟩
  intro a op r oper hcall
  unfold order_put_call at hcall
  cases hcmd : pkg.command <;> simp only [hcmd] at hcall <;> cases hcall
  · exact Or.inl ⟨rfl, rfl, rfl, rfl⟩
  · exact Or.inr (Or.inr (Or.inl ⟨rfl, rfl, rfl, rfl⟩))
  · exact Or.inr (Or.inl ⟨rfl, rfl, rfl, rfl⟩)
  · exact Or.inr (Or.inr (Or.inr ⟨rfl, rfl, rfl, rfl⟩))

/-- C19 on the concrete engine: the accepted LIMIT bid of 1 BTC at 10000 USD
calls `market_put_limit_order`, then appends the operlog entry limit_order with
the request's params, then replies; the rejected bid of 0.0001 BTC appends
nothing. -/
theorem operlog_only_after_success_example :
    (on_cmd_order_put demoEnv demoEngine (demoPkg Command.CMD_ORDER_PUT_LIMIT)
        (demoLimitParams 2 "1" "10000")).trace =
      [Event.market_put_limit_order demoMarket 1 2 1 10000 (1 / 1000) (1 / 1000) "web",
       Event.append_operlog "limit_order" (demoLimitParams 2 "1" "10000"),
       Event.rpc_send (Json.object [("error", Json.null), ("result", Json.object []),
         ("id", Json.integer 42)])] ∧
    (on_cmd_order_put demoEnv demoEngine (demoPkg Command.CMD_ORDER_PUT_LIMIT)
        (demoLimitParams 2 "0.0001" "10000")).trace =
      [Event.rpc_send (Json.object
        [("error", Json.object [("code", Json.integer 5011),
            ("message", Json.string "invalid amount")]),
         ("result", Json.null), ("id", Json.integer 42)])] := by
  constructor <;> with_unfolding_all rfl

/-! ### Claims C15 and C16: the depth cache -/

theorem dict_find_replace (d : List (String × cache_val)) (key : String) (val : cache_val) :
    dict_find (dict_replace d key val) key = some val := by
  induction d with
  | nil => simp [dict_replace, dict_find]
  | cons kv rest ih =>
    obtain ⟨k, v⟩ := kv
    unfold dict_replace
    by_cases h : k = key
    · simp [h, dict_find]
    · simp only [h, if_false]
      unfold dict_find
      simp only [h, if_false]
      exact ih

theorem dict_find_delete (d : List (String × cache_val)) (key : String) :
    dict_find (dict_delete d key) key = none := by
  induction d with
  | nil => simp [dict_delete, dict_find]
  | cons kv rest ih =>
    obtain ⟨k, v⟩ := kv
    unfold dict_delete at ih ⊢
    by_cases h : k = key
    · simp only [List.filter_cons, h, ne_eq, not_true_eq_false, decide_False, Bool.false_eq_true,
        if_false]
      exact ih
    · simp only [List.filter_cons, h, ne_eq, not_false_eq_true, decide_True, if_true]
      unfold dict_find
      simp only [h, if_false]
      exact ih

/-- A well-formed ORDER_BOOK_DEPTH request passes validation: the handler
replies the cached result on a hit and otherwise computes, stores and replies
the depth. -/
theorem on_cmd_order_book_depth_valid (env : Env) (st : Engine) (pkg : rpc_pkg) (params : Json)
    (market : Market) (limit : Nat) (interval : Dec)
    (hreq : depth_request env st params market limit interval) :
    on_cmd_order_book_depth env st pkg params =
      if (process_cache env st pkg).1 = true then (process_cache env st pkg).2
      else
        Outcome.after (process_cache env st pkg).2.trace
          (reply_result (add_cache (process_cache env st pkg).2.state (cache_key env pkg)
            (depth_result env market limit interval)) pkg
            (depth_result env market limit interval)) := by
  obtain ⟨hsize, ⟨name, hname, hmarket⟩, ⟨n, hn, hlim, hmax⟩, ⟨s, hs, hdec⟩, hnn⟩ := hreq
  have hnn' : ¬ interval < 0 := not_lt.mpr hnn
  unfold on_cmd_order_book_depth depth_result
  have hmax2 : ¬ limit > env.ORDER_BOOK_MAX_LEN := not_lt.mpr hmax
  simp only [hsize, hname, hmarket, hn, hs, hdec, hmax2, hnn', hlim, json_is_integer,
    json_integer_value, ne_eq, not_true_eq_false, if_false, Bool.true_eq_false,
    mpd_cmp_lt_zero]

/-- What `process_cache` does in each of its three cases. -/
theorem process_cache_cases (env : Env) (st : Engine) (pkg : rpc_pkg) :
    (dict_find st.dict_cache (cache_key env pkg) = none →
      process_cache env st pkg = (false, { state := st, trace := [] })) ∧
    (∀ entry, dict_find st.dict_cache (cache_key env pkg) = some entry →
      st.now - entry.time ≤ st.settings.cache_timeout →
      process_cache env st pkg = (true, reply_result st pkg entry.result)) ∧
    (∀ entry, dict_find st.dict_cache (cache_key env pkg) = some entry →
      ¬ st.now - entry.time ≤ st.settings.cache_timeout →
      process_cache env st pkg =
        (false, { state := { st with dict_cache := dict_delete st.dict_cache (cache_key env pkg) },
                  trace := [] })) := by
  refine ⟨?_, ?_, ?_⟩
  · intro h
    unfold process_cache
    simp only [h]
  · intro entry h hle
    unfold process_cache
    simp only [h, gt_iff_lt, not_lt.mpr hle, if_false]
  · intro entry h hnle
    unfold process_cache
    simp only [h, gt_iff_lt, not_le.mp hnle, if_true]

/-- A miss of `process_cache` sends nothing and leaves the clock alone. -/
theorem process_cache_miss (env : Env) (st : Engine) (pkg : rpc_pkg)
    (h : (process_cache env st pkg).1 = false) :
    (process_cache env st pkg).2.trace = [] ∧ (process_cache env st pkg).2.state.now = st.now := by
  obtain ⟨h1, h2, h3⟩ := process_cache_cases env st pkg
  cases hf : dict_find st.dict_cache (cache_key env pkg) with
  | none =>
    rw [h1 hf]
    exact ⟨rfl, rfl⟩
  | some entry =>
    by_cases hle : st.now - entry.time ≤ st.settings.cache_timeout
    · rw [h2 entry hf hle] at h
      cases h
    · rw [h3 entry hf hle]
      exact ⟨rfl, rfl⟩

/-- C15: `process_cache` keys the cache by the decimal rendering of the
command code followed by the body; it reports a hit, replying the stored JSON,
if and only if the key has an entry with now - entry.time <= cache_timeout; an
older entry is deleted and a miss is reported; and on a miss
`on_cmd_order_book_depth` computes the depth of a well-formed request, stores
it under that key with the current time, and replies it. -/
theorem process_cache_policy (env : Env) (st : Engine) (pkg : rpc_pkg) :
    cache_key env pkg = toString (env.command_code pkg.command) ++ pkg.body ∧
    ((process_cache env st pkg).1 = true ↔
      ∃ entry, dict_find st.dict_cache (cache_key env pkg) = some entry ∧
        st.now - entry.time ≤ st.settings.cache_timeout) ∧
    (∀ entry, dict_find st.dict_cache (cache_key env pkg) = some entry →
      st.now - entry.time ≤ st.settings.cache_timeout →
      process_cache env st pkg = (true, reply_result st pkg entry.result)) ∧
    (∀ entry, dict_find st.dict_cache (cache_key env pkg) = some entry →
      ¬ st.now - entry.time ≤ st.settings.cache_timeout →
      (process_cache env st pkg).1 = false ∧
      (process_cache env st pkg).2.trace = [] ∧
      (process_cache env st pkg).2.state.dict_cache =
        dict_delete st.dict_cache (cache_key env pkg) ∧
      dict_find (process_cache env st pkg).2.state.dict_cache (cache_key env pkg) = none) ∧
    (∀ params market limit interval, depth_request env st params market limit interval →
      (process_cache env st pkg).1 = false →
      (on_cmd_order_book_depth env st pkg params).trace =
        (reply_result st pkg (depth_result env market limit interval)).trace ∧
      dict_find (on_cmd_order_book_depth env st pkg params).state.dict_cache
          (cache_key env pkg) =
        some { time := st.now, result := depth_result env market limit interval }) := by
  obtain ⟨h1, h2, h3⟩ := process_cache_cases env st pkg
  refine ⟨rfl, ?_, h2, ?_, ?_⟩
  · constructor
    · intro hhit
      cases hf : dict_find st.dict_cache (cache_key env pkg) with
      | none =>
        rw [h1 hf] at hhit
        cases hhit
      | some entry =>
        by_cases hle : st.now - entry.time ≤ st.settings.cache_timeout
        · exact ⟨entry, rfl, hle⟩
        · rw [h3 entry hf hle] at hhit
          cases hhit
    · rintro ⟨entry, hf, hle⟩
      rw [h2 entry hf hle]
  · intro entry hf hnle
    rw [h3 entry hf hnle]
    exact ⟨rfl, rfl, rfl, dict_find_delete _ _⟩
  · intro params market limit interval hreq hmiss
    rw [on_cmd_order_book_depth_valid env st pkg params market limit interval hreq]
    have hne : ¬ (process_cache env st pkg).1 = true := by
      rw [hmiss]
      decide
    rw [if_neg hne]
    obtain ⟨htrace, hnow⟩ := process_cache_miss env st pkg hmiss
    constructor
    · rw [htrace]
      rfl
    · show dict_find (add_cache (process_cache env st pkg).2.state (cache_key env pkg)
        (depth_result env market limit interval)).dict_cache (cache_key env pkg) = _
      unfold add_cache
      rw [hnow]
      exact dict_find_replace _ _ _

/-- C16: take two well-formed ORDER_BOOK_DEPTH requests with the same command
and the same body bytes. The first misses the cache in state `st1` and is
computed. The second is processed in any state `st2` (the order books may have
changed in any way) in which the cache entry of the key is still the one the
first request stored, at a time at most `cache_timeout` after the first. Then
the second reply carries the very result of the first reply. -/
theorem depth_cached_reply (env : Env) (st1 st2 : Engine) (pkg1 pkg2 : rpc_pkg) (params : Json)
    (market1 market2 : Market) (limit1 limit2 : Nat) (interval1 interval2 : Dec)
    (hreq1 : depth_request env st1 params market1 limit1 interval1)
    (hreq2 : depth_request env st2 params market2 limit2 interval2)
    (hcmd : pkg2.command = pkg1.command) (hbody : pkg2.body = pkg1.body)
    (hmiss : (process_cache env st1 pkg1).1 = false)
    (hkept : dict_find st2.dict_cache (cache_key env pkg1) =
      dict_find (on_cmd_order_book_depth env st1 pkg1 params).state.dict_cache
        (cache_key env pkg1))
    (htime : st2.now - st1.now ≤ st2.settings.cache_timeout) :
    (on_cmd_order_book_depth env st1 pkg1 params).trace =
      (reply_result st1 pkg1 (depth_result env market1 limit1 interval1)).trace ∧
    on_cmd_order_book_depth env st2 pkg2 params =
      reply_result st2 pkg2 (depth_result env market1 limit1 interval1) := by
  have hfirst : (on_cmd_order_book_depth env st1 pkg1 params).trace =
        (reply_result st1 pkg1 (depth_result env market1 limit1 interval1)).trace ∧
      dict_find (on_cmd_order_book_depth env st1 pkg1 params).state.dict_cache
          (cache_key env pkg1) =
        some { time := st1.now, result := depth_result env market1 limit1 interval1 } := by
    rw [on_cmd_order_book_depth_valid env st1 pkg1 params market1 limit1 interval1 hreq1]
    have hne : ¬ (process_cache env st1 pkg1).1 = true := by
      rw [hmiss]
      decide
    rw [if_neg hne]
    obtain ⟨htrace, hnow⟩ := process_cache_miss env st1 pkg1 hmiss
    constructor
    · rw [htrace]
      rfl
    · show dict_find (add_cache (process_cache env st1 pkg1).2.state (cache_key env pkg1)
        (depth_result env market1 limit1 interval1)).dict_cache (cache_key env pkg1) = _
      unfold add_cache
      rw [hnow]
      exact dict_find_replace _ _ _
  refine ⟨hfirst.1, ?_⟩
  have hkey : cache_key env pkg2 = cache_key env pkg1 := by
    unfold cache_key
    rw [hcmd, hbody]
  rw [hfirst.2] at hkept
  rw [← hkey] at hkept
  rw [on_cmd_order_book_depth_valid env st2 pkg2 params market2 limit2 interval2 hreq2]
  have hhit := (process_cache_cases env st2 pkg2).2.1 _ hkept htime
  rw [hhit]
  simp

/-- The request of the examples is well-formed in the state of the examples. -/
theorem demo_depth_request :
    depth_request demoEnvDepth demoEngine demoDepthParams demoMarket 5 0 :=
  ⟨rfl, ⟨"BTCUSD", rfl, by with_unfolding_all rfl⟩, ⟨5, rfl, by with_unfolding_all rfl, by decide⟩,
    ⟨"0", rfl, by with_unfolding_all rfl⟩, le_refl 0⟩

/-- The request of the examples is well-formed in the later state as well. -/
theorem demo_depth_request_later :
    depth_request demoEnvDepth demoEngineLater demoDepthParams { demoMarket with asks := [] } 5 0 :=
  ⟨rfl, ⟨"BTCUSD", rfl, by with_unfolding_all rfl⟩, ⟨5, rfl, by with_unfolding_all rfl, by decide⟩,
    ⟨"0", rfl, by with_unfolding_all rfl⟩, le_refl 0⟩

/-- Witness of C15: in the state of the examples the cache is empty, so the
request misses, and the depth [[10000, 1]] of the asks is stored under the key
"206" followed by the body, with the time of the request. -/
theorem process_cache_policy_witness :
    cache_key demoEnvDepth demoDepthPkg = "206[\"BTCUSD\", 5, \"0\"]" ∧
    depth_result demoEnvDepth demoMarket 5 0 =
      Json.object [("asks", Json.array [Json.array [Json.string "10000", Json.string "1"]]),
        ("bids", Json.array [])] ∧
    dict_find (on_cmd_order_book_depth demoEnvDepth demoEngine demoDepthPkg
        demoDepthParams).state.dict_cache (cache_key demoEnvDepth demoDepthPkg) =
      some { time := demoEngine.now, result := depth_result demoEnvDepth demoMarket 5 0 } :=
  ⟨by with_unfolding_all rfl, by with_unfolding_all rfl,
    ((process_cache_policy demoEnvDepth demoEngine demoDepthPkg).2.2.2.2 demoDepthParams
      demoMarket 5 0 demo_depth_request (by with_unfolding_all rfl)).2⟩

/-- Witness of C16: the request repeated a quarter of a second later, after
the only ask has left the book, is answered with the depth computed for the
first request, which still shows that ask. -/
theorem depth_cached_reply_witness :
    on_cmd_order_book_depth demoEnvDepth demoEngineLater demoDepthPkgAgain demoDepthParams =
      reply_result demoEngineLater demoDepthPkgAgain
        (Json.object [("asks", Json.array [Json.array [Json.string "10000", Json.string "1"]]),
          ("bids", Json.array [])]) :=
  have hres : depth_result demoEnvDepth demoMarket 5 0 =
      Json.object [("asks", Json.array [Json.array [Json.string "10000", Json.string "1"]]),
        ("bids", Json.array [])] := by with_unfolding_all rfl
  hres ▸ (depth_cached_reply demoEnvDepth demoEngine demoEngineLater demoDepthPkg
    demoDepthPkgAgain demoDepthParams demoMarket { demoMarket with asks := [] } 5 5 0 0
    demo_depth_request demo_depth_request_later rfl rfl (by with_unfolding_all rfl) rfl
    (by with_unfolding_all decide)).2


/-! ### Depth: the levels of a book -/

theorem splitBy_loop_append {α : Type} (R : α → α → Bool) (l : List α) (a : α) (g : List α)
    (gs : List (List α)) :
    List.splitBy.loop R l a g gs = gs.reverse ++ List.splitBy.loop R l a g [] := by
  induction l generalizing a g gs with
  | nil => simp [List.splitBy.loop]
  | cons x xs ih =>
    simp only [List.splitBy.loop]
    cases R a x
    · simp only
      rw [ih x [] ((a :: g).reverse :: gs), ih x [] [(a :: g).reverse]]
      simp
    · simp only
      exact ih x (a :: g) gs

theorem splitBy_loop_key {α : Type} (key : α → Dec) (l : List α) (a : α) (g : List α) :
    List.splitBy.loop (fun x y => decide (key x = key y)) l a g [] =
      (g.reverse ++ a :: l.takeWhile (fun x => decide (key x = key a))) ::
        (l.dropWhile (fun x => decide (key x = key a))).splitBy
          (fun x y => decide (key x = key y)) := by
  induction l generalizing a g with
  | nil => simp [List.splitBy.loop, List.splitBy]
  | cons x xs ih =>
    simp only [List.splitBy.loop]
    by_cases h : key a = key x
    · simp only [h, decide_True]
      rw [ih x (a :: g)]
      simp [List.takeWhile_cons, List.dropWhile_cons]
    · have hx : ¬ key x = key a := fun e => h e.symm
      simp only [h, decide_False]
      rw [splitBy_loop_append]
      simp [List.takeWhile_cons, List.dropWhile_cons, hx, List.splitBy]

theorem splitBy_key_cons {α : Type} (key : α → Dec) (a : α) (l : List α) :
    (a :: l).splitBy (fun x y => decide (key x = key y)) =
      (a :: l.takeWhile (fun x => decide (key x = key a))) ::
        (l.dropWhile (fun x => decide (key x = key a))).splitBy
          (fun x y => decide (key x = key y)) := by
  have h := splitBy_loop_key key l a []
  simpa [List.splitBy] using h

theorem price_levels_nil : price_levels [] = [] := rfl

theorem price_levels_cons (order : Order) (rest : List Order) :
    price_levels (order :: rest) =
      (order.price,
        order.left + sum_left (rest.takeWhile (fun x => decide (x.price = order.price)))) ::
        price_levels (rest.dropWhile (fun x => decide (x.price = order.price))) := by
  unfold price_levels price_runs
  rw [splitBy_key_cons Order.price order rest]
  simp [run_level, sum_left]

theorem sum_left_cons (order : Order) (rest : List Order) :
    sum_left (order :: rest) = order.left + sum_left rest := by
  simp [sum_left]

theorem depth_level_eq (price amount : Dec) (rest : List Order) :
    depth_level price amount rest =
      (amount + sum_left (rest.takeWhile (fun x => decide (x.price = price))),
        rest.dropWhile (fun x => decide (x.price = price))) := by
  induction rest generalizing amount with
  | nil => simp [depth_level, sum_left]
  | cons x xs ih =>
    unfold depth_level
    by_cases h : x.price = price
    · have hc : mpd_cmp price x.price = 0 := (mpd_cmp_eq_zero _ _).mpr h.symm
      rw [if_pos hc, ih]
      simp [List.takeWhile_cons, List.dropWhile_cons, h, sum_left_cons, add_assoc]
    · have hc : ¬ mpd_cmp price x.price = 0 := fun e => h ((mpd_cmp_eq_zero _ _).mp e).symm
      rw [if_neg hc]
      simp [List.takeWhile_cons, List.dropWhile_cons, h, sum_left]

theorem depth_level_asks_eq (price amount : Dec) (rest : List Order) :
    depth_level_asks price amount rest =
      (amount + sum_left (rest.takeWhile (fun x => decide (x.price ≤ price))),
        rest.dropWhile (fun x => decide (x.price ≤ price))) := by
  induction rest generalizing amount with
  | nil => simp [depth_level_asks, sum_left]
  | cons x xs ih =>
    unfold depth_level_asks
    by_cases h : x.price ≤ price
    · have hc : mpd_cmp price x.price ≥ 0 := (mpd_cmp_ge_zero _ _).mpr h
      rw [if_pos hc, ih]
      simp [List.takeWhile_cons, List.dropWhile_cons, h, sum_left_cons, add_assoc]
    · have hc : ¬ mpd_cmp price x.price ≥ 0 := fun e => h ((mpd_cmp_ge_zero _ _).mp e)
      rw [if_neg hc]
      simp [List.takeWhile_cons, List.dropWhile_cons, h, sum_left]

theorem depth_level_bids_eq (price amount : Dec) (rest : List Order) :
    depth_level_bids price amount rest =
      (amount + sum_left (rest.takeWhile (fun x => decide (price ≤ x.price))),
        rest.dropWhile (fun x => decide (price ≤ x.price))) := by
  induction rest generalizing amount with
  | nil => simp [depth_level_bids, sum_left]
  | cons x xs ih =>
    unfold depth_level_bids
    by_cases h : price ≤ x.price
    · have hc : mpd_cmp price x.price ≤ 0 := (mpd_cmp_le_zero _ _).mpr h
      rw [if_pos hc, ih]
      simp [List.takeWhile_cons, List.dropWhile_cons, h, sum_left_cons, add_assoc]
    · have hc : ¬ mpd_cmp price x.price ≤ 0 := fun e => h ((mpd_cmp_le_zero _ _).mp e)
      rw [if_neg hc]
      simp [List.takeWhile_cons, List.dropWhile_cons, h, sum_left]

theorem dropWhile_length_le {α : Type} (p : α → Bool) (l : List α) :
    (l.dropWhile p).length ≤ l.length :=
  (List.dropWhile_sublist p).length_le

/-- The walk of `get_depth` over one side emits the first levels of the runs
of equal price, as long as the fuel covers the book. -/
theorem depth_walk_eq (env : Env) (fuel : Nat) (nodes : List Order) (index limit : Nat)
    (hfuel : nodes.length ≤ fuel) :
    depth_walk env fuel nodes index limit =
      ((price_levels nodes).take (limit - index)).map (level_json env) := by
  induction fuel generalizing nodes index with
  | zero =>
    have hnil : nodes = [] := List.length_eq_zero.mp (Nat.le_zero.mp hfuel)
    subst hnil
    simp [depth_walk, price_levels_nil]
  | succ fuel ih =>
    cases nodes with
    | nil => simp [depth_walk, price_levels_nil]
    | cons order rest =>
      unfold depth_walk
      by_cases hlt : index < limit
      · have hsub : limit - index = (limit - (index + 1)) + 1 := by omega
        have hlen : (rest.dropWhile (fun x => decide (x.price = order.price))).length ≤ fuel :=
          le_trans (dropWhile_length_le _ _) (Nat.le_of_succ_le_succ hfuel)
        simp only [if_pos hlt, depth_level_eq]
        rw [ih _ (index + 1) hlen, price_levels_cons, hsub, List.take_succ_cons, List.map_cons]
        rfl
      · have hz : limit - index = 0 := by omega
        simp [if_neg hlt, hz]

/-! ### Depth: grouping by a key -/

theorem first_keys_filter (q : Dec → Bool) (ks : List Dec) :
    first_keys (ks.filter q) = (first_keys ks).filter q := by
  induction ks with
  | nil => rfl
  | cons k ks ih =>
    by_cases hq : q k = true
    · rw [List.filter_cons_of_pos hq]
      simp only [first_keys]
      rw [List.filter_cons_of_pos hq, ih, List.filter_filter, List.filter_filter]
      congr 1
      apply List.filter_congr
      intro x _
      exact Bool.and_comm _ _
    · rw [List.filter_cons_of_neg hq]
      simp only [first_keys]
      rw [List.filter_cons_of_neg hq, ih, List.filter_filter]
      apply List.filter_congr
      intro x _
      by_cases hx : x = k
      · subst hx
        simp [hq]
      · simp [hx]

theorem first_keys_nodup (ks : List Dec) : (first_keys ks).Nodup := by
  induction ks with
  | nil => exact List.nodup_nil
  | cons k ks ih =>
    simp only [first_keys]
    rw [List.nodup_cons]
    refine ⟨?_, List.Nodup.filter _ ih⟩
    intro hmem
    have := List.of_mem_filter hmem
    simp at this

theorem grouped_levels_nil (key : Order → Dec) : grouped_levels key [] = [] := rfl

theorem grouped_levels_cons (key : Order → Dec) (order : Order) (rest : List Order) :
    grouped_levels key (order :: rest) =
      (key order,
        order.left + sum_left (rest.filter (fun x => decide (key x = key order)))) ::
        grouped_levels key (rest.filter (fun x => decide (key x ≠ key order))) := by
  unfold grouped_levels
  have hmap : (rest.filter (fun x => decide (key x ≠ key order))).map key =
      (rest.map key).filter (fun k => decide (k ≠ key order)) := by
    rw [List.filter_map]
    rfl
  rw [hmap, first_keys_filter]
  simp only [List.map_cons, first_keys]
  congr 1
  · simp [sum_left_cons]
  · apply List.map_congr_left
    intro k hk
    have hne : k ≠ key order := by
      have := List.of_mem_filter hk
      simpa using this
    have hne2 : ¬ key order = k := fun e => hne e.symm
    congr 2
    rw [List.filter_cons_of_neg (by simpa using hne2), List.filter_filter]
    apply List.filter_congr
    intro x _
    by_cases hx : key x = k
    · simp [hx, hne]
    · simp [hx]

theorem grouped_levels_keys (key : Order → Dec) (book : List Order) :
    (grouped_levels key book).map Prod.fst = first_keys (book.map key) := by
  unfold grouped_levels
  rw [List.map_map]
  simp [Function.comp_def]

theorem takeWhile_congr_mem {α : Type} (p q : α → Bool) (l : List α)
    (h : ∀ x ∈ l, p x = q x) : l.takeWhile p = l.takeWhile q := by
  induction l with
  | nil => rfl
  | cons x xs ih =>
    have hx := h x (List.mem_cons_self _ _)
    have ih2 := ih (fun y hy => h y (List.mem_cons_of_mem _ hy))
    simp only [List.takeWhile_cons, hx, ih2]

theorem dropWhile_congr_mem {α : Type} (p q : α → Bool) (l : List α)
    (h : ∀ x ∈ l, p x = q x) : l.dropWhile p = l.dropWhile q := by
  induction l with
  | nil => rfl
  | cons x xs ih =>
    have hx := h x (List.mem_cons_self _ _)
    have ih2 := ih (fun y hy => h y (List.mem_cons_of_mem _ hy))
    simp only [List.dropWhile_cons, hx, ih2]

/-- In a list whose keys are ordered by an antisymmetric relation, and all
related to `k` from below, the orders of key `k` form an initial segment. -/
theorem takeWhile_dropWhile_of_pairwise (key : Order → Dec) (r : Dec → Dec → Prop)
    (hr : ∀ a b, r a b → r b a → a = b) (k : Dec) (rest : List Order)
    (hk : ∀ x ∈ rest, r k (key x))
    (hp : rest.Pairwise (fun a b => r (key a) (key b))) :
    rest.takeWhile (fun x => decide (key x = k)) = rest.filter (fun x => decide (key x = k)) ∧
    rest.dropWhile (fun x => decide (key x = k)) =
      rest.filter (fun x => decide (key x ≠ k)) := by
  induction rest with
  | nil => exact ⟨rfl, rfl⟩
  | cons x xs ih =>
    rw [List.pairwise_cons] at hp
    have ih2 := ih (fun y hy => hk y (List.mem_cons_of_mem _ hy)) hp.2
    by_cases hx : key x = k
    · have hx1 : (fun x => decide (key x = k)) x = true := by simpa using hx
      have hx2 : ¬ (fun x => decide (key x ≠ k)) x = true := by simpa using hx
      rw [@List.takeWhile_cons_of_pos _ (fun x => decide (key x = k)) x xs hx1,
        @List.filter_cons_of_pos _ (fun x => decide (key x = k)) x xs hx1,
        @List.dropWhile_cons_of_pos _ (fun x => decide (key x = k)) x xs hx1,
        @List.filter_cons_of_neg _ (fun x => decide (key x ≠ k)) x xs hx2]
      exact ⟨by rw [ih2.1], ih2.2⟩
    · have hx1 : ¬ (fun x => decide (key x = k)) x = true := by simpa using hx
      have hx2 : (fun x => decide (key x ≠ k)) x = true := by simpa using hx
      have hall : ∀ y ∈ xs, key y ≠ k := by
        intro y hy e
        have h1 : r (key x) k := e ▸ hp.1 y hy
        have h2 : r k (key x) := hk x (List.mem_cons_self _ _)
        exact hx (hr _ _ h1 h2)
      rw [@List.takeWhile_cons_of_neg _ (fun x => decide (key x = k)) x xs hx1,
        @List.filter_cons_of_neg _ (fun x => decide (key x = k)) x xs hx1,
        @List.dropWhile_cons_of_neg _ (fun x => decide (key x = k)) x xs hx1,
        @List.filter_cons_of_pos _ (fun x => decide (key x ≠ k)) x xs hx2]
      constructor
      · symm
        rw [List.filter_eq_nil_iff]
        intro y hy
        simpa using hall y hy
      · congr 1
        symm
        rw [List.filter_eq_self]
        intro y hy
        simpa using hall y hy

/-! ### Depth: rounding to the interval -/

theorem mpd_trunc_of_nonneg (q : Dec) (h : 0 ≤ q) : mpd_trunc q = ⌊q⌋ := by
  unfold mpd_trunc
  rw [if_pos h]

theorem ceil_price_mono (interval a b : Dec) (hint : 0 < interval) (hab : a ≤ b) :
    ceil_price interval a ≤ ceil_price interval b := by
  unfold ceil_price
  have h1 : a / interval ≤ b / interval := div_le_div_of_nonneg_right hab (le_of_lt hint)
  have h2 : (⌈a / interval⌉ : Int) ≤ ⌈b / interval⌉ := Int.ceil_mono h1
  have h3 : ((⌈a / interval⌉ : Int) : Dec) ≤ ((⌈b / interval⌉ : Int) : Dec) := by exact_mod_cast h2
  exact mul_le_mul_of_nonneg_right h3 (le_of_lt hint)

theorem floor_price_mono (interval a b : Dec) (hint : 0 < interval) (hab : a ≤ b) :
    floor_price interval a ≤ floor_price interval b := by
  unfold floor_price
  have h1 : a / interval ≤ b / interval := div_le_div_of_nonneg_right hab (le_of_lt hint)
  have h2 : (⌊a / interval⌋ : Int) ≤ ⌊b / interval⌋ := Int.floor_mono h1
  have h3 : ((⌊a / interval⌋ : Int) : Dec) ≤ ((⌊b / interval⌋ : Int) : Dec) := by exact_mod_cast h2
  exact mul_le_mul_of_nonneg_right h3 (le_of_lt hint)

/-- A price is at most a rounded-up price exactly when it rounds up to at most
that price. -/
theorem le_ceil_price_iff (interval p x : Dec) (hint : 0 < interval) :
    x ≤ ceil_price interval p ↔ ceil_price interval x ≤ ceil_price interval p := by
  unfold ceil_price
  rw [← div_le_iff₀ hint, ← Int.ceil_le, mul_le_mul_right hint, Int.cast_le]

/-- A price is at least a rounded-down price exactly when it rounds down to at
least that price. -/
theorem floor_price_le_iff (interval p x : Dec) (hint : 0 < interval) :
    floor_price interval p ≤ x ↔ floor_price interval p ≤ floor_price interval x := by
  unfold floor_price
  rw [← le_div_iff₀ hint, ← Int.le_floor, mul_le_mul_right hint, Int.cast_le]

/-- The price of a merged ask level, as `get_depth_merge` computes it from the
quotient and the remainder, is the price of the order rounded up. -/
theorem merge_ask_price (interval p : Dec) (hint : 0 < interval) (hp : 0 ≤ p) :
    (if mpd_cmp (mpd_divmod p interval).2 0 ≠ 0
      then (mpd_divmod p interval).1 * interval + interval
      else (mpd_divmod p interval).1 * interval) = ceil_price interval p := by
  have hq : 0 ≤ p / interval := div_nonneg hp (le_of_lt hint)
  have hne : interval ≠ 0 := ne_of_gt hint
  unfold mpd_divmod mpd_rem ceil_price
  simp only [mpd_trunc_of_nonneg _ hq]
  by_cases hr : p - interval * ((⌊p / interval⌋ : Int) : Dec) = 0
  · have hc : ¬ mpd_cmp (p - interval * ((⌊p / interval⌋ : Int) : Dec)) 0 ≠ 0 := by
      rw [mpd_cmp_ne_zero]
      exact fun h => h hr
    rw [if_neg hc]
    have hdiv : p / interval = ((⌊p / interval⌋ : Int) : Dec) := by
      rw [div_eq_iff hne]
      linarith
    have hceil : ⌈p / interval⌉ = ⌊p / interval⌋ := by
      conv_lhs => rw [hdiv]
      exact Int.ceil_intCast _
    rw [hceil]
  · have hc : mpd_cmp (p - interval * ((⌊p / interval⌋ : Int) : Dec)) 0 ≠ 0 := by
      rw [mpd_cmp_ne_zero]
      exact hr
    rw [if_pos hc]
    have hlt : ((⌊p / interval⌋ : Int) : Dec) < p / interval := by
      apply lt_of_le_of_ne (Int.floor_le _)
      intro e
      apply hr
      have : p = ((⌊p / interval⌋ : Int) : Dec) * interval := by
        rw [e]
        field_simp
      linarith
    have hceil : ⌈p / interval⌉ = ⌊p / interval⌋ + 1 := by
      rw [Int.ceil_eq_iff]
      constructor
      · push_cast
        linarith
      · push_cast
        exact le_of_lt (Int.lt_floor_add_one _)
    rw [hceil]
    push_cast
    ring

/-- The price of a merged bid level is the price of the order rounded down. -/
theorem merge_bid_price (interval p : Dec) (hint : 0 < interval) (hp : 0 ≤ p) :
    (mpd_divmod p interval).1 * interval = floor_price interval p := by
  have hq : 0 ≤ p / interval := div_nonneg hp (le_of_lt hint)
  unfold mpd_divmod floor_price
  simp only [mpd_trunc_of_nonneg _ hq]

/-! ### Depth: the merged walks -/

theorem filter_length_le_fuel (p : Order → Bool) (order : Order) (rest : List Order) (fuel : Nat)
    (hfuel : (order :: rest).length ≤ fuel + 1) : (rest.filter p).length ≤ fuel :=
  le_trans (List.length_filter_le _ _) (Nat.le_of_succ_le_succ hfuel)

/-- The walk of `get_depth_merge` over sorted asks of positive price emits the
first groups of the rounded-up price. -/
theorem depth_merge_asks_eq (env : Env) (interval : Dec) (hint : 0 < interval) (fuel : Nat)
    (nodes : List Order) (index limit : Nat) (hfuel : nodes.length ≤ fuel)
    (hpos : ∀ o ∈ nodes, 0 < o.price) (hsorted : asks_sorted nodes) :
    depth_merge_asks env interval fuel nodes index limit =
      ((grouped_levels (fun o => ceil_price interval o.price) nodes).take (limit - index)).map
        (level_json env) := by
  induction fuel generalizing nodes index with
  | zero =>
    have hnil : nodes = [] := List.length_eq_zero.mp (Nat.le_zero.mp hfuel)
    subst hnil
    simp [depth_merge_asks, grouped_levels_nil]
  | succ fuel ih =>
    cases nodes with
    | nil => simp [depth_merge_asks, grouped_levels_nil]
    | cons order rest =>
      unfold depth_merge_asks
      by_cases hlt : index < limit
      · have hsub : limit - index = (limit - (index + 1)) + 1 := by omega
        unfold asks_sorted at hsorted
        rw [List.pairwise_cons] at hsorted
        have hprice := merge_ask_price interval order.price hint
          (le_of_lt (hpos order (List.mem_cons_self _ _)))
        have hcongr : ∀ x ∈ rest,
            (fun x : Order => decide (x.price ≤ ceil_price interval order.price)) x =
              (fun x : Order =>
                decide (ceil_price interval x.price = ceil_price interval order.price)) x := by
          intro x hx
          have hle := ceil_price_mono interval _ _ hint (hsorted.1 x hx)
          have hiff := le_ceil_price_iff interval order.price x.price hint
          by_cases hc : x.price ≤ ceil_price interval order.price
          · have he : ceil_price interval x.price = ceil_price interval order.price :=
              le_antisymm (hiff.mp hc) hle
            simp [hc, he]
          · have he : ¬ ceil_price interval x.price = ceil_price interval order.price :=
              fun e => hc (hiff.mpr (le_of_eq e))
            simp [hc, he]
        have hruns := takeWhile_dropWhile_of_pairwise (fun o => ceil_price interval o.price)
          (fun a b => a ≤ b) (fun a b h1 h2 => le_antisymm h1 h2)
          (ceil_price interval order.price) rest
          (fun x hx => ceil_price_mono interval _ _ hint (hsorted.1 x hx))
          (List.Pairwise.imp (fun h => ceil_price_mono interval _ _ hint h) hsorted.2)
        have hrest : asks_sorted
            (rest.filter (fun x =>
              decide (ceil_price interval x.price ≠ ceil_price interval order.price))) :=
          List.Pairwise.sublist (List.filter_sublist _) hsorted.2
        have hposrest : ∀ o ∈ rest.filter (fun x =>
              decide (ceil_price interval x.price ≠ ceil_price interval order.price)),
            0 < o.price :=
          fun o ho => hpos o (List.mem_cons_of_mem _ (List.mem_of_mem_filter ho))
        simp only [if_pos hlt, hprice, depth_level_asks_eq]
        rw [takeWhile_congr_mem _ _ rest hcongr, dropWhile_congr_mem _ _ rest hcongr,
          hruns.1, hruns.2,
          ih _ (index + 1) (filter_length_le_fuel _ order rest fuel hfuel) hposrest hrest,
          grouped_levels_cons, hsub, List.take_succ_cons, List.map_cons]
        rfl
      · have hz : limit - index = 0 := by omega
        simp [if_neg hlt, hz]

/-- The walk of `get_depth_merge` over sorted bids of positive price emits the
first groups of the rounded-down price. -/
theorem depth_merge_bids_eq (env : Env) (interval : Dec) (hint : 0 < interval) (fuel : Nat)
    (nodes : List Order) (index limit : Nat) (hfuel : nodes.length ≤ fuel)
    (hpos : ∀ o ∈ nodes, 0 < o.price) (hsorted : bids_sorted nodes) :
    depth_merge_bids env interval fuel nodes index limit =
      ((grouped_levels (fun o => floor_price interval o.price) nodes).take (limit - index)).map
        (level_json env) := by
  induction fuel generalizing nodes index with
  | zero =>
    have hnil : nodes = [] := List.length_eq_zero.mp (Nat.le_zero.mp hfuel)
    subst hnil
    simp [depth_merge_bids, grouped_levels_nil]
  | succ fuel ih =>
    cases nodes with
    | nil => simp [depth_merge_bids, grouped_levels_nil]
    | cons order rest =>
      unfold depth_merge_bids
      by_cases hlt : index < limit
      · have hsub : limit - index = (limit - (index + 1)) + 1 := by omega
        unfold bids_sorted at hsorted
        rw [List.pairwise_cons] at hsorted
        have hprice := merge_bid_price interval order.price hint
          (le_of_lt (hpos order (List.mem_cons_self _ _)))
        have hcongr : ∀ x ∈ rest,
            (fun x : Order => decide (floor_price interval order.price ≤ x.price)) x =
              (fun x : Order =>
                decide (floor_price interval x.price = floor_price interval order.price)) x := by
          intro x hx
          have hle := floor_price_mono interval _ _ hint (hsorted.1 x hx)
          have hiff := floor_price_le_iff interval order.price x.price hint
          by_cases hc : floor_price interval order.price ≤ x.price
          · have he : floor_price interval x.price = floor_price interval order.price :=
              le_antisymm hle (hiff.mp hc)
            simp [hc, he]
          · have he : ¬ floor_price interval x.price = floor_price interval order.price :=
              fun e => hc (hiff.mpr (le_of_eq e.symm))
            simp [hc, he]
        have hruns := takeWhile_dropWhile_of_pairwise (fun o => floor_price interval o.price)
          (fun a b => b ≤ a) (fun a b h1 h2 => le_antisymm h2 h1)
          (floor_price interval order.price) rest
          (fun x hx => floor_price_mono interval _ _ hint (hsorted.1 x hx))
          (List.Pairwise.imp (fun h => floor_price_mono interval _ _ hint h) hsorted.2)
        have hrest : bids_sorted
            (rest.filter (fun x =>
              decide (floor_price interval x.price ≠ floor_price interval order.price))) :=
          List.Pairwise.sublist (List.filter_sublist _) hsorted.2
        have hposrest : ∀ o ∈ rest.filter (fun x =>
              decide (floor_price interval x.price ≠ floor_price interval order.price)),
            0 < o.price :=
          fun o ho => hpos o (List.mem_cons_of_mem _ (List.mem_of_mem_filter ho))
        simp only [if_pos hlt, hprice, depth_level_bids_eq]
        rw [takeWhile_congr_mem _ _ rest hcongr, dropWhile_congr_mem _ _ rest hcongr,
          hruns.1, hruns.2,
          ih _ (index + 1) (filter_length_le_fuel _ order rest fuel hfuel) hposrest hrest,
          grouped_levels_cons, hsub, List.take_succ_cons, List.map_cons]
        rfl
      · have hz : limit - index = 0 := by omega
        simp [if_neg hlt, hz]

/-- In a book whose prices are ordered, the runs of equal price are the groups
of a price: every run holds all the orders of its price. -/
theorem price_levels_eq_grouped (r : Dec → Dec → Prop) (hr : ∀ a b, r a b → r b a → a = b)
    (n : Nat) (book : List Order) (hn : book.length ≤ n)
    (hsorted : book.Pairwise (fun a b => r a.price b.price)) :
    price_levels book = grouped_levels Order.price book := by
  induction n generalizing book with
  | zero =>
    have hnil : book = [] := List.length_eq_zero.mp (Nat.le_zero.mp hn)
    subst hnil
    rfl
  | succ n ih =>
    cases book with
    | nil => rfl
    | cons order rest =>
      rw [List.pairwise_cons] at hsorted
      have hruns := takeWhile_dropWhile_of_pairwise Order.price r hr order.price rest
        hsorted.1 hsorted.2
      rw [price_levels_cons, grouped_levels_cons, hruns.1, hruns.2]
      rw [ih _ (filter_length_le_fuel _ order rest n hn)
        (List.Pairwise.sublist (List.filter_sublist _) hsorted.2)]

/-! ### Depth: the replies -/

/-- C13: on a market whose asks are sorted by price ascending and whose bids
are sorted descending, `get_depth` returns on each side the first `limit`
maximal runs of consecutive orders sharing a price, each as the pair of that
price and the sum of the `left` of the run, in book order; the prices of the
emitted levels are pairwise distinct, at most `limit` levels are emitted on
each side, and a limit of zero gives two empty arrays. -/
theorem get_depth_runs (env : Env) (market : Market) (limit : Nat)
    (hasks : asks_sorted market.asks) (hbids : bids_sorted market.bids) :
    get_depth env market limit =
      Json.object
        [("asks", Json.array (((price_levels market.asks).take limit).map (level_json env))),
         ("bids", Json.array (((price_levels market.bids).take limit).map (level_json env)))] ∧
    (((price_levels market.asks).take limit).map Prod.fst).Nodup ∧
    (((price_levels market.bids).take limit).map Prod.fst).Nodup ∧
    ((price_levels market.asks).take limit).length ≤ limit ∧
    ((price_levels market.bids).take limit).length ≤ limit ∧
    (limit = 0 →
      get_depth env market limit =
        Json.object [("asks", Json.array []), ("bids", Json.array [])]) := by
  have hget : get_depth env market limit =
      Json.object
        [("asks", Json.array (((price_levels market.asks).take limit).map (level_json env))),
         ("bids", Json.array (((price_levels market.bids).take limit).map
            (level_json env)))] := by
    unfold get_depth
    rw [depth_walk_eq env _ market.asks 0 limit (le_refl _),
      depth_walk_eq env _ market.bids 0 limit (le_refl _), Nat.sub_zero]
  have hnodup : ∀ (r : Dec → Dec → Prop), (∀ a b, r a b → r b a → a = b) →
      ∀ book : List Order, book.Pairwise (fun a b => r a.price b.price) →
        (((price_levels book).take limit).map Prod.fst).Nodup := by
    intro r hr book hsorted
    rw [price_levels_eq_grouped r hr book.length book (le_refl _) hsorted]
    apply List.Nodup.sublist (List.Sublist.map _ (List.take_sublist _ _))
    rw [grouped_levels_keys]
    exact first_keys_nodup _
  refine ⟨hget, ?_, ?_, ?_, ?_, ?_⟩
  · exact hnodup (fun a b => a ≤ b) (fun a b h1 h2 => le_antisymm h1 h2) market.asks hasks
  · exact hnodup (fun a b => b ≤ a) (fun a b h1 h2 => le_antisymm h2 h1) market.bids hbids
  · exact List.length_take_le _ _
  · exact List.length_take_le _ _
  · intro hz
    rw [hget, hz]
    rfl

theorem get_depth_runs_witness :
    asks_sorted demoDepthMarket.asks ∧ bids_sorted demoDepthMarket.bids ∧
    get_depth demoEnvDepth demoDepthMarket 2 =
      Json.object
        [("asks", Json.array [Json.array [Json.string "3", Json.string "3"],
                              Json.array [Json.string "5", Json.string "4"]]),
         ("bids", Json.array [Json.array [Json.string "9", Json.string "2"],
                              Json.array [Json.string "7", Json.string "4"]])] :=
  ⟨by unfold asks_sorted; with_unfolding_all decide,
   by unfold bids_sorted; with_unfolding_all decide,
   (get_depth_runs demoEnvDepth demoDepthMarket 2
      (by unfold asks_sorted; with_unfolding_all decide)
      (by unfold bids_sorted; with_unfolding_all decide)).1.trans
     (by with_unfolding_all rfl)⟩

/-- C14: for a positive interval, on a market of positive prices whose asks
are sorted ascending and whose bids are sorted descending, `get_depth_merge`
returns for the asks the first `limit` groups of the orders by their price
rounded up to a multiple of the interval, and for the bids the first `limit`
groups by their price rounded down, each group as the pair of the rounded
price and the sum of the `left` of all the orders that round to it. -/
theorem get_depth_merge_groups (env : Env) (market : Market) (limit : Nat) (interval : Dec)
    (hint : 0 < interval)
    (hpos_asks : ∀ o ∈ market.asks, 0 < o.price) (hpos_bids : ∀ o ∈ market.bids, 0 < o.price)
    (hasks : asks_sorted market.asks) (hbids : bids_sorted market.bids) :
    get_depth_merge env market limit interval =
      Json.object
        [("asks", Json.array
            (((grouped_levels (fun o => ceil_price interval o.price) market.asks).take
              limit).map (level_json env))),
         ("bids", Json.array
            (((grouped_levels (fun o => floor_price interval o.price) market.bids).take
              limit).map (level_json env)))] := by
  unfold get_depth_merge
  rw [depth_merge_asks_eq env interval hint _ market.asks 0 limit (le_refl _) hpos_asks hasks,
    depth_merge_bids_eq env interval hint _ market.bids 0 limit (le_refl _) hpos_bids hbids,
    Nat.sub_zero]

theorem get_depth_merge_groups_witness :
    (0 : Dec) < 5 ∧ (∀ o ∈ demoDepthMarket.asks, 0 < o.price) ∧
    (∀ o ∈ demoDepthMarket.bids, 0 < o.price) ∧
    asks_sorted demoDepthMarket.asks ∧ bids_sorted demoDepthMarket.bids ∧
    get_depth_merge demoEnvDepth demoDepthMarket 2 5 =
      Json.object
        [("asks", Json.array [Json.array [Json.string "5", Json.string "7"],
                              Json.array [Json.string "15", Json.string "1"]]),
         ("bids", Json.array [Json.array [Json.string "5", Json.string "6"],
                              Json.array [Json.string "0", Json.string "5"]])] :=
  ⟨by with_unfolding_all decide, by with_unfolding_all decide, by with_unfolding_all decide,
   by unfold asks_sorted; with_unfolding_all decide,
   by unfold bids_sorted; with_unfolding_all decide,
   (get_depth_merge_groups demoEnvDepth demoDepthMarket 2 5 (by with_unfolding_all decide)
      (by with_unfolding_all decide) (by with_unfolding_all decide)
      (by unfold asks_sorted; with_unfolding_all decide)
      (by unfold bids_sorted; with_unfolding_all decide)).trans
     (by with_unfolding_all rfl)⟩

/-- The two replies on the book of the examples, computed by the routines
themselves. -/
theorem demo_get_depth :
    get_depth demoEnvDepth demoDepthMarket 2 =
      Json.object
        [("asks", Json.array [Json.array [Json.string "3", Json.string "3"],
                              Json.array [Json.string "5", Json.string "4"]]),
         ("bids", Json.array [Json.array [Json.string "9", Json.string "2"],
                              Json.array [Json.string "7", Json.string "4"]])] ∧
    get_depth_merge demoEnvDepth demoDepthMarket 2 5 =
      Json.object
        [("asks", Json.array [Json.array [Json.string "5", Json.string "7"],
                              Json.array [Json.string "15", Json.string "1"]]),
         ("bids", Json.array [Json.array [Json.string "5", Json.string "6"],
                              Json.array [Json.string "0", Json.string "5"]])] :=
  ⟨by with_unfolding_all rfl, by with_unfolding_all rfl⟩

/-- On a book that is not sorted a price can come back in a later level, which
is why the sorting is assumed. -/
theorem demo_get_depth_unsorted :
    get_depth demoEnvDepth demoDepthMarketUnsorted 3 =
      Json.object
        [("asks", Json.array [Json.array [Json.string "3", Json.string "1"],
                              Json.array [Json.string "5", Json.string "2"],
                              Json.array [Json.string "3", Json.string "4"]]),
         ("bids", Json.array [])] := by
  with_unfolding_all rfl

/-! ### The decode error of the dispatcher -/

/-- C27: for every request whose body does not decode as JSON or decodes to a
value that is not an array, whatever its command, `svr_on_recv_pkg` enters no
command handler, sends no reply, closes the client connection and leaves the
engine state unchanged. -/
theorem svr_on_recv_pkg_decode_error (env : Env) (st : Engine) (pkg : rpc_pkg)
    (hbody : decode_fails env pkg) :
    svr_on_recv_pkg env st pkg = { state := st, trace := [Event.rpc_svr_close_clt] } ∧
    (∀ e ∈ (svr_on_recv_pkg env st pkg).trace, e.is_handler = false ∧ e.is_rpc_send = false) ∧
    Event.rpc_svr_close_clt ∈ (svr_on_recv_pkg env st pkg).trace ∧
    (svr_on_recv_pkg env st pkg).state = st := by
  have heq : svr_on_recv_pkg env st pkg =
      { state := st, trace := [Event.rpc_svr_close_clt] } := by
    unfold svr_on_recv_pkg
    rcases Option.eq_none_or_eq_some (env.json_loadb pkg.body) with h | ⟨params, h⟩
    · simp only [h]
    · have hna := hbody params h
      simp only [h, hna, if_true]
  refine ⟨heq, ?_, ?_, ?_⟩
  · rw [heq]
    intro e he
    simp only [List.mem_singleton] at he
    subst he
    exact ⟨rfl, rfl⟩
  · rw [heq]
    exact List.mem_singleton.mpr rfl
  · rw [heq]

theorem demo_decode_fails (cmd : Command) : decode_fails demoEnv (demoPkg cmd) := by
  intro params h
  have hnone : demoEnv.json_loadb (demoPkg cmd).body = none := by
    with_unfolding_all rfl
  rw [hnone] at h
  cases h

theorem svr_on_recv_pkg_decode_error_witness :
    decode_fails demoEnv (demoPkg Command.CMD_BALANCE_UPDATE) ∧
    svr_on_recv_pkg demoEnv demoEngine (demoPkg Command.CMD_BALANCE_UPDATE) =
      { state := demoEngine, trace := [Event.rpc_svr_close_clt] } :=
  ⟨demo_decode_fails Command.CMD_BALANCE_UPDATE,
   (svr_on_recv_pkg_decode_error demoEnv demoEngine (demoPkg Command.CMD_BALANCE_UPDATE)
      (demo_decode_fails Command.CMD_BALANCE_UPDATE)).1⟩

/-- A body that decodes to a number closes the connection as well, here for an
order placement. -/
theorem demo_decode_scalar :
    svr_on_recv_pkg demoEnvScalar demoEngine (demoPkg Command.CMD_ORDER_PUT_LIMIT) =
      { state := demoEngine, trace := [Event.rpc_svr_close_clt] } := by
  with_unfolding_all rfl
/-! ### The arity of the commands -/

/-- A request of an order placement command with another number of parameters
than the command takes is answered with code 1. -/
theorem on_cmd_order_put_arity (env : Env) (st : Engine) (pkg : rpc_pkg) (params : Json)
    (h : json_array_size params ≠
      (if pkg.command = Command.CMD_ORDER_PUT_MARKET then 6
       else if pkg.command = Command.CMD_ORDER_PUT_FOK then 7 else 8)) :
    on_cmd_order_put env st pkg params = reply_error st pkg 1 "invalid argument" := by
  apply on_cmd_order_put_of_args_none
  rcases Option.eq_none_or_eq_some (order_put_args env st pkg params) with hargs | ⟨a, hargs⟩
  · exact hargs
  · exact absurd (order_put_args_some env st pkg params a hargs).1 h

/-- C28: every fixed-arity handler answers a parameter array of another length
with code 1 "invalid argument" and leaves the state as it was: BALANCE_UPDATE
takes 6 parameters, ORDER_PUT_LIMIT 8, ORDER_PUT_AON 8, ORDER_PUT_MARKET 6,
ORDER_PUT_FOK 7, ORDER_QUERY 4, ORDER_CANCEL 3, ORDER_BOOK 4, ORDER_BOOK_DEPTH 3,
ORDER_DETAIL 2, ASSET_REGISTER 3, MARKET_REGISTER 6 and MARKET_DETAIL 1;
BALANCE_QUERY takes at least 1. -/
theorem handlers_arity (env : Env) (st : Engine) (pkg : rpc_pkg) (params : Json) :
    (reply_error st pkg 1 "invalid argument").state = st ∧
    (json_array_size params ≠ 6 →
      on_cmd_balance_update env st pkg params = reply_error st pkg 1 "invalid argument") ∧
    (pkg.command = Command.CMD_ORDER_PUT_LIMIT → json_array_size params ≠ 8 →
      on_cmd_order_put env st pkg params = reply_error st pkg 1 "invalid argument") ∧
    (pkg.command = Command.CMD_ORDER_PUT_AON → json_array_size params ≠ 8 →
      on_cmd_order_put env st pkg params = reply_error st pkg 1 "invalid argument") ∧
    (pkg.command = Command.CMD_ORDER_PUT_MARKET → json_array_size params ≠ 6 →
      on_cmd_order_put env st pkg params = reply_error st pkg 1 "invalid argument") ∧
    (pkg.command = Command.CMD_ORDER_PUT_FOK → json_array_size params ≠ 7 →
      on_cmd_order_put env st pkg params = reply_error st pkg 1 "invalid argument") ∧
    (json_array_size params ≠ 4 →
      on_cmd_order_query env st pkg params = reply_error st pkg 1 "invalid argument") ∧
    (json_array_size params ≠ 3 →
      on_cmd_order_cancel env st pkg params = reply_error st pkg 1 "invalid argument") ∧
    (json_array_size params ≠ 4 →
      on_cmd_order_book env st pkg params = reply_error st pkg 1 "invalid argument") ∧
    (json_array_size params ≠ 3 →
      on_cmd_order_book_depth env st pkg params = reply_error st pkg 1 "invalid argument") ∧
    (json_array_size params ≠ 2 →
      on_cmd_order_detail env st pkg params = reply_error st pkg 1 "invalid argument") ∧
    (json_array_size params ≠ 3 →
      on_cmd_asset_register env st pkg params = reply_error st pkg 1 "invalid argument") ∧
    (json_array_size params ≠ 6 →
      on_cmd_market_register env st pkg params = reply_error st pkg 1 "invalid argument") ∧
    (json_array_size params ≠ 1 →
      on_cmd_market_detail env st pkg params = reply_error st pkg 1 "invalid argument") ∧
    (json_array_size params < 1 →
      on_cmd_balance_query env st pkg params = reply_error st pkg 1 "invalid argument") := by
  refine ⟨rfl, ?_, ?_, ?_, ?_, ?_, ?_, ?_, ?_, ?_, ?_, ?_, ?_, ?_, ?_⟩
  · intro h
    unfold on_cmd_balance_update
    rw [if_pos h]
    rfl
  · intro hcmd h
    apply on_cmd_order_put_arity
    simpa [hcmd] using h
  · intro hcmd h
    apply on_cmd_order_put_arity
    simpa [hcmd] using h
  · intro hcmd h
    apply on_cmd_order_put_arity
    simpa [hcmd] using h
  · intro hcmd h
    apply on_cmd_order_put_arity
    simpa [hcmd] using h
  · intro h
    unfold on_cmd_order_query
    rw [if_pos h]
    rfl
  · intro h
    unfold on_cmd_order_cancel
    rw [if_pos h]
    rfl
  · intro h
    unfold on_cmd_order_book
    rw [if_pos h]
    rfl
  · intro h
    unfold on_cmd_order_book_depth
    rw [if_pos h]
    rfl
  · intro h
    unfold on_cmd_order_detail
    rw [if_pos h]
    rfl
  · intro h
    unfold on_cmd_asset_register
    rw [if_pos h]
    rfl
  · intro h
    unfold on_cmd_market_register
    rw [if_pos h]
    rfl
  · intro h
    unfold on_cmd_market_detail
    rw [if_pos h]
    rfl
  · intro h
    unfold on_cmd_balance_query
    simp only [h, if_true]
    rfl

/-- A LIMIT request with the six parameters of a MARKET request is answered
with code 1. -/
theorem handlers_arity_witness :
    json_array_size (demoMarketParams 2 "1") ≠ 8 ∧
    on_cmd_order_put demoEnv demoEngine (demoPkg Command.CMD_ORDER_PUT_LIMIT)
        (demoMarketParams 2 "1") =
      reply_error demoEngine (demoPkg Command.CMD_ORDER_PUT_LIMIT) 1 "invalid argument" :=
  ⟨by decide,
   (handlers_arity demoEnv demoEngine (demoPkg Command.CMD_ORDER_PUT_LIMIT)
      (demoMarketParams 2 "1")).2.2.1 rfl (by decide)⟩
/-! ### Registration of assets and markets -/

/-- C25: on a request `[symbol, name, tick_size]` of three strings,
`on_cmd_asset_register` replies code 1 "invalid argument" without calling
`asset_register` whenever the symbol already exists or the tick size does not
parse or parses to a value that is not positive; otherwise it calls
`asset_register` exactly once, with the symbol, the name and the tick size, and
replies success when the call returns a non-negative status and code 2
"internal error" when it returns a negative one. -/
theorem asset_register_outcome (env : Env) (st : Engine) (pkg : rpc_pkg)
    (symbol name tick : String) :
    ((env.asset_exist st symbol = true ∨ env.decimal (some tick) 8 = none ∨
        (∃ t, env.decimal (some tick) 8 = some t ∧ t ≤ 0)) →
      on_cmd_asset_register env st pkg
          (Json.array [Json.string symbol, Json.string name, Json.string tick]) =
        reply_error st pkg 1 "invalid argument" ∧
      (on_cmd_asset_register env st pkg
          (Json.array [Json.string symbol, Json.string name, Json.string tick])).trace.countP
        Event.is_asset_register = 0) ∧
    (∀ t, env.asset_exist st symbol = false → env.decimal (some tick) 8 = some t → 0 < t →
      on_cmd_asset_register env st pkg
          (Json.array [Json.string symbol, Json.string name, Json.string tick]) =
        Outcome.after [Event.asset_register symbol name (env.mpd_to_sci t)]
          (register_reply (env.asset_register st symbol name (env.mpd_to_sci t)).2 pkg
            (env.asset_register st symbol name (env.mpd_to_sci t)).1) ∧
      (on_cmd_asset_register env st pkg
          (Json.array [Json.string symbol, Json.string name, Json.string tick])).trace.countP
        Event.is_asset_register = 1) := by
  have hrej : (env.asset_exist st symbol = true ∨ env.decimal (some tick) 8 = none ∨
        (∃ t, env.decimal (some tick) 8 = some t ∧ t ≤ 0)) →
      on_cmd_asset_register env st pkg
          (Json.array [Json.string symbol, Json.string name, Json.string tick]) =
        reply_error st pkg 1 "invalid argument" := by
    intro h
    unfold on_cmd_asset_register
    simp only [json_array_size, json_array_get, json_string_value, List.length_cons,
      List.length_nil, List.get?_cons_zero, List.get?_cons_succ, ne_eq, not_true_eq_false,
      if_false, reply_error_invalid_argument, Nat.reduceAdd]
    rcases h with h | h | ⟨t, h, ht⟩
    · simp only [h, if_true]
    · by_cases hex : env.asset_exist st symbol = true
      · simp only [hex, if_true]
      · simp only [hex, Bool.false_eq_true, if_false, h]
    · by_cases hex : env.asset_exist st symbol = true
      · simp only [hex, if_true]
      · have hc : mpd_cmp t 0 ≤ 0 := (mpd_cmp_le_zero t 0).mpr ht
        simp only [hex, Bool.false_eq_true, if_false, h, hc, if_true]
  constructor
  · intro h
    refine ⟨hrej h, ?_⟩
    rw [hrej h]
    rfl
  · intro t hex hdec hpos
    have hc : ¬ mpd_cmp t 0 ≤ 0 := fun h => absurd ((mpd_cmp_le_zero t 0).mp h) (not_le.mpr hpos)
    have heq : on_cmd_asset_register env st pkg
          (Json.array [Json.string symbol, Json.string name, Json.string tick]) =
        Outcome.after [Event.asset_register symbol name (env.mpd_to_sci t)]
          (register_reply (env.asset_register st symbol name (env.mpd_to_sci t)).2 pkg
            (env.asset_register st symbol name (env.mpd_to_sci t)).1) := by
      unfold on_cmd_asset_register
      simp only [json_array_size, json_array_get, json_string_value, List.length_cons,
        List.length_nil, List.get?_cons_zero, List.get?_cons_succ, ne_eq, not_true_eq_false,
        if_false, Nat.reduceAdd, hex, Bool.false_eq_true, hdec, hc, register_reply,
        reply_error_internal_error]
    refine ⟨heq, ?_⟩
    rw [heq]
    unfold register_reply
    split_ifs <;> rfl

theorem asset_register_outcome_witness :
    on_cmd_asset_register demoEnv demoEngine (demoPkg Command.CMD_ASSET_REGISTER)
        (demoAssetParams "BTC" "0.001") =
      reply_error demoEngine (demoPkg Command.CMD_ASSET_REGISTER) 1 "invalid argument" ∧
    on_cmd_asset_register demoEnv demoEngine (demoPkg Command.CMD_ASSET_REGISTER)
        (demoAssetParams "ETH" "0.001") =
      Outcome.after [Event.asset_register "ETH" "Ether" (demoEnv.mpd_to_sci (1 / 1000))]
        (reply_success demoEngine (demoPkg Command.CMD_ASSET_REGISTER)) :=
  ⟨((asset_register_outcome demoEnv demoEngine (demoPkg Command.CMD_ASSET_REGISTER)
      "BTC" "Ether" "0.001").1 (Or.inl (by with_unfolding_all rfl))).1,
   ((asset_register_outcome demoEnv demoEngine (demoPkg Command.CMD_ASSET_REGISTER)
      "ETH" "Ether" "0.001").2 (1 / 1000) (by with_unfolding_all rfl)
      (by with_unfolding_all rfl) (by with_unfolding_all decide)).1⟩

/-- C26: on a request `[ticker, name, base, counter, init_price, delisting_ts]`
whose first four parameters are strings, `on_cmd_market_register` replies code 1
"invalid argument" without calling `market_register` whenever the ticker
already names a market, or `asset_id` of the base or of the counter is
negative, or the initial price is not a string that parses as a decimal, or
the delisting time is not an integer; otherwise it calls `market_register`
exactly once, with the two asset ids, and replies success when the call
returns a non-negative status and code 2 "internal error" otherwise. -/
theorem market_register_outcome (env : Env) (st : Engine) (pkg : rpc_pkg)
    (ticker name base counter : String) (init_price delisting : Json) :
    (((env.get_market st ticker).isSome = true ∨ env.asset_id st base < 0 ∨
        env.asset_id st counter < 0 ∨
        (∀ s, json_string_value (some init_price) = some s → env.decimal (some s) 8 = none) ∨
        json_is_integer (some delisting) = false) →
      on_cmd_market_register env st pkg
          (Json.array [Json.string ticker, Json.string name, Json.string base,
            Json.string counter, init_price, delisting]) =
        reply_error st pkg 1 "invalid argument" ∧
      (on_cmd_market_register env st pkg
          (Json.array [Json.string ticker, Json.string name, Json.string base,
            Json.string counter, init_price, delisting])).trace.countP
        Event.is_market_register = 0) ∧
    (∀ s t, (env.get_market st ticker).isSome = false → 0 ≤ env.asset_id st base →
      0 ≤ env.asset_id st counter → init_price = Json.string s →
      env.decimal (some s) 8 = some t → json_is_integer (some delisting) = true →
      on_cmd_market_register env st pkg
          (Json.array [Json.string ticker, Json.string name, Json.string base,
            Json.string counter, init_price, delisting]) =
        Outcome.after [Event.market_register ticker name (env.asset_id st base)
            (env.asset_id st counter) (env.mpd_to_sci t)
            (to_uint32 (json_integer_value (some delisting)))]
          (register_reply
            (env.market_register st ticker name (env.asset_id st base)
              (env.asset_id st counter) (env.mpd_to_sci t)
              (to_uint32 (json_integer_value (some delisting)))).2 pkg
            (env.market_register st ticker name (env.asset_id st base)
              (env.asset_id st counter) (env.mpd_to_sci t)
              (to_uint32 (json_integer_value (some delisting)))).1) ∧
      (on_cmd_market_register env st pkg
          (Json.array [Json.string ticker, Json.string name, Json.string base,
            Json.string counter, init_price, delisting])).trace.countP
        Event.is_market_register = 1) := by
  have hrej : ((env.get_market st ticker).isSome = true ∨ env.asset_id st base < 0 ∨
        env.asset_id st counter < 0 ∨
        (∀ s, json_string_value (some init_price) = some s → env.decimal (some s) 8 = none) ∨
        json_is_integer (some delisting) = false) →
      on_cmd_market_register env st pkg
          (Json.array [Json.string ticker, Json.string name, Json.string base,
            Json.string counter, init_price, delisting]) =
        reply_error st pkg 1 "invalid argument" := by
    intro h
    unfold on_cmd_market_register
    simp only [json_array_size, json_array_get, json_string_value, List.length_cons,
      List.length_nil, List.get?_cons_zero, List.get?_cons_succ, ne_eq, not_true_eq_false,
      if_false, reply_error_invalid_argument, Nat.reduceAdd]
    by_cases h1 : (env.get_market st ticker).isSome = true
    · simp only [h1, if_true]
    · by_cases h2 : env.asset_id st base < 0
      · simp only [h1, Bool.false_eq_true, if_false, h2, if_true]
      · by_cases h3 : env.asset_id st counter < 0
        · simp only [h1, Bool.false_eq_true, if_false, h2, h3, if_true]
        · simp only [h1, Bool.false_eq_true, if_false, h2, h3]
          rcases Option.eq_none_or_eq_some (json_string_value (some init_price)) with
            h4 | ⟨s, h4⟩
          · simp only [json_string_value] at h4
            simp only [h4]
          · simp only [json_string_value] at h4
            simp only [h4]
            rcases Option.eq_none_or_eq_some (env.decimal (some s) 8) with h5 | ⟨t, h5⟩
            · simp only [h5]
            · simp only [h5]
              by_cases h6 : json_is_integer (some delisting) = false
              · simp only [h6, if_true]
              · rcases h with h | h | h | h | h
                · exact absurd h h1
                · exact absurd h h2
                · exact absurd h h3
                · have := h s (by simp only [json_string_value, h4])
                  rw [h5] at this
                  cases this
                · exact absurd h h6
  constructor
  · intro h
    refine ⟨hrej h, ?_⟩
    rw [hrej h]
    rfl
  · intro s t h1 h2 h3 hs hdec hint
    subst hs
    have h2n : ¬ env.asset_id st base < 0 := not_lt.mpr h2
    have h3n : ¬ env.asset_id st counter < 0 := not_lt.mpr h3
    have heq : on_cmd_market_register env st pkg
          (Json.array [Json.string ticker, Json.string name, Json.string base,
            Json.string counter, Json.string s, delisting]) =
        Outcome.after [Event.market_register ticker name (env.asset_id st base)
            (env.asset_id st counter) (env.mpd_to_sci t)
            (to_uint32 (json_integer_value (some delisting)))]
          (register_reply
            (env.market_register st ticker name (env.asset_id st base)
              (env.asset_id st counter) (env.mpd_to_sci t)
              (to_uint32 (json_integer_value (some delisting)))).2 pkg
            (env.market_register st ticker name (env.asset_id st base)
              (env.asset_id st counter) (env.mpd_to_sci t)
              (to_uint32 (json_integer_value (some delisting)))).1) := by
      unfold on_cmd_market_register
      simp only [json_array_size, json_array_get, json_string_value, List.length_cons,
        List.length_nil, List.get?_cons_zero, List.get?_cons_succ, ne_eq, not_true_eq_false,
        if_false, Nat.reduceAdd, h1, Bool.false_eq_true, h2n, h3n, hdec, hint,
        Bool.true_eq_false, register_reply, reply_error_internal_error]
    refine ⟨heq, ?_⟩
    rw [heq]
    unfold register_reply
    split_ifs <;> rfl

theorem market_register_outcome_witness :
    on_cmd_market_register demoEnv demoEngine (demoPkg Command.CMD_MARKET_REGISTER)
        (demoMarketRegParams "ETHUSD" "ETH") =
      reply_error demoEngine (demoPkg Command.CMD_MARKET_REGISTER) 1 "invalid argument" ∧
    on_cmd_market_register demoEnv demoEngine (demoPkg Command.CMD_MARKET_REGISTER)
        (demoMarketRegParams "BTCUSD2" "BTC") =
      Outcome.after [Event.market_register "BTCUSD2" "A new market" 0 0
          (demoEnv.mpd_to_sci 10) 0]
        (reply_success demoEngine (demoPkg Command.CMD_MARKET_REGISTER)) :=
  ⟨((market_register_outcome demoEnv demoEngine (demoPkg Command.CMD_MARKET_REGISTER)
      "ETHUSD" "A new market" "ETH" "USD" (Json.string "10") (Json.integer 0)).1
      (Or.inr (Or.inl (by with_unfolding_all decide)))).1,
   ((market_register_outcome demoEnv demoEngine (demoPkg Command.CMD_MARKET_REGISTER)
      "BTCUSD2" "A new market" "BTC" "USD" (Json.string "10") (Json.integer 0)).2
      "10" 10 (by with_unfolding_all rfl) (by with_unfolding_all decide)
      (by with_unfolding_all decide) rfl (by with_unfolding_all rfl) rfl).1⟩

/-! ### Paged queries: ORDER_QUERY and ORDER_BOOK -/

theorem to_uint32_of_lt (n : Nat) (h : n < 4294967296) : to_uint32 (n : Int) = n := by
  unfold to_uint32
  have h1 : ((n : Int) % 4294967296) = (n : Int) :=
    Int.emod_eq_of_lt (Int.natCast_nonneg n) (by exact_mod_cast h)
  rw [h1]
  exact Int.toNat_natCast n

theorem to_uint64_of_lt (n : Nat) (h : n < 18446744073709551616) : to_uint64 (n : Int) = n := by
  unfold to_uint64
  have h1 : ((n : Int) % 18446744073709551616) = (n : Int) :=
    Int.emod_eq_of_lt (Int.natCast_nonneg n) (by exact_mod_cast h)
  rw [h1]
  exact Int.toNat_natCast n

theorem to_json_int_of_lt (n : Nat) (h : n < 9223372036854775808) : to_json_int n = n := by
  unfold to_json_int
  have h1 : n % 18446744073709551616 = n := Nat.mod_eq_of_lt (by omega)
  rw [h1, if_pos h]

theorem skiplist_skip_eq_drop (iter : List Order) (n : Nat) : skiplist_skip iter n = iter.drop n := by
  induction n generalizing iter with
  | zero => simp [skiplist_skip]
  | succ n ih =>
    cases iter with
    | nil => simp [skiplist_skip]
    | cons x xs => simpa [skiplist_skip] using ih xs

theorem collect_orders_eq (env : Env) (iter : List Order) (index limit : Nat) :
    collect_orders env iter index limit = (iter.take (limit - index)).map env.get_order_info := by
  induction iter generalizing index with
  | nil => simp [collect_orders]
  | cons x xs ih =>
    unfold collect_orders
    by_cases h : index < limit
    · have hsub : limit - index = (limit - (index + 1)) + 1 := by omega
      rw [if_pos h, ih, hsub, List.take_succ_cons, List.map_cons]
    · have hz : limit - index = 0 := by omega
      rw [if_neg h, hz]
      rfl

/-- The two loops of a paged query return the slice of the list. -/
theorem paged_orders_eq (env : Env) (orders : List Order) (offset limit : Nat) :
    (if offset < orders.length then collect_orders env (skiplist_skip orders offset) 0 limit
      else []) = (order_slice orders offset limit).map env.get_order_info := by
  unfold order_slice
  by_cases h : offset < orders.length
  · rw [if_pos h, skiplist_skip_eq_drop, collect_orders_eq, Nat.sub_zero]
  · rw [if_neg h, List.drop_eq_nil_of_le (not_lt.mp h)]
    simp

theorem order_slice_length (orders : List Order) (offset limit : Nat) :
    (order_slice orders offset limit).length = min limit (orders.length - offset) := by
  unfold order_slice
  rw [List.length_take, List.length_drop]

/-- C21: for a well-formed ORDER_QUERY request `[user_id, market, offset,
limit]` (an existing market, a user id below 2^32, an offset and a limit that
are non-negative 64-bit integers): with `limit` above ORDER_LIST_MAX_LEN the
reply is code 1; otherwise the result echoes limit and offset, `total` is the
length of the order list of the user in the market (0 when there is none) and
`records` is the slice of that list from index `offset` of length
min(limit, total - offset), in list order. -/
theorem order_query_slice (env : Env) (st : Engine) (pkg : rpc_pkg)
    (user_id offset limit : Nat) (market_name : String) (market : Market)
    (huser : user_id < 4294967296) (hoffset : offset < 9223372036854775808)
    (hlimit : limit < 9223372036854775808)
    (hmarket : env.get_market st market_name = some market) :
    (limit > env.ORDER_LIST_MAX_LEN →
      on_cmd_order_query env st pkg
          (Json.array [Json.integer user_id, Json.string market_name, Json.integer offset,
            Json.integer limit]) =
        reply_error st pkg 1 "invalid argument") ∧
    (limit ≤ env.ORDER_LIST_MAX_LEN → env.market_get_order_list market user_id = none →
      on_cmd_order_query env st pkg
          (Json.array [Json.integer user_id, Json.string market_name, Json.integer offset,
            Json.integer limit]) =
        reply_result st pkg (Json.object [("limit", Json.integer limit),
          ("offset", Json.integer offset), ("total", Json.integer 0),
          ("records", Json.array [])])) ∧
    (∀ order_list, limit ≤ env.ORDER_LIST_MAX_LEN →
      env.market_get_order_list market user_id = some order_list →
      order_list.length < 9223372036854775808 →
      on_cmd_order_query env st pkg
          (Json.array [Json.integer user_id, Json.string market_name, Json.integer offset,
            Json.integer limit]) =
        reply_result st pkg (Json.object [("limit", Json.integer limit),
          ("offset", Json.integer offset), ("total", Json.integer order_list.length),
          ("records", Json.array
            ((order_slice order_list offset limit).map env.get_order_info))]) ∧
      (order_slice order_list offset limit).length = min limit (order_list.length - offset) ∧
      (order_list.length ≤ offset → order_slice order_list offset limit = []) ∧
      ∀ i, i < min limit (order_list.length - offset) →
        (order_slice order_list offset limit).get? i = order_list.get? (offset + i)) := by
  have hu := to_uint32_of_lt user_id huser
  have ho := to_uint64_of_lt offset (by omega)
  have hl := to_uint64_of_lt limit (by omega)
  have hjo := to_json_int_of_lt offset hoffset
  have hjl := to_json_int_of_lt limit hlimit
  refine ⟨?_, ?_, ?_⟩
  · intro hgt
    unfold on_cmd_order_query
    simp only [json_array_size, json_array_get, json_string_value, json_is_integer,
      json_integer_value, List.length_cons, List.length_nil, List.get?_cons_zero,
      List.get?_cons_succ, ne_eq, not_true_eq_false, if_false, Nat.reduceAdd, hmarket,
      Bool.true_eq_false, hl, hgt, if_true, reply_error_invalid_argument]
  · intro hle hnone
    have hngt : ¬ limit > env.ORDER_LIST_MAX_LEN := not_lt.mpr hle
    unfold on_cmd_order_query
    simp only [json_array_size, json_array_get, json_string_value, json_is_integer,
      json_integer_value, List.length_cons, List.length_nil, List.get?_cons_zero,
      List.get?_cons_succ, ne_eq, not_true_eq_false, if_false, Nat.reduceAdd, hmarket,
      Bool.true_eq_false, hl, ho, hu, hngt, hnone, hjo, hjl, List.cons_append,
      List.nil_append]
  · intro order_list hle hsome hlen
    have hngt : ¬ limit > env.ORDER_LIST_MAX_LEN := not_lt.mpr hle
    have hjt := to_json_int_of_lt order_list.length hlen
    refine ⟨?_, order_slice_length _ _ _, ?_, ?_⟩
    · unfold on_cmd_order_query
      simp only [json_array_size, json_array_get, json_string_value, json_is_integer,
        json_integer_value, List.length_cons, List.length_nil, List.get?_cons_zero,
        List.get?_cons_succ, ne_eq, not_true_eq_false, if_false, Nat.reduceAdd, hmarket,
        Bool.true_eq_false, hl, ho, hu, hngt, hsome, hjo, hjl, hjt, List.cons_append,
        List.nil_append, paged_orders_eq]
    · intro h
      unfold order_slice
      rw [List.drop_eq_nil_of_le h]
      simp
    · intro i hi
      unfold order_slice
      have hi2 : i < limit := lt_of_lt_of_le hi (min_le_left _ _)
      rw [List.get?_eq_getElem?, List.get?_eq_getElem?, List.getElem?_take_of_lt hi2,
        List.getElem?_drop]

theorem order_query_slice_witness :
    on_cmd_order_query demoEnv demoPagedEngine (demoPkg Command.CMD_ORDER_QUERY)
        (Json.array [Json.integer 1, Json.string "BTCUSD", Json.integer 1, Json.integer 2]) =
      reply_result demoPagedEngine (demoPkg Command.CMD_ORDER_QUERY)
        (Json.object [("limit", Json.integer 2), ("offset", Json.integer 1),
          ("total", Json.integer 4),
          ("records", Json.array [Json.object [("id", Json.integer 3)],
            Json.object [("id", Json.integer 4)]])]) :=
  ((order_query_slice demoEnv demoPagedEngine (demoPkg Command.CMD_ORDER_QUERY) 1 1 2
      "BTCUSD" demoPagedMarket (by decide) (by decide) (by decide)
      (by with_unfolding_all rfl)).2.2
    [{ id := 1, user_id := 1, price := 3, left := 1 },
     { id := 3, user_id := 1, price := 5, left := 4 },
     { id := 4, user_id := 1, price := 6, left := 1 },
     { id := 5, user_id := 1, price := 7, left := 1 }]
    (by decide) (by with_unfolding_all rfl) (by decide)).1

/-! ### The order of the checks of `on_cmd_order_put` -/

theorem order_put_finish_codes (env : Env) (st : Engine) (pkg : rpc_pkg) (params : Json)
    (oper : String) (result : Json) :
    order_put_finish env st pkg params (-1) oper result =
      reply_error st pkg 10 "insufficient balance" ∧
    order_put_finish env st pkg params (-2) oper result = reply_error st pkg 11 "invalid amount" ∧
    order_put_finish env st pkg params (-3) oper result = reply_error st pkg 14 "invalid price" ∧
    order_put_finish env st pkg params (-4) oper result =
      reply_error st pkg 12 "price out of range" ∧
    order_put_finish env st pkg params (-5) oper result =
      reply_error st pkg 13 "insufficient trading fee" ∧
    order_put_finish env st pkg params (-6) oper result =
      reply_error st pkg 15 "no orders found" := by
  refine ⟨?_, ?_, ?_, ?_, ?_, ?_⟩ <;> simp [order_put_finish]

/-- C29: once the arguments of a request are read, `on_cmd_order_put` reports
the first check that fails, in this order: amount below `min_amount` (11),
amount off the stock tick (11), price off the money tick (14), total below
`min_total` or a price limit violated (12), no order on the opposite side for
MARKET and FOK (15), then the balance check (10, 13, or 12 for a MARKET bid).
So a LIMIT request below the minimum amount is answered with code 11 also when
its price is off the tick and the balance check would fail. -/
theorem order_put_first_failure (env : Env) (st : Engine) (pkg : rpc_pkg) (params : Json)
    (a : PutArgs) (hargs : order_put_args env st pkg params = some a) :
    (a.amount < a.market.min_amount →
      on_cmd_order_put env st pkg params = reply_error st pkg 11 "invalid amount") ∧
    (¬ a.amount < a.market.min_amount →
      mpd_rem a.amount (env.asset_tick_size st a.market.stock) ≠ 0 →
      on_cmd_order_put env st pkg params = reply_error st pkg 11 "invalid amount") ∧
    (passes_amount_checks env st a → pkg.command ≠ Command.CMD_ORDER_PUT_MARKET →
      ¬ passes_price_tick env st a →
      on_cmd_order_put env st pkg params = reply_error st pkg 14 "invalid price") ∧
    (passes_amount_checks env st a → pkg.command ≠ Command.CMD_ORDER_PUT_MARKET →
      passes_price_tick env st a → price_out_of_range env st a →
      on_cmd_order_put env st pkg params = reply_error st pkg 12 "price out of range") ∧
    (passes_amount_checks env st a →
      (pkg.command ≠ Command.CMD_ORDER_PUT_MARKET →
        passes_price_tick env st a ∧ ¬ price_out_of_range env st a) →
      (pkg.command = Command.CMD_ORDER_PUT_MARKET ∨ pkg.command = Command.CMD_ORDER_PUT_FOK) →
      check_makers_exist a.side a.market = false →
      on_cmd_order_put env st pkg params = reply_error st pkg 15 "no orders found") ∧
    (passes_until_balance env st pkg a →
      order_put_checks env st pkg a = order_put_balance_check env st pkg a ∧
      (order_put_balance_check env st pkg a = PutCheck.invalid_order (-1) →
        on_cmd_order_put env st pkg params = reply_error st pkg 10 "insufficient balance") ∧
      (order_put_balance_check env st pkg a = PutCheck.invalid_order (-5) →
        on_cmd_order_put env st pkg params =
          reply_error st pkg 13 "insufficient trading fee") ∧
      (order_put_balance_check env st pkg a = PutCheck.invalid_order (-4) →
        pkg.command = Command.CMD_ORDER_PUT_MARKET ∧ a.side ≠ MARKET_ORDER_SIDE_ASK ∧
        on_cmd_order_put env st pkg params = reply_error st pkg 12 "price out of range") ∧
      ∀ ret, order_put_balance_check env st pkg a = PutCheck.invalid_order ret →
        ret = -1 ∨ ret = -5 ∨ ret = -4) ∧
    (pkg.command = Command.CMD_ORDER_PUT_LIMIT → a.amount < a.market.min_amount →
      ¬ passes_price_tick env st a →
      order_put_balance_check env st pkg a = PutCheck.invalid_order (-1) →
      on_cmd_order_put env st pkg params = reply_error st pkg 11 "invalid amount") := by
  have hfin := order_put_finish_codes env st pkg params "" Json.null
  have hof : ∀ ret, order_put_checks env st pkg a = PutCheck.invalid_order ret →
      on_cmd_order_put env st pkg params = order_put_finish env st pkg params ret "" Json.null :=
    fun ret h => on_cmd_order_put_of_invalid_order env st pkg params a ret hargs h
  have h1 : a.amount < a.market.min_amount →
      on_cmd_order_put env st pkg params = reply_error st pkg 11 "invalid amount" := by
    intro h
    rw [hof (-2) (order_put_checks_amount env st pkg a (fun hp => hp.1 h)), hfin.2.1]
  refine ⟨h1, ?_, ?_, ?_, ?_, ?_, ?_⟩
  · intro _ h
    rw [hof (-2) (order_put_checks_amount env st pkg a (fun hp => h hp.2)), hfin.2.1]
  · intro ha hcmd ht
    rw [hof (-3) (order_put_checks_price_tick env st pkg a ha hcmd ht), hfin.2.2.1]
  · intro ha hcmd ht hr
    rw [hof (-4) (order_put_checks_price_range env st pkg a ha hcmd ht hr), hfin.2.2.2.1]
  · intro ha hp hcmd hm
    rw [hof (-6) (order_put_checks_makers env st pkg a ha hp hcmd hm), hfin.2.2.2.2.2]
  · intro hp
    have hb := order_put_checks_balance env st pkg a hp
    refine ⟨hb, ?_, ?_, ?_, ?_⟩
    · intro h
      rw [hof (-1) (hb.trans h), hfin.1]
    · intro h
      rw [hof (-5) (hb.trans h), hfin.2.2.2.2.1]
    · intro h
      have hcmd : pkg.command = Command.CMD_ORDER_PUT_MARKET := by
        by_contra hne
        exact (order_put_balance_check_codes env st pkg a).2 hne h
      refine ⟨hcmd, ?_, ?_⟩
      · intro hside
        unfold order_put_balance_check at h
        rw [if_pos hside] at h
        cases hbal : env.balance_get st a.user_id BALANCE_TYPE_AVAILABLE a.market.stock with
        | none =>
          rw [hbal] at h
          cases h
        | some balance =>
          rw [hbal] at h
          dsimp only at h
          split_ifs at h
          cases h
      · rw [hof (-4) (hb.trans h), hfin.2.2.2.1]
    · intro ret h
      exact order_put_balance_check_status env st pkg a ret h
  · intro _ h _ _
    exact h1 h

theorem order_put_first_failure_witness :
    order_put_args demoEnv demoEngine (demoPkg Command.CMD_ORDER_PUT_LIMIT)
        (demoLimitParamsOf 3 2 "0.0001" "10000.005") = some demoArgsThreeFaults ∧
    demoArgsThreeFaults.amount < demoArgsThreeFaults.market.min_amount ∧
    ¬ passes_price_tick demoEnv demoEngine demoArgsThreeFaults ∧
    order_put_balance_check demoEnv demoEngine (demoPkg Command.CMD_ORDER_PUT_LIMIT)
        demoArgsThreeFaults = PutCheck.invalid_order (-1) ∧
    on_cmd_order_put demoEnv demoEngine (demoPkg Command.CMD_ORDER_PUT_LIMIT)
        (demoLimitParamsOf 3 2 "0.0001" "10000.005") =
      reply_error demoEngine (demoPkg Command.CMD_ORDER_PUT_LIMIT) 11 "invalid amount" :=
  ⟨by with_unfolding_all rfl, by with_unfolding_all decide,
   by unfold passes_price_tick; with_unfolding_all decide,
   by with_unfolding_all rfl,
   (order_put_first_failure demoEnv demoEngine (demoPkg Command.CMD_ORDER_PUT_LIMIT)
      (demoLimitParamsOf 3 2 "0.0001" "10000.005") demoArgsThreeFaults
      (by with_unfolding_all rfl)).2.2.2.2.2.2 rfl (by with_unfolding_all decide)
      (by unfold passes_price_tick; with_unfolding_all decide) (by with_unfolding_all rfl)⟩
/-! ### AON is validated like LIMIT -/

theorem order_put_args_aon (env : Env) (st : Engine) (pkg : rpc_pkg) (params : Json) :
    order_put_args env st { pkg with command := Command.CMD_ORDER_PUT_AON } params =
      order_put_args env st { pkg with command := Command.CMD_ORDER_PUT_LIMIT } params := by
  with_unfolding_all rfl

theorem order_put_checks_aon (env : Env) (st : Engine) (pkg : rpc_pkg) (a : PutArgs) :
    order_put_checks env st { pkg with command := Command.CMD_ORDER_PUT_AON } a =
      order_put_checks env st { pkg with command := Command.CMD_ORDER_PUT_LIMIT } a := by
  with_unfolding_all rfl

/-- A command that may rest in the book (neither MARKET nor FOK) is never
stopped by the makers-exist check. -/
theorem order_put_checks_ne_no_orders (env : Env) (st : Engine) (pkg : rpc_pkg) (a : PutArgs)
    (hm : pkg.command ≠ Command.CMD_ORDER_PUT_MARKET)
    (hf : pkg.command ≠ Command.CMD_ORDER_PUT_FOK) :
    order_put_checks env st pkg a ≠ PutCheck.invalid_order (-6) := by
  intro h
  have hmc : (decide (pkg.command ≠ Command.CMD_ORDER_PUT_MARKET) &&
      decide (pkg.command ≠ Command.CMD_ORDER_PUT_FOK)) = true := by
    simp [hm, hf]
  unfold order_put_checks at h
  simp only [hmc] at h
  split_ifs at h with h1 h2 h3 h4 h5
  · cases h
  · cases h
  · cases h
  · cases h
  · exact absurd h5.1 (by decide)
  · have hs := order_put_balance_check_status env st pkg a (-6) h
    omega

theorem reply_error_command (st : Engine) (pkg : rpc_pkg) (cmd : Command) (c : Int)
    (m : String) :
    reply_error st { pkg with command := cmd } c m = reply_error st pkg c m := rfl

/-- C30: ORDER_PUT_AON is validated exactly like ORDER_PUT_LIMIT. For every
state, request envelope and parameter array the two commands read the same
arguments and run the same order checks with the same verdict, so both are
rejected with the same reply or both are accepted, in which case they differ in
the placement routine called and in the operlog name only; neither is ever
rejected by validation with code 15, whereas ORDER_PUT_FOK and
ORDER_PUT_MARKET are answered with code 15 when the earlier checks pass and the
opposite side of the book is empty. -/
theorem order_put_aon_as_limit (env : Env) (st : Engine) (pkg : rpc_pkg) (params : Json) :
    order_put_args env st { pkg with command := Command.CMD_ORDER_PUT_AON } params =
      order_put_args env st { pkg with command := Command.CMD_ORDER_PUT_LIMIT } params ∧
    (∀ a, order_put_checks env st { pkg with command := Command.CMD_ORDER_PUT_AON } a =
        order_put_checks env st { pkg with command := Command.CMD_ORDER_PUT_LIMIT } a ∧
      order_put_checks env st { pkg with command := Command.CMD_ORDER_PUT_LIMIT } a ≠
        PutCheck.invalid_order (-6)) ∧
    (rejected_by_validation env st { pkg with command := Command.CMD_ORDER_PUT_AON } params ↔
      rejected_by_validation env st { pkg with command := Command.CMD_ORDER_PUT_LIMIT }
        params) ∧
    (rejected_by_validation env st { pkg with command := Command.CMD_ORDER_PUT_LIMIT } params →
      on_cmd_order_put env st { pkg with command := Command.CMD_ORDER_PUT_AON } params =
        on_cmd_order_put env st { pkg with command := Command.CMD_ORDER_PUT_LIMIT } params ∧
      ∃ c m, on_cmd_order_put env st { pkg with command := Command.CMD_ORDER_PUT_LIMIT }
          params = reply_error st pkg c m ∧ c ≠ 15) ∧
    (∀ a, order_put_args env st { pkg with command := Command.CMD_ORDER_PUT_LIMIT } params =
        some a →
      order_put_checks env st { pkg with command := Command.CMD_ORDER_PUT_LIMIT } a =
        PutCheck.pass →
      on_cmd_order_put env st { pkg with command := Command.CMD_ORDER_PUT_LIMIT } params =
        Outcome.after [Event.market_put_limit_order a.market a.user_id a.side a.amount
            a.price a.taker_fee a.maker_fee a.source]
          (order_put_finish env
            (env.market_put_limit_order st a.market a.user_id a.side a.amount a.price
              a.taker_fee a.maker_fee a.source).state
            { pkg with command := Command.CMD_ORDER_PUT_LIMIT } params
            (env.market_put_limit_order st a.market a.user_id a.side a.amount a.price
              a.taker_fee a.maker_fee a.source).ret "limit_order"
            (env.market_put_limit_order st a.market a.user_id a.side a.amount a.price
              a.taker_fee a.maker_fee a.source).result) ∧
      on_cmd_order_put env st { pkg with command := Command.CMD_ORDER_PUT_AON } params =
        Outcome.after [Event.market_put_aon_order a.market a.user_id a.side a.amount
            a.price a.taker_fee a.maker_fee a.source]
          (order_put_finish env
            (env.market_put_aon_order st a.market a.user_id a.side a.amount a.price
              a.taker_fee a.maker_fee a.source).state
            { pkg with command := Command.CMD_ORDER_PUT_AON } params
            (env.market_put_aon_order st a.market a.user_id a.side a.amount a.price
              a.taker_fee a.maker_fee a.source).ret "aon_order"
            (env.market_put_aon_order st a.market a.user_id a.side a.amount a.price
              a.taker_fee a.maker_fee a.source).result)) ∧
    (∀ cmd a, cmd = Command.CMD_ORDER_PUT_MARKET ∨ cmd = Command.CMD_ORDER_PUT_FOK →
      order_put_args env st { pkg with command := cmd } params = some a →
      passes_amount_checks env st a →
      (cmd ≠ Command.CMD_ORDER_PUT_MARKET →
        passes_price_tick env st a ∧ ¬ price_out_of_range env st a) →
      check_makers_exist a.side a.market = false →
      on_cmd_order_put env st { pkg with command := cmd } params =
        reply_error st pkg 15 "no orders found") := by
  have hargs := order_put_args_aon env st pkg params
  have hchk := order_put_checks_aon env st pkg
  have hne : ∀ a, order_put_checks env st { pkg with command := Command.CMD_ORDER_PUT_LIMIT } a ≠
      PutCheck.invalid_order (-6) := by
    have hLm : Command.CMD_ORDER_PUT_LIMIT ≠ Command.CMD_ORDER_PUT_MARKET := by decide
    have hLf : Command.CMD_ORDER_PUT_LIMIT ≠ Command.CMD_ORDER_PUT_FOK := by decide
    exact fun a => order_put_checks_ne_no_orders env st
      { pkg with command := Command.CMD_ORDER_PUT_LIMIT } a hLm hLf
  have hrej : rejected_by_validation env st { pkg with command := Command.CMD_ORDER_PUT_AON }
        params ↔
      rejected_by_validation env st { pkg with command := Command.CMD_ORDER_PUT_LIMIT }
        params := by
    unfold rejected_by_validation
    rw [hargs]
    constructor
    · rintro (h | ⟨a, ret, ha, hr⟩)
      · exact Or.inl h
      · exact Or.inr ⟨a, ret, ha, (hchk a).symm.trans hr⟩
    · rintro (h | ⟨a, ret, ha, hr⟩)
      · exact Or.inl h
      · exact Or.inr ⟨a, ret, ha, (hchk a).trans hr⟩
  refine ⟨hargs, fun a => ⟨hchk a, hne a⟩, hrej, ?_, ?_, ?_⟩
  · intro h
    rcases h with h | ⟨a, ret, ha, hr⟩
    · have hL := on_cmd_order_put_of_args_none env st
        { pkg with command := Command.CMD_ORDER_PUT_LIMIT } params h
      have hA := on_cmd_order_put_of_args_none env st
        { pkg with command := Command.CMD_ORDER_PUT_AON } params (hargs.trans h)
      refine ⟨hA.trans hL.symm, 1, "invalid argument", hL, by decide⟩
    · have hL := on_cmd_order_put_of_invalid_order env st
        { pkg with command := Command.CMD_ORDER_PUT_LIMIT } params a ret ha hr
      have hA := on_cmd_order_put_of_invalid_order env st
        { pkg with command := Command.CMD_ORDER_PUT_AON } params a ret (hargs.trans ha)
        ((hchk a).trans hr)
      have hfin := order_put_finish_codes env st pkg params "" Json.null
      have hstat := order_put_checks_status env st _ a ret hr
      have hne6 : ret ≠ -6 := fun e => hne a (e ▸ hr)
      refine ⟨hA.trans hL.symm, ?_⟩
      rw [hL]
      rcases hstat with e | e | e | e | e | e
      · exact ⟨10, _, e ▸ hfin.1, by decide⟩
      · exact ⟨11, _, e ▸ hfin.2.1, by decide⟩
      · exact ⟨14, _, e ▸ hfin.2.2.1, by decide⟩
      · exact ⟨12, _, e ▸ hfin.2.2.2.1, by decide⟩
      · exact ⟨13, _, e ▸ hfin.2.2.2.2.1, by decide⟩
      · exact absurd e hne6
  · intro a ha hp
    exact ⟨(on_cmd_order_put_of_pass env st _ params a ha hp).1 rfl,
      (on_cmd_order_put_of_pass env st { pkg with command := Command.CMD_ORDER_PUT_AON }
        params a (hargs.trans ha) ((hchk a).trans hp)).2.1 rfl⟩
  · intro cmd a hcmd ha hamount hprice hmakers
    have hc := order_put_checks_makers env st { pkg with command := cmd } a hamount hprice
      hcmd hmakers
    rw [on_cmd_order_put_of_invalid_order env st { pkg with command := cmd } params a (-6) ha hc]
    exact (order_put_finish_codes env st pkg params "" Json.null).2.2.2.2.2

/-- On the engine of the examples a bid of 0.0001 BTC is rejected alike as AON
and as LIMIT, and a FOK ask meets the empty bid side with code 15. -/
theorem order_put_aon_as_limit_witness :
    on_cmd_order_put demoEnv demoEngine
        { demoPkg Command.CMD_ORDER_PUT_LIMIT with command := Command.CMD_ORDER_PUT_AON }
        (demoLimitParams 2 "0.0001" "10000") =
      on_cmd_order_put demoEnv demoEngine
        { demoPkg Command.CMD_ORDER_PUT_LIMIT with command := Command.CMD_ORDER_PUT_LIMIT }
        (demoLimitParams 2 "0.0001" "10000") ∧
    on_cmd_order_put demoEnv demoEngine
        { demoPkg Command.CMD_ORDER_PUT_LIMIT with command := Command.CMD_ORDER_PUT_FOK }
        (demoFokParams 1 "1" "10000") =
      reply_error demoEngine (demoPkg Command.CMD_ORDER_PUT_LIMIT) 15 "no orders found" :=
  ⟨((order_put_aon_as_limit demoEnv demoEngine (demoPkg Command.CMD_ORDER_PUT_LIMIT)
      (demoLimitParams 2 "0.0001" "10000")).2.2.2.1
      (Or.inr ⟨demoArgs 2 (1 / 10000) 10000 (1 / 1000), -2, by with_unfolding_all rfl,
        by with_unfolding_all rfl⟩)).1,
   (order_put_aon_as_limit demoEnv demoEngine (demoPkg Command.CMD_ORDER_PUT_LIMIT)
      (demoFokParams 1 "1" "10000")).2.2.2.2.2 Command.CMD_ORDER_PUT_FOK
      { user_id := 1, market := demoMarket, side := 1, amount := 1, price := 10000,
        taker_fee := 1 / 1000, maker_fee := 0, source := "web" }
      (Or.inr rfl) (by with_unfolding_all rfl)
      (by unfold passes_amount_checks; with_unfolding_all decide)
      (fun _ => ⟨by unfold passes_price_tick; with_unfolding_all decide,
        by unfold price_out_of_range; with_unfolding_all decide⟩)
      (by with_unfolding_all rfl)⟩

/-! ### Balance queries: the unit of an asset -/

theorem json_members_get_set_same (kvs : List (String × Json)) (key : String) (value : Json) :
    json_members_get (json_object_set kvs key value) key = some value := by
  induction kvs with
  | nil => simp [json_object_set, json_members_get]
  | cons kv rest ih =>
    obtain ⟨k, v⟩ := kv
    unfold json_object_set
    by_cases h : k = key
    · rw [if_pos h]
      simp [json_members_get]
    · rw [if_neg h]
      simp only [json_members_get, if_neg h]
      exact ih

theorem json_members_get_set_other (kvs : List (String × Json)) (key other : String)
    (value : Json) (hne : other ≠ key) :
    json_members_get (json_object_set kvs key value) other = json_members_get kvs other := by
  induction kvs with
  | nil =>
    have h : ¬ key = other := fun e => hne e.symm
    simp [json_object_set, json_members_get, h]
  | cons kv rest ih =>
    obtain ⟨k, v⟩ := kv
    unfold json_object_set
    by_cases h : k = key
    · have h2 : ¬ k = other := fun e => hne (e.symm.trans h)
      have h3 : ¬ key = other := fun e => hne e.symm
      rw [if_pos h]
      simp [json_members_get, h2, h3]
    · rw [if_neg h]
      by_cases h2 : k = other
      · simp [json_members_get, h2]
      · simp only [json_members_get, if_neg h2]
        exact ih

/-- The market fields added to a unit leave `available`, `freeze` and `total`
as they are. -/
theorem balance_market_fields_get (env : Env) (st : Engine) (asset : String) (prec_show : Int)
    (total : Dec) (unit : List (String × Json)) (key : String)
    (h1 : key ≠ "value") (h2 : key ≠ "last_price") (h3 : key ≠ "closing_price") :
    json_members_get (balance_market_fields env st asset prec_show total unit) key =
      json_members_get unit key := by
  unfold balance_market_fields
  cases env.get_market st asset with
  | none => rfl
  | some m =>
    simp only
    rw [json_members_get_set_other _ _ _ _ h3, json_members_get_set_other _ _ _ _ h2,
      json_members_get_set_other _ _ _ _ h1]

theorem balance_show_eq (env : Env) (prec_save prec_show : Int) (balance : Option Dec) :
    balance_show env prec_save prec_show balance =
      match balance with
      | some _ => json_mpd env (balance_shown env prec_save prec_show balance)
      | none => Json.string "0" := by
  cases balance with
  | none => rfl
  | some x =>
    unfold balance_show balance_shown
    split_ifs <;> rfl

/-- The three amounts of the unit of the named-assets form. -/
theorem balance_unit_named_fields (env : Env) (st : Engine) (user_id : Nat) (asset : String) :
    json_object_get (balance_unit_named env st user_id asset) "available" =
      some (balance_show env (env.asset_prec st asset) (env.asset_prec_show st asset)
        (env.balance_get st user_id BALANCE_TYPE_AVAILABLE asset)) ∧
    json_object_get (balance_unit_named env st user_id asset) "freeze" =
      some (balance_show env (env.asset_prec st asset) (env.asset_prec_show st asset)
        (env.balance_get st user_id BALANCE_TYPE_FREEZE asset)) ∧
    json_object_get (balance_unit_named env st user_id asset) "total" =
      some (json_mpd env (balance_total
        (env.balance_get st user_id BALANCE_TYPE_AVAILABLE asset)
        (env.balance_get st user_id BALANCE_TYPE_FREEZE asset))) := by
  unfold balance_unit_named json_object_get
  simp only
  refine ⟨?_, ?_, ?_⟩
  · rw [balance_market_fields_get _ _ _ _ _ _ _ (by decide) (by decide) (by decide)]
    rw [json_members_get_set_other _ _ _ _ (by decide),
      json_members_get_set_other _ _ _ _ (by decide), json_members_get_set_same]
  · rw [balance_market_fields_get _ _ _ _ _ _ _ (by decide) (by decide) (by decide)]
    rw [json_members_get_set_other _ _ _ _ (by decide), json_members_get_set_same]
  · rw [balance_market_fields_get _ _ _ _ _ _ _ (by decide) (by decide) (by decide)]
    rw [json_members_get_set_same]
    cases env.balance_get st user_id BALANCE_TYPE_AVAILABLE asset <;>
      cases env.balance_get st user_id BALANCE_TYPE_FREEZE asset <;>
      simp [balance_total]

/-- The three amounts of the unit of the all-assets form, when there is one. -/
theorem balance_unit_all_fields (env : Env) (st : Engine) (user_id : Nat) (asset : String)
    (unit : Json) (h : balance_unit_all env st user_id asset = some unit) :
    json_object_get unit "available" =
      some (balance_show env (env.asset_prec st asset) (env.asset_prec_show st asset)
        (env.balance_get st user_id BALANCE_TYPE_AVAILABLE asset)) ∧
    json_object_get unit "freeze" =
      some (balance_show env (env.asset_prec st asset) (env.asset_prec_show st asset)
        (env.balance_get st user_id BALANCE_TYPE_FREEZE asset)) ∧
    json_object_get unit "total" =
      some (json_mpd env (balance_total
        (env.balance_get st user_id BALANCE_TYPE_AVAILABLE asset)
        (env.balance_get st user_id BALANCE_TYPE_FREEZE asset))) := by
  unfold balance_unit_all at h
  simp only at h
  split_ifs at h with hboth
  cases h
  unfold json_object_get
  simp only
  refine ⟨?_, ?_, ?_⟩
  · rw [balance_market_fields_get _ _ _ _ _ _ _ (by decide) (by decide) (by decide)]
    rw [json_members_get_set_other _ _ _ _ (by decide),
      json_members_get_set_other _ _ _ _ (by decide), json_members_get_set_same]
  · rw [balance_market_fields_get _ _ _ _ _ _ _ (by decide) (by decide) (by decide)]
    rw [json_members_get_set_other _ _ _ _ (by decide), json_members_get_set_same]
  · rw [balance_market_fields_get _ _ _ _ _ _ _ (by decide) (by decide) (by decide)]
    rw [json_members_get_set_same]
    rfl

/-- With equal precisions nothing is rescaled, and the reported total is the
sum of the reported available and freeze. -/
theorem balance_total_of_prec_eq (env : Env) (prec : Int) (available freeze : Option Dec) :
    balance_total available freeze =
      balance_shown env prec prec available + balance_shown env prec prec freeze := by
  cases available <;> cases freeze <;> simp [balance_total, balance_shown]

/-- The named-assets loop stops at the first parameter that is not the name of
an existing asset. -/
theorem balance_query_named_none (env : Env) (st : Engine) (user_id : Nat) (names : List Json)
    (result : List (String × Json))
    (h : ∃ j ∈ names, ∀ s, json_string_value (some j) = some s → env.asset_exist st s = false) :
    balance_query_named env st user_id names result = none := by
  induction names generalizing result with
  | nil =>
    obtain ⟨j, hj, _⟩ := h
    cases hj
  | cons x rest ih =>
    unfold balance_query_named
    rcases Option.eq_none_or_eq_some (json_string_value (some x)) with hx | ⟨s, hx⟩
    · simp only [hx]
    · simp only [hx]
      by_cases hex : env.asset_exist st s = false
      · rw [if_pos hex]
      · rw [if_neg hex]
        apply ih
        obtain ⟨j, hj, hbad⟩ := h
        rcases List.mem_cons.mp hj with e | hmem
        · subst e
          exact absurd (hbad s hx) hex
        · exact ⟨j, hmem, hbad⟩

/-- When every parameter names an existing asset the loop ends with an object
that holds, under each name, the unit of that asset. -/
theorem balance_query_named_some (env : Env) (st : Engine) (user_id : Nat) (names : List Json)
    (result : List (String × Json))
    (h : ∀ j ∈ names, ∃ s, j = Json.string s ∧ env.asset_exist st s = true) :
    ∃ res, balance_query_named env st user_id names result = some res ∧
      (∀ s, Json.string s ∈ names →
        json_members_get res s = some (balance_unit_named env st user_id s)) ∧
      (∀ s, Json.string s ∉ names → json_members_get res s = json_members_get result s) := by
  induction names generalizing result with
  | nil =>
    refine ⟨result, rfl, ?_, ?_⟩
    · intro s hs
      cases hs
    · intro s _
      rfl
  | cons x rest ih =>
    obtain ⟨s0, hx, hex⟩ := h x (List.mem_cons_self _ _)
    subst hx
    obtain ⟨res, hres, hin, hout⟩ :=
      ih (json_object_set result s0 (balance_unit_named env st user_id s0))
        (fun j hj => h j (List.mem_cons_of_mem _ hj))
    refine ⟨res, ?_, ?_, ?_⟩
    · unfold balance_query_named
      simp only [json_string_value, hex, Bool.true_eq_false, if_false]
      exact hres
    · intro s hs
      by_cases hmem : Json.string s ∈ rest
      · exact hin s hmem
      · rcases List.mem_cons.mp hs with e | hmem2
        · have e2 : s = s0 := by
            injection e
          subst e2
          rw [hout s hmem, json_members_get_set_same]
        · exact absurd hmem2 hmem
    · intro s hs
      have hne : s ≠ s0 := by
        intro e
        subst e
        exact hs (List.mem_cons_self _ _)
      have hmem : Json.string s ∉ rest := fun hm => hs (List.mem_cons_of_mem _ hm)
      rw [hout s hmem, json_members_get_set_other _ _ _ _ hne]

/-- The named-assets form of `on_cmd_balance_query` runs the named loop on the
parameters after the user id. -/
theorem on_cmd_balance_query_named (env : Env) (st : Engine) (pkg : rpc_pkg) (user_id : Nat)
    (names : List Json) (huser0 : 0 < user_id) (huser : user_id < 4294967296)
    (hnames : names ≠ []) :
    on_cmd_balance_query env st pkg (Json.array (Json.integer user_id :: names)) =
      match balance_query_named env st user_id names [] with
      | none => reply_error st pkg 1 "invalid argument"
      | some result => reply_result st pkg (Json.object result) := by
  have hu := to_uint32_of_lt user_id huser
  have hlen : ¬ names.length + 1 < 1 := by omega
  have hlen1 : ¬ names.length + 1 = 1 := by
    intro e
    exact hnames (List.length_eq_zero.mp (by omega))
  have hne0 : ¬ user_id = 0 := by omega
  unfold on_cmd_balance_query
  simp only [json_array_size, List.length_cons, hlen, if_false, json_array_get,
    List.get?_cons_zero, json_is_integer, Bool.true_eq_false, json_integer_value, hu, hne0,
    hlen1, json_array_elems, List.drop_succ_cons, List.drop_zero,
    reply_error_invalid_argument]

/-- C24: in a BALANCE_QUERY that names its assets (a user id from 1 to 2^32 - 1
followed by at least one name), when every name is an existing asset the result
holds under each name a unit in which a missing AVAILABLE entry is reported as
available "0", a missing FREEZE entry as freeze "0", and total is the sum of
the entries that exist, a missing one counting 0, so that a user without
entries gets available "0", freeze "0" and the total of zero; when a parameter
is not the name of an existing asset the reply is code 1 "invalid argument"
and nothing else. -/
theorem balance_query_named_absent (env : Env) (st : Engine) (pkg : rpc_pkg) (user_id : Nat)
    (names : List Json) (huser0 : 0 < user_id) (huser : user_id < 4294967296)
    (hnames : names ≠ []) :
    ((∀ j ∈ names, ∃ s, j = Json.string s ∧ env.asset_exist st s = true) →
      ∃ result,
        on_cmd_balance_query env st pkg (Json.array (Json.integer user_id :: names)) =
          reply_result st pkg result ∧
        ∀ asset, Json.string asset ∈ names →
          ∃ unit, json_object_get result asset = some unit ∧
            (env.balance_get st user_id BALANCE_TYPE_AVAILABLE asset = none →
              json_object_get unit "available" = some (Json.string "0")) ∧
            (env.balance_get st user_id BALANCE_TYPE_FREEZE asset = none →
              json_object_get unit "freeze" = some (Json.string "0")) ∧
            json_object_get unit "total" =
              some (json_mpd env
                ((env.balance_get st user_id BALANCE_TYPE_AVAILABLE asset).getD 0 +
                  (env.balance_get st user_id BALANCE_TYPE_FREEZE asset).getD 0)) ∧
            (env.balance_get st user_id BALANCE_TYPE_AVAILABLE asset = none →
              env.balance_get st user_id BALANCE_TYPE_FREEZE asset = none →
              json_object_get unit "total" = some (json_mpd env 0))) ∧
    ((∃ j ∈ names, ∀ s, json_string_value (some j) = some s → env.asset_exist st s = false) →
      on_cmd_balance_query env st pkg (Json.array (Json.integer user_id :: names)) =
        reply_error st pkg 1 "invalid argument") := by
  have hq := on_cmd_balance_query_named env st pkg user_id names huser0 huser hnames
  constructor
  · intro hall
    obtain ⟨res, hres, hin, _⟩ := balance_query_named_some env st user_id names [] hall
    refine ⟨Json.object res, ?_, ?_⟩
    · rw [hq, hres]
    · intro asset hasset
      have hf := balance_unit_named_fields env st user_id asset
      refine ⟨balance_unit_named env st user_id asset, hin asset hasset, ?_, ?_, hf.2.2, ?_⟩
      · intro hnone
        rw [hf.1, hnone]
        rfl
      · intro hnone
        rw [hf.2.1, hnone]
        rfl
      · intro ha hfz
        rw [hf.2.2, ha, hfz]
        simp [balance_total]
  · intro hbad
    rw [hq, balance_query_named_none env st user_id names [] hbad]

/-- On the engine of the examples user 2 has no USD entry: the unit shows "0"
three times; and naming the unknown asset XYZ gives code 1. -/
theorem balance_query_named_absent_witness :
    on_cmd_balance_query demoEnvDepth demoEngine (demoPkg Command.CMD_BALANCE_QUERY)
        (Json.array [Json.integer 2, Json.string "USD"]) =
      reply_result demoEngine (demoPkg Command.CMD_BALANCE_QUERY)
        (Json.object [("USD", Json.object [("available", Json.string "0"),
          ("freeze", Json.string "0"), ("total", Json.string "0")])]) ∧
    on_cmd_balance_query demoEnvDepth demoEngine (demoPkg Command.CMD_BALANCE_QUERY)
        (Json.array [Json.integer 2, Json.string "USD", Json.string "XYZ"]) =
      reply_error demoEngine (demoPkg Command.CMD_BALANCE_QUERY) 1 "invalid argument" :=
  ⟨by with_unfolding_all rfl,
   (balance_query_named_absent demoEnvDepth demoEngine (demoPkg Command.CMD_BALANCE_QUERY) 2
      [Json.string "USD", Json.string "XYZ"] (by decide) (by decide) (by simp)).2
      ⟨Json.string "XYZ", by simp, fun s hs => by
        have e : s = "XYZ" := by
          simp only [json_string_value, Option.some.injEq] at hs
          exact hs.symm
        subst e
        with_unfolding_all rfl⟩⟩

/-! ### Balance queries: the total of a unit -/

/-- The rounding of the examples: 1.004 and 0.004 shown with two digits are
1 and 0, and their sum 1.008 would be shown as 1.01. -/
theorem demo_rescale_values :
    mpd_rescale_model (251 / 250) (-2) = 1 ∧ mpd_rescale_model (1 / 250) (-2) = 0 ∧
    mpd_rescale_model (126 / 125) (-2) = 101 / 100 := by
  refine ⟨?_, ?_, ?_⟩ <;> with_unfolding_all rfl

/-- What the balance queries of the examples read from the state: ETH is
stored with 3 digits and shown with 2, names no market, and user 1 holds
1.004 ETH available and 0.004 ETH frozen. -/
theorem demo_round_reads (sci : Dec → String) :
    (demoEnvRound sci).asset_exist demoEngineRound "ETH" = true ∧
    (demoEnvRound sci).asset_prec demoEngineRound "ETH" = 3 ∧
    (demoEnvRound sci).asset_prec_show demoEngineRound "ETH" = 2 ∧
    (demoEnvRound sci).balance_get demoEngineRound 1 BALANCE_TYPE_AVAILABLE "ETH" =
      some (251 / 250) ∧
    (demoEnvRound sci).balance_get demoEngineRound 1 BALANCE_TYPE_FREEZE "ETH" =
      some (1 / 250) ∧
    (demoEnvRound sci).get_market demoEngineRound "ETH" = none ∧
    (demoEnvRound sci).mpd_rescale = mpd_rescale_model ∧
    (demoEnvRound sci).mpd_to_sci = sci ∧
    demoEngineRound.settings.assets =
      [{ name := "ETH", prec_save := 3, prec_show := 2, tick_size := 1 / 1000 }] := by
  refine ⟨?_, ?_, ?_, ?_, ?_, ?_, rfl, rfl, rfl⟩ <;> with_unfolding_all rfl

theorem demo_round_unit_named (sci : Dec → String) :
    balance_unit_named (demoEnvRound sci) demoEngineRound 1 "ETH" =
      Json.object [("available", Json.string (sci 1)), ("freeze", Json.string (sci 0)),
        ("total", Json.string (sci (126 / 125)))] := by
  obtain ⟨_, hp, hs, ha, hf, hm, hr, hsci, _⟩ := demo_round_reads sci
  have hne : ¬ (3 : Int) = 2 := by decide
  have hsum : (0 : Dec) + 251 / 250 + 1 / 250 = 126 / 125 := by norm_num
  unfold balance_unit_named balance_market_fields balance_show json_mpd
  simp only [hp, hs, ha, hf, hm, hr, hsci, ne_eq, hne, not_false_eq_true, if_true,
    demo_rescale_values.1, demo_rescale_values.2.1, hsum]
  simp [json_object_set]

theorem demo_round_unit_all (sci : Dec → String) :
    balance_unit_all (demoEnvRound sci) demoEngineRound 1 "ETH" =
      some (Json.object [("available", Json.string (sci 1)), ("freeze", Json.string (sci 0)),
        ("total", Json.string (sci (126 / 125)))]) := by
  obtain ⟨_, hp, hs, ha, hf, hm, hr, hsci, _⟩ := demo_round_reads sci
  have hne : ¬ (3 : Int) = 2 := by decide
  have hsum : (251 : Dec) / 250 + 1 / 250 = 126 / 125 := by norm_num
  unfold balance_unit_all balance_market_fields balance_show json_mpd
  simp only [hp, hs, ha, hf, hm, hr, hsci, ne_eq, hne, not_false_eq_true, if_true,
    demo_rescale_values.1, demo_rescale_values.2.1, Option.isNone_some, Bool.false_eq_true,
    false_and, if_false, Option.getD_some, hsum]
  simp [json_object_set]

/-- C23 on the failing input: ETH is stored with 3 digits and shown with 2,
and user 1 holds 1.004 ETH available and 0.004 ETH frozen. In both forms of
BALANCE_QUERY the unit reports available 1 and freeze 0, rescaled to the
display precision, next to the total 1.008 of the stored values: the reported
total is not the sum of the reported available and freeze. -/
theorem balance_query_total_mismatch (sci : Dec → String) :
    on_cmd_balance_query (demoEnvRound sci) demoEngineRound
        (demoPkg Command.CMD_BALANCE_QUERY) (Json.array [Json.integer 1, Json.string "ETH"]) =
      reply_result demoEngineRound (demoPkg Command.CMD_BALANCE_QUERY)
        (Json.object [("ETH", Json.object [("available", Json.string (sci 1)),
          ("freeze", Json.string (sci 0)), ("total", Json.string (sci (126 / 125)))])]) ∧
    on_cmd_balance_query (demoEnvRound sci) demoEngineRound
        (demoPkg Command.CMD_BALANCE_QUERY) (Json.array [Json.integer 1]) =
      reply_result demoEngineRound (demoPkg Command.CMD_BALANCE_QUERY)
        (Json.object [("ETH", Json.object [("available", Json.string (sci 1)),
          ("freeze", Json.string (sci 0)), ("total", Json.string (sci (126 / 125)))])]) ∧
    balance_shown (demoEnvRound sci) 3 2 (some (251 / 250)) = 1 ∧
    balance_shown (demoEnvRound sci) 3 2 (some (1 / 250)) = 0 ∧
    balance_total (some (251 / 250)) (some (1 / 250)) = 126 / 125 ∧
    balance_total (some (251 / 250)) (some (1 / 250)) ≠
      balance_shown (demoEnvRound sci) 3 2 (some (251 / 250)) +
        balance_shown (demoEnvRound sci) 3 2 (some (1 / 250)) := by
  have h1 : balance_shown (demoEnvRound sci) 3 2 (some (251 / 250)) = 1 := by
    with_unfolding_all rfl
  have h2 : balance_shown (demoEnvRound sci) 3 2 (some (1 / 250)) = 0 := by
    with_unfolding_all rfl
  have h3 : balance_total (some (251 / 250)) (some (1 / 250)) = 126 / 125 := by
    with_unfolding_all rfl
  obtain ⟨hex, _, _, _, _, _, _, _, hassets⟩ := demo_round_reads sci
  refine ⟨?_, ?_, h1, h2, h3, ?_⟩
  · have hq := on_cmd_balance_query_named (demoEnvRound sci) demoEngineRound
      (demoPkg Command.CMD_BALANCE_QUERY) 1 [Json.string "ETH"] (by decide) (by decide)
      (by simp)
    have hloop : balance_query_named (demoEnvRound sci) demoEngineRound 1
        [Json.string "ETH"] [] =
        some [("ETH", Json.object [("available", Json.string (sci 1)),
          ("freeze", Json.string (sci 0)), ("total", Json.string (sci (126 / 125)))])] := by
      simp only [balance_query_named, json_string_value, hex, Bool.true_eq_false, if_false,
        demo_round_unit_named, json_object_set]
    rw [hloop] at hq
    exact hq
  · have hloop : balance_query_all (demoEnvRound sci) demoEngineRound 1
        demoEngineRound.settings.assets [] =
        [("ETH", Json.object [("available", Json.string (sci 1)),
          ("freeze", Json.string (sci 0)), ("total", Json.string (sci (126 / 125)))])] := by
      rw [hassets]
      simp only [balance_query_all, demo_round_unit_all, json_object_set]
    unfold on_cmd_balance_query
    simp only [json_array_size, List.length_cons, List.length_nil, json_array_get,
      List.get?_cons_zero, json_is_integer, json_integer_value]
    simp [to_uint32]
    rw [hloop]
  · rw [h1, h2, h3]
    norm_num

/-! ### The first ask of a MARKET bid -/

theorem order_put_finish_no_null_deref (env : Env) (st : Engine) (pkg : rpc_pkg) (params : Json)
    (ret : Int) (oper : String) (result : Json) :
    ∀ e ∈ (order_put_finish env st pkg params ret oper result).trace,
      e.is_null_deref = false := by
  intro e he
  unfold order_put_finish at he
  split_ifs at he <;>
    simp only [reply_error_internal_error, reply_error, reply_result, reply_json, Outcome.after,
      List.singleton_append, List.mem_cons, List.mem_singleton, List.not_mem_nil,
      or_false] at he
  all_goals
    first
    | (subst he; rfl)
    | (rcases he with he | he <;> subst he <;> rfl)

/-- The third branch of the balance check is taken exactly for a MARKET
request whose side is not ASK, and it reads through a null pointer exactly when
it is taken on an empty ask side. -/
theorem order_put_balance_check_null_deref (env : Env) (st : Engine) (pkg : rpc_pkg)
    (a : PutArgs) :
    order_put_balance_check env st pkg a = PutCheck.null_deref ↔
      reads_first_ask pkg a ∧ a.market.asks = [] := by
  unfold reads_first_ask order_put_balance_check
  by_cases h6 : a.side = MARKET_ORDER_SIDE_ASK
  · simp only [h6, if_true, ne_eq, not_true_eq_false, false_and, iff_false]
    cases env.balance_get st a.user_id BALANCE_TYPE_AVAILABLE a.market.stock with
    | none => simp
    | some b =>
      simp only
      split_ifs <;> simp
  · by_cases h7 : pkg.command = Command.CMD_ORDER_PUT_MARKET
    · simp only [h6, if_false, h7, ne_eq, not_true_eq_false, decide_False,
        Bool.false_eq_true, not_false_eq_true, and_self, true_and]
      cases a.market.asks with
      | nil => simp
      | cons order rest =>
        simp only
        split_ifs <;> simp
    · simp only [h6, if_false, h7, ne_eq, not_false_eq_true, decide_True, if_true, and_false,
        false_and, iff_false]
      cases env.balance_get st a.user_id BALANCE_TYPE_AVAILABLE a.market.money with
      | none => simp
      | some b =>
        simp only
        split_ifs <;> simp

theorem on_cmd_order_put_no_null_deref (env : Env) (st : Engine) (pkg : rpc_pkg)
    (params : Json) :
    ∀ e ∈ (on_cmd_order_put env st pkg params).trace, e.is_null_deref = false := by
  intro e he
  unfold on_cmd_order_put at he
  cases hargs : order_put_args env st pkg params with
  | none =>
    simp [hargs, reply_error_invalid_argument, reply_error, reply_json] at he
    subst he
    rfl
  | some a =>
    simp only [hargs] at he
    cases hchk : order_put_checks env st pkg a with
    | null_deref => exact absurd hchk (order_put_checks_ne_null_deref env st pkg a)
    | invalid_order ret =>
      simp only [hchk] at he
      exact order_put_finish_no_null_deref env st pkg params ret _ _ e he
    | pass =>
      simp only [hchk] at he
      cases hcmd : pkg.command <;> simp only [hcmd] at he <;>
        first
        | (simp [reply_error_invalid_argument, reply_error, reply_json] at he
           subst he
           rfl)
        | (simp only [Outcome.after, List.singleton_append, List.mem_cons] at he
           rcases he with he | he
           · subst he
             rfl
           · exact order_put_finish_no_null_deref _ _ _ _ _ _ _ e he)

/-- C31: the branch of `on_cmd_order_put` that reads `node->value` of the first
ask is taken only for ORDER_PUT_MARKET with a side other than ASK, which is BID
for arguments that passed validation; whenever the checks before it let the
request through, `check_makers_exist` has found a first ask, so the ask side is
not empty, the checks never read through a null pointer, and no run of the
handler does. -/
theorem order_put_first_ask_exists (env : Env) (st : Engine) (pkg : rpc_pkg) (params : Json)
    (a : PutArgs) :
    (order_put_balance_check env st pkg a = PutCheck.null_deref ↔
      reads_first_ask pkg a ∧ a.market.asks = []) ∧
    (order_put_args env st pkg params = some a → reads_first_ask pkg a →
      pkg.command = Command.CMD_ORDER_PUT_MARKET ∧ a.side = MARKET_ORDER_SIDE_BID) ∧
    (passes_until_balance env st pkg a → reads_first_ask pkg a →
      check_makers_exist a.side a.market = true ∧
      ∃ order rest, a.market.asks = order :: rest) ∧
    order_put_checks env st pkg a ≠ PutCheck.null_deref ∧
    ∀ e ∈ (on_cmd_order_put env st pkg params).trace, e.is_null_deref = false := by
  refine ⟨order_put_balance_check_null_deref env st pkg a, ?_, ?_,
    order_put_checks_ne_null_deref env st pkg a,
    on_cmd_order_put_no_null_deref env st pkg params⟩
  · intro hargs hread
    refine ⟨hread.2, ?_⟩
    rcases (order_put_args_some env st pkg params a hargs).2.2.2.1.2.2 with h | h
    · exact absurd h hread.1
    · exact h
  · intro hpass hread
    have hmakers : check_makers_exist a.side a.market = true := hpass.2.2 (Or.inl hread.2)
    refine ⟨hmakers, ?_⟩
    unfold check_makers_exist at hmakers
    simp only [hread.1, if_false] at hmakers
    cases hasks : a.market.asks with
    | nil => simp [hasks] at hmakers
    | cons order rest => exact ⟨order, rest, rfl⟩

/-- On the engine of the examples a MARKET bid of user 1 takes the branch with
the resting ask of user 2 in front of it. -/
theorem order_put_first_ask_exists_witness :
    reads_first_ask (demoPkg Command.CMD_ORDER_PUT_MARKET) (demoMarketArgs 2 1) ∧
    passes_until_balance demoEnv demoEngineTotal (demoPkg Command.CMD_ORDER_PUT_MARKET)
      (demoMarketArgs 2 1) ∧
    ∃ order rest, (demoMarketArgs 2 1).market.asks = order :: rest :=
  have hread : reads_first_ask (demoPkg Command.CMD_ORDER_PUT_MARKET) (demoMarketArgs 2 1) :=
    ⟨by decide, rfl⟩
  have hpass : passes_until_balance demoEnv demoEngineTotal (demoPkg Command.CMD_ORDER_PUT_MARKET)
      (demoMarketArgs 2 1) := by
    refine ⟨by unfold passes_amount_checks; with_unfolding_all decide, ?_, ?_⟩
    · intro h
      exact absurd rfl h
    · intro _
      with_unfolding_all rfl
  ⟨hread, hpass,
    ((order_put_first_ask_exists demoEnv demoEngineTotal (demoPkg Command.CMD_ORDER_PUT_MARKET)
      (demoMarketParams 2 "1") (demoMarketArgs 2 1)).2.2.1 hpass hread).2⟩
/-! ### MARKET bids and the balances -/

/-- Argument validation reads the state through `get_market` only. -/
theorem order_put_args_frame (env : Env) (st1 st2 : Engine) (pkg : rpc_pkg) (params : Json)
    (hgm : env.get_market st2 = env.get_market st1) :
    order_put_args env st2 pkg params = order_put_args env st1 pkg params := by
  unfold order_put_args
  rw [hgm]

/-- The order checks of a MARKET request with a side other than ASK read the
state through `asset_tick_size` only. -/
theorem order_put_checks_market_bid_frame (env : Env) (st1 st2 : Engine) (pkg : rpc_pkg)
    (a : PutArgs) (hcmd : pkg.command = Command.CMD_ORDER_PUT_MARKET)
    (hside : a.side ≠ MARKET_ORDER_SIDE_ASK)
    (htick : env.asset_tick_size st2 = env.asset_tick_size st1) :
    order_put_checks env st2 pkg a = order_put_checks env st1 pkg a := by
  unfold order_put_checks order_put_balance_check
  simp only [hcmd, ne_eq, not_true_eq_false, decide_False, Bool.false_eq_true, false_and,
    if_false, Bool.false_and, true_and, hside, htick]

/-- The order checks of a MARKET request with a side other than ASK never end
with the status of an insufficient balance or of an insufficient fee. -/
theorem order_put_checks_market_bid_status (env : Env) (st : Engine) (pkg : rpc_pkg)
    (a : PutArgs) (hcmd : pkg.command = Command.CMD_ORDER_PUT_MARKET)
    (hside : a.side ≠ MARKET_ORDER_SIDE_ASK) (ret : Int)
    (h : order_put_checks env st pkg a = PutCheck.invalid_order ret) :
    ret = -2 ∨ ret = -4 ∨ ret = -6 := by
  unfold order_put_checks order_put_balance_check at h
  simp only [hcmd, ne_eq, not_true_eq_false, decide_False, Bool.false_eq_true, false_and,
    if_false, Bool.false_and, true_and, hside] at h
  split_ifs at h
  all_goals
    first
    | (cases h
       decide)
    | (cases hasks : a.market.asks with
       | nil =>
         rw [hasks] at h
         cases h
       | cons order rest =>
         rw [hasks] at h
         simp only at h
         split_ifs at h
         cases h
         decide)

/-- C32: for ORDER_PUT_MARKET with side BID the verdict of the validation of
`on_cmd_order_put` does not depend on the balances. In two states that differ
in their balance entries only, and in which the market and tick-size lookups
therefore agree, the request is read to the same arguments and the order checks
end alike: it is rejected by validation in both states or in neither, a
rejection is the same error reply in both, and its code is never 10 nor 13. -/
theorem order_put_market_bid_balances (env : Env) (st : Engine)
    (balances : List balance_entry) (pkg : rpc_pkg) (params : Json)
    (hcmd : pkg.command = Command.CMD_ORDER_PUT_MARKET)
    (htables : same_tables env st { st with balances := balances })
    (hside : ∀ a, order_put_args env st pkg params = some a →
      a.side = MARKET_ORDER_SIDE_BID) :
    order_put_args env { st with balances := balances } pkg params =
      order_put_args env st pkg params ∧
    (∀ a, order_put_args env st pkg params = some a →
      order_put_checks env { st with balances := balances } pkg a =
        order_put_checks env st pkg a ∧
      order_put_checks env st pkg a ≠ PutCheck.invalid_order (-1) ∧
      order_put_checks env st pkg a ≠ PutCheck.invalid_order (-5)) ∧
    (rejected_by_validation env { st with balances := balances } pkg params ↔
      rejected_by_validation env st pkg params) ∧
    (rejected_by_validation env st pkg params →
      ∃ c m, on_cmd_order_put env st pkg params = reply_error st pkg c m ∧
        on_cmd_order_put env { st with balances := balances } pkg params =
          reply_error { st with balances := balances } pkg c m ∧
        c ≠ 10 ∧ c ≠ 13) := by
  have hargs := order_put_args_frame env st { st with balances := balances } pkg params
    htables.1
  have hne : ∀ a, order_put_args env st pkg params = some a →
      a.side ≠ MARKET_ORDER_SIDE_ASK := by
    intro a ha
    rw [hside a ha]
    decide
  have hchk : ∀ a, order_put_args env st pkg params = some a →
      order_put_checks env { st with balances := balances } pkg a =
        order_put_checks env st pkg a := fun a ha =>
    order_put_checks_market_bid_frame env st { st with balances := balances } pkg a hcmd
      (hne a ha) htables.2
  have hstat : ∀ a ret, order_put_args env st pkg params = some a →
      order_put_checks env st pkg a = PutCheck.invalid_order ret →
      ret = -2 ∨ ret = -4 ∨ ret = -6 := fun a ret ha h =>
    order_put_checks_market_bid_status env st pkg a hcmd (hne a ha) ret h
  refine ⟨hargs, ?_, ?_, ?_⟩
  · intro a ha
    refine ⟨hchk a ha, ?_, ?_⟩
    · intro h
      have := hstat a (-1) ha h
      omega
    · intro h
      have := hstat a (-5) ha h
      omega
  · unfold rejected_by_validation
    rw [hargs]
    constructor
    · rintro (h | ⟨a, ret, ha, hr⟩)
      · exact Or.inl h
      · exact Or.inr ⟨a, ret, ha, (hchk a ha).symm.trans hr⟩
    · rintro (h | ⟨a, ret, ha, hr⟩)
      · exact Or.inl h
      · exact Or.inr ⟨a, ret, ha, (hchk a ha).trans hr⟩
  · rintro (h | ⟨a, ret, ha, hr⟩)
    · refine ⟨1, "invalid argument", on_cmd_order_put_of_args_none env st pkg params h,
        on_cmd_order_put_of_args_none env _ pkg params (hargs.trans h), by decide, by decide⟩
    · have h1 := on_cmd_order_put_of_invalid_order env st pkg params a ret ha hr
      have h2 := on_cmd_order_put_of_invalid_order env { st with balances := balances } pkg
        params a ret (hargs.trans ha) ((hchk a ha).trans hr)
      have hf1 := order_put_finish_codes env st pkg params "" Json.null
      have hf2 := order_put_finish_codes env { st with balances := balances } pkg params ""
        Json.null
      rw [h1, h2]
      rcases hstat a ret ha hr with e | e | e
      · subst e
        exact ⟨11, _, hf1.2.1, hf2.2.1, by decide, by decide⟩
      · subst e
        exact ⟨12, _, hf1.2.2.2.1, hf2.2.2.2.1, by decide, by decide⟩
      · subst e
        exact ⟨15, _, hf1.2.2.2.2.2, hf2.2.2.2.2.2, by decide, by decide⟩

theorem demo_market_bid_args :
    order_put_args demoEnv demoEngine (demoPkg Command.CMD_ORDER_PUT_MARKET)
      (demoMarketParams 2 "0.0001") = some (demoMarketBidArgs (1 / 10000)) := by
  with_unfolding_all rfl

/-- A MARKET bid of 0.0001 BTC, below the minimum amount, is rejected by
validation on the engine of the examples, and so it is once every balance
entry is removed. -/
theorem order_put_market_bid_balances_witness :
    same_tables demoEnv demoEngine { demoEngine with balances := [] } ∧
    rejected_by_validation demoEnv demoEngine (demoPkg Command.CMD_ORDER_PUT_MARKET)
      (demoMarketParams 2 "0.0001") ∧
    rejected_by_validation demoEnv { demoEngine with balances := [] }
      (demoPkg Command.CMD_ORDER_PUT_MARKET) (demoMarketParams 2 "0.0001") :=
  have htables : same_tables demoEnv demoEngine { demoEngine with balances := [] } :=
    ⟨rfl, rfl⟩
  have hrej : rejected_by_validation demoEnv demoEngine
      (demoPkg Command.CMD_ORDER_PUT_MARKET) (demoMarketParams 2 "0.0001") :=
    Or.inr ⟨demoMarketBidArgs (1 / 10000), -2, demo_market_bid_args,
      by with_unfolding_all rfl⟩
  ⟨htables, hrej,
    (order_put_market_bid_balances demoEnv demoEngine [] (demoPkg Command.CMD_ORDER_PUT_MARKET)
      (demoMarketParams 2 "0.0001") rfl htables
      (fun a ha => by
        rw [demo_market_bid_args] at ha
        cases ha
        rfl)).2.2.1.mpr hrej⟩

/-! ### Depth: merging on the grid of the prices -/

theorem mpd_trunc_intCast (k : Int) : mpd_trunc (k : Dec) = k := by
  unfold mpd_trunc
  split_ifs
  · exact Int.floor_intCast k
  · exact Int.ceil_intCast k

/-- For a price on the grid of the interval the quotient is exact and the
remainder is zero, so both merged level prices are the price itself. -/
theorem merge_price_on_grid (interval p : Dec) (hint : interval ≠ 0)
    (hp : ∃ k : Int, p = k * interval) :
    (if mpd_cmp (mpd_divmod p interval).2 0 ≠ 0
      then (mpd_divmod p interval).1 * interval + interval
      else (mpd_divmod p interval).1 * interval) = p ∧
    (mpd_divmod p interval).1 * interval = p := by
  obtain ⟨k, hk⟩ := hp
  have hdiv : p / interval = (k : Dec) := by
    rw [hk]
    field_simp
  have hq : (mpd_divmod p interval).1 = (k : Dec) := by
    unfold mpd_divmod
    simp only [hdiv, mpd_trunc_intCast]
  have hr : (mpd_divmod p interval).2 = 0 := by
    unfold mpd_divmod mpd_rem
    simp only [hdiv, mpd_trunc_intCast]
    rw [hk]
    ring
  have hc : ¬ mpd_cmp (mpd_divmod p interval).2 0 ≠ 0 := by
    rw [mpd_cmp_ne_zero, hr]
    exact fun h => h rfl
  rw [if_neg hc, hq, hk]
  exact ⟨rfl, rfl⟩

/-- On sorted asks on the grid the merged walk is the plain walk. -/
theorem depth_merge_asks_on_grid (env : Env) (interval : Dec) (hint : interval ≠ 0)
    (fuel : Nat) (nodes : List Order) (index limit : Nat)
    (hsorted : asks_sorted nodes) (hgrid : prices_on_grid interval nodes) :
    depth_merge_asks env interval fuel nodes index limit =
      depth_walk env fuel nodes index limit := by
  induction fuel generalizing nodes index with
  | zero => simp [depth_merge_asks, depth_walk]
  | succ fuel ih =>
    cases nodes with
    | nil => simp [depth_merge_asks, depth_walk]
    | cons order rest =>
      unfold depth_merge_asks depth_walk
      by_cases hlt : index < limit
      · unfold asks_sorted at hsorted
        rw [List.pairwise_cons] at hsorted
        have hprice := (merge_price_on_grid interval order.price hint
          (hgrid order (List.mem_cons_self _ _))).1
        have hcongr : ∀ x ∈ rest,
            (fun x : Order => decide (x.price ≤ order.price)) x =
              (fun x : Order => decide (x.price = order.price)) x := by
          intro x hx
          have hle := hsorted.1 x hx
          by_cases hc : x.price = order.price
          · simp [hc]
          · have hnle : ¬ x.price ≤ order.price := fun h => hc (le_antisymm h hle)
            simp [hc, hnle]
        have hrest : asks_sorted (rest.dropWhile (fun x => decide (x.price = order.price))) :=
          List.Pairwise.sublist (List.dropWhile_sublist _) hsorted.2
        have hgridrest : prices_on_grid interval
            (rest.dropWhile (fun x => decide (x.price = order.price))) :=
          fun o ho => hgrid o (List.mem_cons_of_mem _
            ((List.dropWhile_sublist _).subset ho))
        simp only [if_pos hlt, hprice, depth_level_asks_eq, depth_level_eq]
        rw [takeWhile_congr_mem _ _ rest hcongr, dropWhile_congr_mem _ _ rest hcongr,
          ih _ (index + 1) hrest hgridrest]
      · simp [if_neg hlt]

/-- On sorted bids on the grid the merged walk is the plain walk. -/
theorem depth_merge_bids_on_grid (env : Env) (interval : Dec) (hint : interval ≠ 0)
    (fuel : Nat) (nodes : List Order) (index limit : Nat)
    (hsorted : bids_sorted nodes) (hgrid : prices_on_grid interval nodes) :
    depth_merge_bids env interval fuel nodes index limit =
      depth_walk env fuel nodes index limit := by
  induction fuel generalizing nodes index with
  | zero => simp [depth_merge_bids, depth_walk]
  | succ fuel ih =>
    cases nodes with
    | nil => simp [depth_merge_bids, depth_walk]
    | cons order rest =>
      unfold depth_merge_bids depth_walk
      by_cases hlt : index < limit
      · unfold bids_sorted at hsorted
        rw [List.pairwise_cons] at hsorted
        have hprice := (merge_price_on_grid interval order.price hint
          (hgrid order (List.mem_cons_self _ _))).2
        have hcongr : ∀ x ∈ rest,
            (fun x : Order => decide (order.price ≤ x.price)) x =
              (fun x : Order => decide (x.price = order.price)) x := by
          intro x hx
          have hle := hsorted.1 x hx
          by_cases hc : x.price = order.price
          · simp [hc]
          · have hnle : ¬ order.price ≤ x.price := fun h => hc (le_antisymm hle h)
            simp [hc, hnle]
        have hrest : bids_sorted (rest.dropWhile (fun x => decide (x.price = order.price))) :=
          List.Pairwise.sublist (List.dropWhile_sublist _) hsorted.2
        have hgridrest : prices_on_grid interval
            (rest.dropWhile (fun x => decide (x.price = order.price))) :=
          fun o ho => hgrid o (List.mem_cons_of_mem _
            ((List.dropWhile_sublist _).subset ho))
        simp only [if_pos hlt, hprice, depth_level_bids_eq, depth_level_eq]
        rw [takeWhile_congr_mem _ _ rest hcongr, dropWhile_congr_mem _ _ rest hcongr,
          ih _ (index + 1) hrest hgridrest]
      · simp [if_neg hlt]

/-- C34: for a positive interval and a market whose asks are sorted ascending,
whose bids are sorted descending and whose order prices are all exact
multiples of the interval, `get_depth_merge` returns for every limit the same
asks and bids as `get_depth`. -/
theorem get_depth_merge_on_grid (env : Env) (market : Market) (limit : Nat) (interval : Dec)
    (hint : 0 < interval)
    (hasks : asks_sorted market.asks) (hbids : bids_sorted market.bids)
    (hgrid : prices_on_grid interval (market.asks ++ market.bids)) :
    get_depth_merge env market limit interval = get_depth env market limit := by
  unfold get_depth_merge get_depth
  rw [depth_merge_asks_on_grid env interval (ne_of_gt hint) _ market.asks 0 limit hasks
      (fun o ho => hgrid o (List.mem_append_left _ ho)),
    depth_merge_bids_on_grid env interval (ne_of_gt hint) _ market.bids 0 limit hbids
      (fun o ho => hgrid o (List.mem_append_right _ ho))]

theorem demo_grid_market_on_grid :
    prices_on_grid 5 (demoGridMarket.asks ++ demoGridMarket.bids) := by
  intro o ho
  simp only [demoGridMarket, List.cons_append, List.nil_append, List.mem_cons,
    List.mem_singleton, List.not_mem_nil, or_false] at ho
  rcases ho with h | h | h | h | h | h | h | h <;> subst h
  · exact ⟨1, by norm_num⟩
  · exact ⟨1, by norm_num⟩
  · exact ⟨2, by norm_num⟩
  · exact ⟨4, by norm_num⟩
  · exact ⟨3, by norm_num⟩
  · exact ⟨2, by norm_num⟩
  · exact ⟨2, by norm_num⟩
  · exact ⟨1, by norm_num⟩

/-- On the book of the example, merged by 5, the depth is the plain depth:
asks 5 and 10 with amounts 3 and 4, bids 15 and 10 with amounts 2 and 4. -/
theorem get_depth_merge_on_grid_witness :
    (0 : Dec) < 5 ∧ asks_sorted demoGridMarket.asks ∧ bids_sorted demoGridMarket.bids ∧
    prices_on_grid 5 (demoGridMarket.asks ++ demoGridMarket.bids) ∧
    get_depth_merge demoEnvDepth demoGridMarket 2 5 =
      Json.object
        [("asks", Json.array [Json.array [Json.string "5", Json.string "3"],
                              Json.array [Json.string "10", Json.string "4"]]),
         ("bids", Json.array [Json.array [Json.string "15", Json.string "2"],
                              Json.array [Json.string "10", Json.string "4"]])] :=
  ⟨by with_unfolding_all decide,
   by unfold asks_sorted; with_unfolding_all decide,
   by unfold bids_sorted; with_unfolding_all decide,
   demo_grid_market_on_grid,
   (get_depth_merge_on_grid demoEnvDepth demoGridMarket 2 5 (by with_unfolding_all decide)
      (by unfold asks_sorted; with_unfolding_all decide)
      (by unfold bids_sorted; with_unfolding_all decide)
      demo_grid_market_on_grid).trans (by with_unfolding_all rfl)⟩
/-! ### Balance queries: the two forms -/

/-- The all-assets loop builds, for an asset with an entry, the unit of the
named loop, and nothing for an asset without one. -/
theorem balance_unit_all_eq_named (env : Env) (st : Engine) (user_id : Nat) (asset : String) :
    (user_has_entry env st user_id asset →
      balance_unit_all env st user_id asset = some (balance_unit_named env st user_id asset)) ∧
    (¬ user_has_entry env st user_id asset → balance_unit_all env st user_id asset = none) := by
  unfold user_has_entry balance_unit_all balance_unit_named
  cases env.balance_get st user_id BALANCE_TYPE_AVAILABLE asset <;>
    cases env.balance_get st user_id BALANCE_TYPE_FREEZE asset <;>
    simp

/-- The object built by the all-assets loop: under the name of a listed asset
with an entry the unit of the named form, under any other name what the object
held before. -/
theorem balance_query_all_get (env : Env) (st : Engine) (user_id : Nat)
    (assets : List asset_cfg) (result : List (String × Json)) (name : String) :
    ((∃ c ∈ assets, c.name = name) → user_has_entry env st user_id name →
      json_members_get (balance_query_all env st user_id assets result) name =
        some (balance_unit_named env st user_id name)) ∧
    (¬ ((∃ c ∈ assets, c.name = name) ∧ user_has_entry env st user_id name) →
      json_members_get (balance_query_all env st user_id assets result) name =
        json_members_get result name) := by
  induction assets generalizing result with
  | nil =>
    constructor
    · rintro ⟨c, hc, _⟩
      cases hc
    · intro _
      rfl
  | cons c rest ih =>
    have hunit := balance_unit_all_eq_named env st user_id c.name
    by_cases hentry : user_has_entry env st user_id c.name
    · have hall := hunit.1 hentry
      have hstep : balance_query_all env st user_id (c :: rest) result =
          balance_query_all env st user_id rest
            (json_object_set result c.name (balance_unit_named env st user_id c.name)) := by
        simp only [balance_query_all, hall]
      rw [hstep]
      have ih2 := ih (json_object_set result c.name (balance_unit_named env st user_id c.name))
      constructor
      · rintro ⟨c2, hc2, hname⟩ hen
        by_cases hrest : ∃ c3 ∈ rest, c3.name = name
        · exact ih2.1 hrest hen
        · rw [ih2.2 (fun h => hrest h.1)]
          rcases List.mem_cons.mp hc2 with e | hmem
          · subst e
            rw [← hname]
            exact json_members_get_set_same _ _ _
          · exact absurd ⟨c2, hmem, hname⟩ hrest
      · intro hnot
        have hne : name ≠ c.name := by
          intro e
          apply hnot
          exact ⟨⟨c, List.mem_cons_self _ _, e.symm⟩, e ▸ hentry⟩
        have hnot2 : ¬ ((∃ c3 ∈ rest, c3.name = name) ∧ user_has_entry env st user_id name) := by
          rintro ⟨⟨c3, hc3, hn⟩, hen⟩
          exact hnot ⟨⟨c3, List.mem_cons_of_mem _ hc3, hn⟩, hen⟩
        rw [ih2.2 hnot2, json_members_get_set_other _ _ _ _ hne]
    · have hall := hunit.2 hentry
      have hstep : balance_query_all env st user_id (c :: rest) result =
          balance_query_all env st user_id rest result := by
        simp only [balance_query_all, hall]
      rw [hstep]
      have ih2 := ih result
      constructor
      · rintro ⟨c2, hc2, hname⟩ hen
        rcases List.mem_cons.mp hc2 with e | hmem
        · subst e
          rw [hname] at hentry
          exact absurd hen hentry
        · exact ih2.1 ⟨c2, hmem, hname⟩ hen
      · intro hnot
        have hnot2 : ¬ ((∃ c3 ∈ rest, c3.name = name) ∧ user_has_entry env st user_id name) := by
          rintro ⟨⟨c3, hc3, hn⟩, hen⟩
          exact hnot ⟨⟨c3, List.mem_cons_of_mem _ hc3, hn⟩, hen⟩
        exact ih2.2 hnot2

/-- The all-assets form of `on_cmd_balance_query` runs the loop over the asset
table. -/
theorem on_cmd_balance_query_all (env : Env) (st : Engine) (pkg : rpc_pkg) (user_id : Nat)
    (huser0 : 0 < user_id) (huser : user_id < 4294967296) :
    on_cmd_balance_query env st pkg (Json.array [Json.integer user_id]) =
      reply_result st pkg
        (Json.object (balance_query_all env st user_id st.settings.assets [])) := by
  have hu := to_uint32_of_lt user_id huser
  have hne0 : ¬ user_id = 0 := by omega
  unfold on_cmd_balance_query
  simp only [json_array_size, List.length_cons, List.length_nil, json_array_get,
    List.get?_cons_zero, json_is_integer, json_integer_value, hu, hne0, if_false,
    Bool.true_eq_false, Nat.reduceAdd, Nat.lt_irrefl, if_true]

/-- C33: the two forms of BALANCE_QUERY agree. For a user id from 1 to
2^32 - 1, the all-assets query `[user_id]` returns an object that holds, under
the name of every listed asset for which the user has an AVAILABLE or a FREEZE
entry, the unit that the named query `[user_id, asset]` returns for that
asset, and that has no member under any other name: it omits exactly the
assets for which the user has neither entry. -/
theorem balance_query_forms_agree (env : Env) (st : Engine) (pkg : rpc_pkg) (user_id : Nat)
    (huser0 : 0 < user_id) (huser : user_id < 4294967296) :
    (∀ asset, user_has_entry env st user_id asset →
      balance_unit_all env st user_id asset =
        some (balance_unit_named env st user_id asset)) ∧
    (∀ asset, balance_unit_all env st user_id asset = none ↔
      ¬ user_has_entry env st user_id asset) ∧
    ∃ result,
      on_cmd_balance_query env st pkg (Json.array [Json.integer user_id]) =
        reply_result st pkg result ∧
      (∀ asset, asset_listed st asset → user_has_entry env st user_id asset →
        env.asset_exist st asset = true →
        ∃ unit, json_object_get result asset = some unit ∧
          on_cmd_balance_query env st pkg
              (Json.array [Json.integer user_id, Json.string asset]) =
            reply_result st pkg (Json.object [(asset, unit)])) ∧
      (∀ asset, json_object_get result asset = none ↔
        ¬ (asset_listed st asset ∧ user_has_entry env st user_id asset)) := by
  refine ⟨fun asset => (balance_unit_all_eq_named env st user_id asset).1, ?_, ?_⟩
  · intro asset
    constructor
    · intro hnone hentry
      rw [(balance_unit_all_eq_named env st user_id asset).1 hentry] at hnone
      cases hnone
    · exact (balance_unit_all_eq_named env st user_id asset).2
  · refine ⟨Json.object (balance_query_all env st user_id st.settings.assets []),
      on_cmd_balance_query_all env st pkg user_id huser0 huser, ?_, ?_⟩
    · intro asset hlisted hentry hexist
      refine ⟨balance_unit_named env st user_id asset,
        (balance_query_all_get env st user_id st.settings.assets [] asset).1 hlisted hentry, ?_⟩
      have hq := on_cmd_balance_query_named env st pkg user_id [Json.string asset] huser0 huser
        (by simp)
      have hloop : balance_query_named env st user_id [Json.string asset] [] =
          some [(asset, balance_unit_named env st user_id asset)] := by
        simp only [balance_query_named, json_string_value, hexist, Bool.true_eq_false, if_false,
          json_object_set]
      rw [hloop] at hq
      exact hq
    · intro asset
      have hget := balance_query_all_get env st user_id st.settings.assets [] asset
      constructor
      · intro hnone hboth
        have hsome := hget.1 hboth.1 hboth.2
        unfold json_object_get at hnone
        simp only at hnone
        rw [hsome] at hnone
        cases hnone
      · intro hnot
        unfold json_object_get
        simp only
        rw [hget.2 hnot]
        rfl

/-- On the engine of the examples user 2 holds BTC only: asked for everything,
the reply is the BTC unit alone, the unit of the query that names BTC. -/
theorem balance_query_forms_agree_witness :
    on_cmd_balance_query demoEnvDepth demoEngine (demoPkg Command.CMD_BALANCE_QUERY)
        (Json.array [Json.integer 2]) =
      reply_result demoEngine (demoPkg Command.CMD_BALANCE_QUERY)
        (Json.object [("BTC", Json.object [("available", Json.string "2"),
          ("freeze", Json.string "0"), ("total", Json.string "2")])]) ∧
    on_cmd_balance_query demoEnvDepth demoEngine (demoPkg Command.CMD_BALANCE_QUERY)
        (Json.array [Json.integer 2, Json.string "BTC"]) =
      reply_result demoEngine (demoPkg Command.CMD_BALANCE_QUERY)
        (Json.object [("BTC", Json.object [("available", Json.string "2"),
          ("freeze", Json.string "0"), ("total", Json.string "2")])]) ∧
    balance_unit_all demoEnvDepth demoEngine 2 "BTC" =
      some (balance_unit_named demoEnvDepth demoEngine 2 "BTC") ∧
    balance_unit_all demoEnvDepth demoEngine 2 "USD" = none :=
  ⟨by with_unfolding_all rfl, by with_unfolding_all rfl,
   (balance_query_forms_agree demoEnvDepth demoEngine (demoPkg Command.CMD_BALANCE_QUERY) 2
      (by decide) (by decide)).1 "BTC" (Or.inl (by with_unfolding_all decide)),
   ((balance_query_forms_agree demoEnvDepth demoEngine (demoPkg Command.CMD_BALANCE_QUERY) 2
      (by decide) (by decide)).2.1 "USD").mpr (by
        unfold user_has_entry
        with_unfolding_all decide)⟩
/-! ### The user id as a 32-bit value -/

theorem to_uint32_cast (u : Int) : (to_uint32 u : Int) = u % 4294967296 := by
  unfold to_uint32
  exact Int.toNat_of_nonneg (Int.emod_nonneg u (by decide))

theorem to_uint32_eq_zero (u : Int) : to_uint32 u = 0 ↔ u % 4294967296 = 0 := by
  rw [← to_uint32_cast]
  exact Int.natCast_eq_zero.symm

theorem reply_result_ne_reply_error (st : Engine) (pkg : rpc_pkg) (result : Json) (c : Int)
    (m : String) : reply_result st pkg result ≠ reply_error st pkg c m := by
  intro h
  simp [reply_result, reply_error, reply_json] at h

/-- C35: the handlers read the user id into a 32-bit unsigned integer, so a
user id `u` counts modulo 2^32. In `on_cmd_order_cancel` the ownership check
passes, and `market_cancel_order` is called, for every request whose `u`
modulo 2^32 is the user id of the order, also when `u` itself is another
number. `on_cmd_balance_query` answers the all-assets request with code 1
exactly when `u` is a multiple of 2^32, zero included, and answers any other
`u` as the user `u` modulo 2^32, in both forms of the request. -/
theorem user_id_modulo (env : Env) (st : Engine) (pkg : rpc_pkg) (u : Int) :
    (to_uint32 u : Int) = u % 4294967296 ∧
    (∀ market_name market oid order, env.get_market st market_name = some market →
      env.market_get_order market (to_uint64 oid) = some order →
      u % 4294967296 = order.user_id →
      on_cmd_order_cancel env st pkg
          (Json.array [Json.integer u, Json.string market_name, Json.integer oid]) =
        Outcome.after [Event.market_cancel_order market order]
          (if (env.market_cancel_order st market order).ret < 0 then
            reply_error_internal_error (env.market_cancel_order st market order).state pkg
          else
            Outcome.after [Event.append_operlog "cancel_order"
                (Json.array [Json.integer u, Json.string market_name, Json.integer oid])]
              (reply_result
                (env.append_operlog (env.market_cancel_order st market order).state
                  "cancel_order"
                  (Json.array [Json.integer u, Json.string market_name, Json.integer oid]))
                pkg (env.market_cancel_order st market order).result))) ∧
    (on_cmd_balance_query env st pkg (Json.array [Json.integer u]) =
        reply_error st pkg 1 "invalid argument" ↔ u % 4294967296 = 0) ∧
    (u % 4294967296 ≠ 0 →
      on_cmd_balance_query env st pkg (Json.array [Json.integer u]) =
        reply_result st pkg
          (Json.object (balance_query_all env st (to_uint32 u) st.settings.assets []))) ∧
    (∀ names, names ≠ [] →
      (u % 4294967296 = 0 →
        on_cmd_balance_query env st pkg (Json.array (Json.integer u :: names)) =
          reply_error st pkg 1 "invalid argument") ∧
      (u % 4294967296 ≠ 0 →
        ∀ result, balance_query_named env st (to_uint32 u) names [] = some result →
        on_cmd_balance_query env st pkg (Json.array (Json.integer u :: names)) =
          reply_result st pkg (Json.object result))) := by
  have hall0 : u % 4294967296 = 0 →
      on_cmd_balance_query env st pkg (Json.array [Json.integer u]) =
        reply_error st pkg 1 "invalid argument" := by
    intro h0
    have hz := (to_uint32_eq_zero u).mpr h0
    unfold on_cmd_balance_query
    simp only [json_array_size, List.length_cons, List.length_nil, json_array_get,
      List.get?_cons_zero, json_is_integer, json_integer_value, hz, if_true, if_false,
      Bool.true_eq_false, Nat.reduceAdd, Nat.lt_irrefl, reply_error_invalid_argument]
  have hall1 : u % 4294967296 ≠ 0 →
      on_cmd_balance_query env st pkg (Json.array [Json.integer u]) =
        reply_result st pkg
          (Json.object (balance_query_all env st (to_uint32 u) st.settings.assets [])) := by
    intro h0
    have hz : ¬ to_uint32 u = 0 := fun h => h0 ((to_uint32_eq_zero u).mp h)
    unfold on_cmd_balance_query
    simp only [json_array_size, List.length_cons, List.length_nil, json_array_get,
      List.get?_cons_zero, json_is_integer, json_integer_value, hz, if_true, if_false,
      Bool.true_eq_false, Nat.reduceAdd, Nat.lt_irrefl]
  refine ⟨to_uint32_cast u, ?_, ?_, hall1, ?_⟩
  · intro market_name market oid order hmarket horder huser
    have hu : to_uint32 u = order.user_id := by
      have h := to_uint32_cast u
      rw [huser] at h
      exact_mod_cast h
    unfold on_cmd_order_cancel
    simp only [json_array_size, List.length_cons, List.length_nil, json_array_get,
      List.get?_cons_zero, List.get?_cons_succ, json_is_integer, json_integer_value,
      json_string_value, ne_eq, not_true_eq_false, if_false, Bool.true_eq_false, Nat.reduceAdd,
      hmarket, horder, hu]
  · constructor
    · intro h
      by_contra h0
      rw [hall1 h0] at h
      exact reply_result_ne_reply_error _ _ _ _ _ h
    · exact hall0
  · intro names hnames
    have hlen : ¬ names.length + 1 < 1 := by omega
    have hlen1 : ¬ names.length + 1 = 1 := by
      intro e
      exact hnames (List.length_eq_zero.mp (by omega))
    constructor
    · intro h0
      have hz := (to_uint32_eq_zero u).mpr h0
      unfold on_cmd_balance_query
      simp only [json_array_size, List.length_cons, hlen, if_false, json_array_get,
        List.get?_cons_zero, json_is_integer, Bool.true_eq_false, json_integer_value, hz,
        if_true, reply_error_invalid_argument]
    · intro h0 result hres
      have hz : ¬ to_uint32 u = 0 := fun h => h0 ((to_uint32_eq_zero u).mp h)
      unfold on_cmd_balance_query
      simp only [json_array_size, List.length_cons, hlen, if_false, json_array_get,
        List.get?_cons_zero, json_is_integer, Bool.true_eq_false, json_integer_value, hz,
        hlen1, json_array_elems, List.drop_succ_cons, List.drop_zero, hres]

/-- On the engine of the examples the user id 2^32 is refused by the balance
query, and the user id 2^32 + 2 cancels order 7 of user 2. -/
theorem user_id_modulo_witness :
    on_cmd_balance_query demoEnv demoEngine (demoPkg Command.CMD_BALANCE_QUERY)
        (Json.array [Json.integer 4294967296]) =
      reply_error demoEngine (demoPkg Command.CMD_BALANCE_QUERY) 1 "invalid argument" ∧
    (on_cmd_order_cancel demoEnv demoEngine demoCancelPkg
        (Json.array [Json.integer 4294967298, Json.string "BTCUSD", Json.integer 7])).trace =
      [Event.market_cancel_order demoMarket { id := 7, user_id := 2, price := 10000, left := 1 },
       Event.append_operlog "cancel_order"
         (Json.array [Json.integer 4294967298, Json.string "BTCUSD", Json.integer 7]),
       Event.rpc_send (Json.object [("error", Json.null), ("result", Json.object []),
         ("id", Json.integer 42)])] :=
  ⟨(user_id_modulo demoEnv demoEngine (demoPkg Command.CMD_BALANCE_QUERY)
      4294967296).2.2.1.mpr (by decide),
   (congrArg Outcome.trace
      ((user_id_modulo demoEnv demoEngine demoCancelPkg 4294967298).2.1 "BTCUSD" demoMarket 7
        { id := 7, user_id := 2, price := 10000, left := 1 }
        (by with_unfolding_all rfl) (by with_unfolding_all rfl) (by decide))).trans
     (by with_unfolding_all rfl)⟩

/-! ### Error replies after a placement call -/

/-- C22, as amended: for a well-formed ORDER_BOOK request `[market, side, offset,
limit]` (an existing market, any integer side, an offset and a limit that are
non-negative 64-bit integers), the side is read as an unsigned 32-bit value,
side mod 2^32: when that value is neither ASK nor BID the reply is code 1, and
so is it for a `limit` above ORDER_BOOK_MAX_LEN; otherwise the value ASK
selects the asks and BID the bids, `total` is the length of the selected book
and `orders` is its slice from index `offset` of length
min(limit, total - offset), in the order of the book. -/
theorem order_book_slice (env : Env) (st : Engine) (pkg : rpc_pkg)
    (side : Int) (offset limit : Nat) (market_name : String) (market : Market)
    (hoffset : offset < 9223372036854775808)
    (hlimit : limit < 9223372036854775808)
    (hmarket : env.get_market st market_name = some market)
    (hasks : market.asks.length < 9223372036854775808)
    (hbids : market.bids.length < 9223372036854775808) :
    to_uint32 side = (side % 4294967296).toNat ∧
    (to_uint32 side ≠ MARKET_ORDER_SIDE_ASK → to_uint32 side ≠ MARKET_ORDER_SIDE_BID →
      on_cmd_order_book env st pkg
          (Json.array [Json.string market_name, Json.integer side, Json.integer offset,
            Json.integer limit]) =
        reply_error st pkg 1 "invalid argument") ∧
    (limit > env.ORDER_BOOK_MAX_LEN →
      on_cmd_order_book env st pkg
          (Json.array [Json.string market_name, Json.integer side, Json.integer offset,
            Json.integer limit]) =
        reply_error st pkg 1 "invalid argument") ∧
    (∀ book, (to_uint32 side = MARKET_ORDER_SIDE_ASK ∧ book = market.asks) ∨
        (to_uint32 side = MARKET_ORDER_SIDE_BID ∧ book = market.bids) →
      limit ≤ env.ORDER_BOOK_MAX_LEN →
      on_cmd_order_book env st pkg
          (Json.array [Json.string market_name, Json.integer side, Json.integer offset,
            Json.integer limit]) =
        reply_result st pkg (Json.object [("offset", Json.integer offset),
          ("limit", Json.integer limit), ("total", Json.integer book.length),
          ("orders", Json.array ((order_slice book offset limit).map env.get_order_info))]) ∧
      (order_slice book offset limit).length = min limit (book.length - offset) ∧
      (book.length ≤ offset → order_slice book offset limit = []) ∧
      ∀ i, i < min limit (book.length - offset) →
        (order_slice book offset limit).get? i = book.get? (offset + i)) := by
  have ho := to_uint64_of_lt offset (by omega)
  have hl := to_uint64_of_lt limit (by omega)
  have hjo := to_json_int_of_lt offset hoffset
  have hjl := to_json_int_of_lt limit hlimit
  refine ⟨rfl, ?_, ?_, ?_⟩
  · intro h1 h2
    unfold on_cmd_order_book
    simp only [json_array_size, json_array_get, json_string_value, json_is_integer,
      json_integer_value, List.length_cons, List.length_nil, List.get?_cons_zero,
      List.get?_cons_succ, ne_eq, not_true_eq_false, if_false, Nat.reduceAdd, hmarket,
      Bool.true_eq_false, h1, h2, not_false_eq_true, and_self, if_true,
      reply_error_invalid_argument]
  · intro hgt
    unfold on_cmd_order_book
    simp only [json_array_size, json_array_get, json_string_value, json_is_integer,
      json_integer_value, List.length_cons, List.length_nil, List.get?_cons_zero,
      List.get?_cons_succ, ne_eq, not_true_eq_false, if_false, Nat.reduceAdd, hmarket,
      Bool.true_eq_false, hl, hgt, if_true, reply_error_invalid_argument]
    split_ifs <;> rfl
  · intro book hbook hle
    have hngt : ¬ limit > env.ORDER_BOOK_MAX_LEN := not_lt.mpr hle
    refine ⟨?_, order_slice_length _ _ _, ?_, ?_⟩
    · rcases hbook with ⟨hside2, hb⟩ | ⟨hside2, hb⟩
      · subst hb
        have hjt := to_json_int_of_lt market.asks.length hasks
        unfold on_cmd_order_book
        simp only [json_array_size, json_array_get, json_string_value, json_is_integer,
          json_integer_value, List.length_cons, List.length_nil, List.get?_cons_zero,
          List.get?_cons_succ, ne_eq, not_true_eq_false, if_false, Nat.reduceAdd, hmarket,
          Bool.true_eq_false, hside2, hl, ho, false_and, hngt, if_true, hjo, hjl, hjt,
          paged_orders_eq]
      · subst hb
        have hjt := to_json_int_of_lt market.bids.length hbids
        have hne : ¬ MARKET_ORDER_SIDE_BID = MARKET_ORDER_SIDE_ASK := by decide
        unfold on_cmd_order_book
        simp only [json_array_size, json_array_get, json_string_value, json_is_integer,
          json_integer_value, List.length_cons, List.length_nil, List.get?_cons_zero,
          List.get?_cons_succ, ne_eq, not_true_eq_false, if_false, Nat.reduceAdd, hmarket,
          Bool.true_eq_false, hside2, hl, ho, hne, and_false, not_false_eq_true,
          hngt, hjo, hjl, hjt, paged_orders_eq]
    · intro h
      unfold order_slice
      rw [List.drop_eq_nil_of_le h]
      simp
    · intro i hi
      unfold order_slice
      have hi2 : i < limit := lt_of_lt_of_le hi (min_le_left _ _)
      rw [List.get?_eq_getElem?, List.get?_eq_getElem?, List.getElem?_take_of_lt hi2,
        List.getElem?_drop]

/-- C22 as stated fails for side 2^32 + 1, a value that is neither ASK (1) nor
BID (2): the request is not answered with code 1 but served as an ASK request,
with the asks from index 3 on. -/
theorem order_book_side_counterexample :
    (4294967297 : Int) ≠ MARKET_ORDER_SIDE_ASK ∧ (4294967297 : Int) ≠ MARKET_ORDER_SIDE_BID ∧
    demoEnv.get_market demoPagedEngine "BTCUSD" = some demoPagedMarket ∧
    (4 : Nat) ≤ demoEnv.ORDER_BOOK_MAX_LEN ∧
    on_cmd_order_book demoEnv demoPagedEngine (demoPkg Command.CMD_ORDER_BOOK)
        (Json.array [Json.string "BTCUSD", Json.integer 4294967297, Json.integer 3,
          Json.integer 4]) =
      reply_result demoPagedEngine (demoPkg Command.CMD_ORDER_BOOK)
        (Json.object [("offset", Json.integer 3), ("limit", Json.integer 4),
          ("total", Json.integer 5),
          ("orders", Json.array [Json.object [("id", Json.integer 4)],
            Json.object [("id", Json.integer 5)]])]) ∧
    on_cmd_order_book demoEnv demoPagedEngine (demoPkg Command.CMD_ORDER_BOOK)
        (Json.array [Json.string "BTCUSD", Json.integer 4294967297, Json.integer 3,
          Json.integer 4]) ≠
      reply_error demoPagedEngine (demoPkg Command.CMD_ORDER_BOOK) 1 "invalid argument" := by
  have heq : on_cmd_order_book demoEnv demoPagedEngine (demoPkg Command.CMD_ORDER_BOOK)
      (Json.array [Json.string "BTCUSD", Json.integer 4294967297, Json.integer 3,
        Json.integer 4]) =
      reply_result demoPagedEngine (demoPkg Command.CMD_ORDER_BOOK)
        (Json.object [("offset", Json.integer 3), ("limit", Json.integer 4),
          ("total", Json.integer 5),
          ("orders", Json.array [Json.object [("id", Json.integer 4)],
            Json.object [("id", Json.integer 5)]])]) := by
    with_unfolding_all rfl
  refine ⟨by decide, by decide, by with_unfolding_all rfl, by decide, heq, ?_⟩
  rw [heq]
  exact reply_result_ne_reply_error _ _ _ _ _

/-- Witness of C22: the ASK request for four orders from index 3 of a book of
five asks is answered with the last two. -/
theorem order_book_slice_witness :
    on_cmd_order_book demoEnv demoPagedEngine (demoPkg Command.CMD_ORDER_BOOK)
        (Json.array [Json.string "BTCUSD", Json.integer 1, Json.integer 3, Json.integer 4]) =
      reply_result demoPagedEngine (demoPkg Command.CMD_ORDER_BOOK)
        (Json.object [("offset", Json.integer 3), ("limit", Json.integer 4),
          ("total", Json.integer 5),
          ("orders", Json.array [Json.object [("id", Json.integer 4)],
            Json.object [("id", Json.integer 5)]])]) :=
  ((order_book_slice demoEnv demoPagedEngine (demoPkg Command.CMD_ORDER_BOOK) 1 3 4
      "BTCUSD" demoPagedMarket (by decide) (by decide)
      (by with_unfolding_all rfl) (by decide) (by decide)).2.2.2
    demoPagedMarket.asks (Or.inl ⟨rfl, rfl⟩) (by decide)).1

end MatchEngine
